import Mathlib

/-!
# kitti_tracking_player: frame synchronisation and geometric pipeline

A shallow embedding of `kitti_tracking_player.cpp`.

Conventions of the embedding:

* `float` and `double` values are rationals (`ℚ`); there are no infinities and
  no NaN.  A division by zero, which the C++ code evaluates to a non-finite
  value, takes Lean's value `0`; no statement below depends on it.
* The rounding of a result to its format (IEEE 754 binary32 for `float`,
  binary64 for `double`, to nearest, ties to even, every operation rounded on
  its own) is written out where statements below turn on it: in the colour
  value of `toColor`, in the casts and the sum of `showBoundingBox`, and in the
  zone and central meridian of `latlon2xy_helper`.  The other arithmetic is
  exact.
* `int` values are unbounded integers (`Int`), except the two `unsigned int`
  frame counters of `main`, which are naturals reduced modulo `2 ^ 32`, and the
  result of the conversion of a `float` to `int`, which is kept within 32 bits.
* `std::vector` is `List`; `push_back` appends at the end.
* Library routines that are not part of the repository (`std::sqrt`, `sin`,
  `cos`, `tan`, `boost::tokenizer`, `boost::lexical_cast`,
  `tf::createQuaternionFromRPY`) are parameters of the definitions that call
  them.
* Calls that only hand data to the outside world (ROS publishers, OpenCV
  drawing) are recorded as the list of values handed over.
-/

namespace KittiPlayer

/-! ## Floating-point formats -/

/-- Rounding of a rational to the nearest integer, a tie going to the even
one. -/
def roundHalfEven (r : ℚ) : Int :=
  if r - ⌊r⌋ < 1 / 2 then ⌊r⌋
  else if 1 / 2 < r - ⌊r⌋ then ⌊r⌋ + 1
  else if ⌊r⌋ % 2 = 0 then ⌊r⌋ else ⌊r⌋ + 1

/-- The exponent of the unit in the last place of a magnitude `q`, in the
binary format with `p` significand bits and least exponent `emin`: a
magnitude in `[2 ^ e, 2 ^ (e + 1))` with `e ≥ emin` has the unit
`2 ^ (e - (p - 1))`, a smaller one (the subnormal range) has the unit
`2 ^ (emin - (p - 1))`. -/
def ulpExponent (p : Nat) (emin : Int) (q : ℚ) : Int :=
  max (Int.log 2 q) emin - ((p : Int) - 1)

/-- Rounding of a magnitude to the nearest multiple of its unit in the last
place, a tie going to the even multiple. -/
def roundMagnitude (p : Nat) (emin : Int) (q : ℚ) : ℚ :=
  (roundHalfEven (q / 2 ^ ulpExponent p emin q) : ℚ) * 2 ^ ulpExponent p emin q

/-- Rounding to nearest, ties to even, to the binary floating-point format
with `p` significand bits and least exponent `emin`.  The exponent is not
bounded above: a value beyond the largest finite number of the format is
rounded like the others, where the hardware delivers an infinity. -/
def roundToFormat (p : Nat) (emin : Int) (q : ℚ) : ℚ :=
  if q < 0 then - roundMagnitude p emin (-q) else roundMagnitude p emin q

/-- Rounding to `float` (IEEE 754 binary32): the conversion `(float) q`, and
the rounding of the result of an operation on `float` operands. -/
def toFloat (q : ℚ) : ℚ := roundToFormat 24 (-126) q

/-- Rounding to `double` (IEEE 754 binary64): the rounding of the result of an
operation on `double` operands. -/
def toDouble (q : ℚ) : ℚ := roundToFormat 53 (-1022) q

/-! ## Tracklets -/

/-- One per-frame pose of a tracklet (`Tracklets::tPose`): translation and
rotation of the object relative to the sensor. -/
structure tPose where
  tx : ℚ
  ty : ℚ
  tz : ℚ
  rx : ℚ
  ry : ℚ
  rz : ℚ
deriving DecidableEq, Repr

/-- One tracked object (`KittiTracklet`, i.e. `Tracklets::tTracklet`): class,
box dimensions, first frame and one pose per covered frame. -/
structure KittiTracklet where
  objectType : String
  h : ℚ
  w : ℚ
  l : ℚ
  first_frame : Int
  poses : List tPose
deriving DecidableEq, Repr

/-- Modelled from the spec: `KittiTracklet::lastFrame()` is declared in
`kitti-devkit-raw/tracklets.h`, which is not part of the sources at hand.  The
spec gives the covered frame range as
`[first_frame, first_frame + poses.size() - 1]`. -/
def KittiTracklet.lastFrame (t : KittiTracklet) : Int :=
  t.first_frame + (t.poses.length : Int) - 1

/-- The function `loadAvailableTracklets (dataset, frame_index, availableTracklets)`: the
tracklets of the dataset, in load order, and the output vector passed in; the
result is the output vector after the call.  The `for` loop runs `tracklet_id`
over `0 .. number_of_tracklets - 1`, and `getTracklet (tracklet_id)` is the
element at that index. -/
def loadAvailableTracklets (tracklets : List KittiTracklet) (frame_index : Int)
    (availableTracklets : List KittiTracklet) : List KittiTracklet :=
  let number_of_tracklets := tracklets.length
  (List.range number_of_tracklets).foldl
    (fun availableTracklets tracklet_id =>
      match tracklets[tracklet_id]? with
      | some tracklet =>
        if tracklet.first_frame ≤ frame_index ∧ tracklet.lastFrame ≥ frame_index then
          availableTracklets ++ [tracklet]
        else
          availableTracklets
      | none => availableTracklets)
    availableTracklets

/-- The inclusive frame-range test of the spec:
`first_frame <= f <= first_frame + len(poses) - 1`. -/
def activeAtFrame (f : Int) (t : KittiTracklet) : Bool :=
  decide (t.first_frame ≤ f ∧ f ≤ t.first_frame + (t.poses.length : Int) - 1)

/-- A pose with all components zero, used to build examples. -/
def zeroPose : tPose := ⟨0, 0, 0, 0, 0, 0⟩

/-- The tracklet of the spec's example: `first_frame = 10` and five poses. -/
def exampleTracklet : KittiTracklet :=
  { objectType := "Car", h := 2, w := 2, l := 4, first_frame := 10,
    poses := List.replicate 5 zeroPose }

/-! ## Projection of lidar points into the image -/

/-- A lidar point (`pcl::PointXYZI`). -/
structure PointXYZI where
  x : ℚ
  y : ℚ
  z : ℚ
  intensity : ℚ
deriving DecidableEq, Repr

/-- A pixel position (`cv::Point2f`); the default-constructed one is `(0, 0)`. -/
structure Point2f where
  x : ℚ
  y : ℚ
deriving DecidableEq, Repr

/-- A matrix of dynamic size (`Eigen::MatrixXf`): its two dimensions and its
coefficients, read at `(row, column)`. -/
structure MatrixXf where
  rows : Nat
  cols : Nat
  coeff : Nat → Nat → ℚ

/-- The function `projectPoint2Image (pointIn, projectmatrix, point_project)`: the returned
flag together with the value of the output parameter `point_project` after the
call. -/
def projectPoint2Image (pointIn : PointXYZI) (projectmatrix : MatrixXf)
    (point_project : Point2f) : Bool × Point2f :=
  if ¬ (projectmatrix.rows = 3 ∧ projectmatrix.cols = 4) then
    (false, point_project)
  else
    let point_temp : Nat → ℚ := fun i =>
      projectmatrix.coeff i 0 * pointIn.x + projectmatrix.coeff i 1 * pointIn.y
        + projectmatrix.coeff i 2 * pointIn.z + projectmatrix.coeff i 3 * 1
    let x := point_temp 0 / point_temp 2
    let y := point_temp 1 / point_temp 2
    (true, ⟨x, y⟩)

/-- Conversion of a `float` to `int`, as in `int res = <float expression>`:
the fractional part is discarded (truncation toward zero).  When the result
does not fit the 32 bits of an `int` the language leaves the conversion
undefined; it is given the value `-2 ^ 31` here, which the conversion
instruction of x86 processors delivers. -/
def floatToInt (q : ℚ) : Int :=
  let truncated : Int := if 0 ≤ q then ⌊q⌋ else ⌈q⌉
  if -2 ^ 31 ≤ truncated ∧ truncated < 2 ^ 31 then truncated else -2 ^ 31

/-- Local constant `scale` of `ProjectCloud2Image`. -/
def ProjectCloud2Image.scale : Int := 120

/-- Local constant `min_dis` of `ProjectCloud2Image`. -/
def ProjectCloud2Image.min_dis : Int := 1

/-- Local constant `max_dis` of `ProjectCloud2Image`. -/
def ProjectCloud2Image.max_dis : Int := 70

/-- The argument of `std::sqrt` in step 1 of the lambda `toColor`:
`point.x * point.x + point.y * point.y + point.z * point.z`, computed from the
`float` coordinates of the point in `float` arithmetic. -/
def ProjectCloud2Image.squaredDistance (point : PointXYZI) : ℚ :=
  toFloat (toFloat (toFloat (point.x * point.x) + toFloat (point.y * point.y))
    + toFloat (point.z * point.z))

/-- Step 1 of the lambda `toColor`: the `float` variable `distance`, with the
`float` overload of `std::sqrt` as parameter. -/
def ProjectCloud2Image.distance (sqrt : ℚ → ℚ) (point : PointXYZI) : ℚ :=
  toFloat (sqrt (ProjectCloud2Image.squaredDistance point))

/-- Step 2 of the lambda `toColor`, before the conversion to `int`: the value
of `((distance - min_dis) / (max_dis - min_dis)) * scale` in `float`
arithmetic; the `int` operands convert to `float` without change. -/
def ProjectCloud2Image.colorValue (distance : ℚ) : ℚ :=
  toFloat (toFloat (toFloat (distance - (ProjectCloud2Image.min_dis : ℚ))
      / (((ProjectCloud2Image.max_dis - ProjectCloud2Image.min_dis : Int)) : ℚ))
    * (ProjectCloud2Image.scale : ℚ))

/-- The lambda `toColor` of `ProjectCloud2Image`. -/
def ProjectCloud2Image.toColor (sqrt : ℚ → ℚ) (point : PointXYZI) : Int :=
  let distance := ProjectCloud2Image.distance sqrt point
  let res : Int := floatToInt (ProjectCloud2Image.colorValue distance)
  res

/-- One call `cv::circle (hsv_image, image_point, 2, cv::Scalar (color, 255, 255), -1)`:
a filled marker of radius 2 at `image_point` with hue `color`. -/
structure CircleCall where
  image_point : Point2f
  color : Int
deriving DecidableEq, Repr

/-- The drawing loop of `ProjectCloud2Image` over the points of the cloud, in
order: the list of `cv::circle` calls made on the copy of the input image. -/
def ProjectCloud2Image (sqrt : ℚ → ℚ) (cloudIn : List PointXYZI)
    (projectmatrix : MatrixXf) : List CircleCall :=
  match cloudIn with
  | [] => []
  | point :: rest =>
    if point.x < 0 then
      ProjectCloud2Image sqrt rest projectmatrix
    else
      let color := ProjectCloud2Image.toColor sqrt point
      let image_point : Point2f := ⟨0, 0⟩
      let projected := projectPoint2Image point projectmatrix image_point
      ⟨projected.2, color⟩ :: ProjectCloud2Image sqrt rest projectmatrix

/-- A 3 x 4 projection matrix used in examples: depth is the forward
coordinate `x`, the pixel is `(y / x, z / x)`. -/
def sampleProjection : MatrixXf :=
  { rows := 3, cols := 4,
    coeff := fun i j =>
      if (i = 0 ∧ j = 1) ∨ (i = 1 ∧ j = 2) ∨ (i = 2 ∧ j = 0) then 1 else 0 }

/-- A square-root routine used in examples: exact on the squares `0`, `1`,
`70 ^ 2` and `139 ^ 2`. -/
def tableSqrt (q : ℚ) : ℚ :=
  if q = 19321 then 139 else if q = 4900 then 70 else if q = 1 then 1 else 0

/-! ## Geographic pose -/

/-- The routines of the C mathematical library used by the player, and the
constant `M_PI`. -/
structure Libm where
  sqrt : ℚ → ℚ
  sin : ℚ → ℚ
  cos : ℚ → ℚ
  tan : ℚ → ℚ
  M_PI : ℚ

/-- Cartesian coordinates (`struct Xy`). -/
structure Xy where
  x : ℚ
  y : ℚ
deriving DecidableEq, Repr

/-- The UTM zone of a longitude, as computed by `latlon2xy_helper`:
`utmz = 1.0 + floor ((lngd + 180.0) / 6.0)`, in `double` arithmetic. -/
def latlon2xy_helper.utmz (lngd : ℚ) : ℚ :=
  toDouble (1.0 + ((⌊toDouble (toDouble (lngd + 180.0) / 6.0)⌋ : Int) : ℚ))

/-- The central meridian of a zone, as computed by `latlon2xy_helper`:
`zcm = 3.0 + 6.0 * (utmz - 1.0) - 180.0`, in `double` arithmetic. -/
def latlon2xy_helper.zcm (utmz : ℚ) : ℚ :=
  toDouble (toDouble (3.0 + toDouble (6.0 * toDouble (utmz - 1.0))) - 180.0)

/-- The series of `latlon2xy_helper`: the standard easting `x` and the northing
`y` from the equator, before the false northing is added. -/
def latlon2xy_helper.series (m : Libm) (lat lngd : ℚ) : Xy :=
  let eqRad : ℚ := 6378137.0
  let flat : ℚ := 298.2572236
  let a := eqRad
  let f := 1.0 / flat
  let b := a * (1.0 - f)
  let e := m.sqrt (1.0 - (b ^ 2 / a ^ 2))
  let k0 : ℚ := 0.9996
  let drad := m.M_PI / 180.0
  let phi := lat * drad
  let utmz : ℚ := latlon2xy_helper.utmz lngd
  let zcm := latlon2xy_helper.zcm utmz
  let esq := 1.0 - (b / a) * (b / a)
  let e0sq := e * e / (1.0 - e * e)
  let M0 : ℚ := 0.0
  let N := a / m.sqrt (1.0 - (e * m.sin phi) ^ 2)
  let T := (m.tan phi) ^ 2
  let C := e0sq * (m.cos phi) ^ 2
  let A := (lngd - zcm) * drad * m.cos phi
  let M1 := phi * (1.0 - esq * (1.0 / 4.0 + esq * (3.0 / 64.0 + 5.0 * esq / 256.0)))
  let M2 := M1 - m.sin (2.0 * phi) * (esq * (3.0 / 8.0 + esq * (3.0 / 32.0 + 45.0 * esq / 1024.0)))
  let M3 := M2 + m.sin (4.0 * phi) * (esq * esq * (15.0 / 256.0 + esq * 45.0 / 1024.0))
  let M4 := M3 - m.sin (6.0 * phi) * (esq * esq * esq * (35.0 / 3072.0))
  let M := M4 * a
  let x0 := k0 * N * A * (1.0 + A * A * ((1.0 - T + C) / 6.0
    + A * A * (5.0 - 18.0 * T + T * T + 72.0 * C - 58.0 * e0sq) / 120.0))
  let x := x0 + 500000.0
  let y := k0 * (M - M0 + N * m.tan phi * (A * A * (1.0 / 2.0
    + A * A * ((5.0 - T + 9.0 * C + 4.0 * C * C) / 24.0
      + A * A * (61.0 - 58.0 * T + T * T + 600.0 * C - 330.0 * e0sq) / 720.0))))
  ⟨x, y⟩

/-- The function `latlon2xy_helper (lat, lngd)`: conversion from geographic to UTM
coordinates; the false northing is added south of the equator. -/
def latlon2xy_helper (m : Libm) (lat lngd : ℚ) : Xy :=
  let s := latlon2xy_helper.series m lat lngd
  let y := if s.y < 0 then 10000000.0 + s.y else s.y
  let easting := s.x
  let northing := y
  ⟨easting, northing⟩

/-- Three coordinates (`geometry_msgs::Vector3`, `geometry_msgs::Point`); also
the three entries of the array `origin` of `publishPoseTF`. -/
structure Vector3 where
  x : ℚ
  y : ℚ
  z : ℚ
deriving DecidableEq, Repr

/-- A rotation (`geometry_msgs::Quaternion`). -/
structure Quaternion where
  x : ℚ
  y : ℚ
  z : ℚ
  w : ℚ
deriving DecidableEq, Repr

/-- The fields of `sensor_msgs::NavSatFix` the player sets, apart from the
time stamp and the constant status. -/
structure NavSatFix where
  frame_id : String
  latitude : ℚ
  longitude : ℚ
  altitude : ℚ
  position_covariance : List ℚ
deriving DecidableEq, Repr

/-- The default-constructed `sensor_msgs::NavSatFix`. -/
def NavSatFix.default : NavSatFix :=
  { frame_id := "", latitude := 0, longitude := 0, altitude := 0,
    position_covariance := List.replicate 9 0 }

/-- The fields of `sensor_msgs::Imu` the player sets, apart from the time
stamp. -/
structure Imu where
  frame_id : String
  orientation : Quaternion
  angular_velocity : Vector3
  linear_acceleration : Vector3
deriving DecidableEq, Repr

/-- The default-constructed `sensor_msgs::Imu`. -/
def Imu.default : Imu :=
  { frame_id := "", orientation := ⟨0, 0, 0, 0⟩, angular_velocity := ⟨0, 0, 0⟩,
    linear_acceleration := ⟨0, 0, 0⟩ }

/-- The pose handed to the broadcaster (`geometry_msgs::TransformStamped`),
without its time stamp. -/
structure TransformStamped where
  frame_id : String
  child_frame_id : String
  translation : Vector3
  rotation : Quaternion
deriving DecidableEq, Repr

/-- What a call of `publishPoseTF` has done when control reaches the end of
its body: the function-local `static double* origin` (`none` is `nullptr`),
the transform given to `sendTransform`, and the value of the `return`
statement that was executed, `none` when the end of the body is reached
without one. -/
structure PoseCall where
  origin : Option Vector3
  pose_transform : TransformStamped
  returned : Option Bool
deriving DecidableEq, Repr

/-- The function `publishPoseTF (ros_msgGPSFix, ros_msgImu, header)`, called with the stored
origin `origin`.  The function is declared `bool` and its body holds no
`return` statement: after `sendTransform` control reaches the closing brace,
so the call returns no value. -/
def publishPoseTF (m : Libm) (origin : Option Vector3) (ros_msgGPSFix : NavSatFix)
    (ros_msgImu : Imu) : PoseCall :=
  let tr := latlon2xy_helper m ros_msgGPSFix.latitude ros_msgGPSFix.longitude
  let origin' : Vector3 :=
    match origin with
    | none => ⟨tr.x, tr.y, ros_msgGPSFix.altitude⟩
    | some o => o
  let pose_transform : TransformStamped :=
    { frame_id := "world"
      child_frame_id := "velo_link"
      translation := ⟨tr.x - origin'.x, tr.y - origin'.y, ros_msgGPSFix.altitude - origin'.z⟩
      rotation := ⟨ros_msgImu.orientation.x, ros_msgImu.orientation.y,
                   ros_msgImu.orientation.z, ros_msgImu.orientation.w⟩ }
  { origin := some origin', pose_transform := pose_transform, returned := none }

/-! ## Reading the GPS/IMU trace -/

/-- The ways in which `main` leaves the frame loop other than through the loop
condition: a `return` statement inside the loop, an uncaught exception
(`std::vector::at`, `boost::lexical_cast`, `cv::cvtColor` on an empty image),
an access whose behaviour is undefined (`operator[]` past the end of a
vector, a null cloud pointer), or control that reaches the end of a function
declared with a return type without a `return` statement and does not come
back to the caller (`missing_return`). -/
inductive Abort where
  | returned (code : Int)
  | out_of_range
  | bad_lexical_cast
  | undefined_access
  | empty_image
  | null_cloud
  | missing_return
deriving DecidableEq, Repr

/-- The routines and values the player takes from outside the repository: the
mathematical library, `boost::tokenizer` with a `char_separator` (first
argument: the separator characters), `boost::lexical_cast<double>` (`none`
when it throws), `tf::createQuaternionFromRPY`, `ros::this_node::getName ()`,
and one behaviour that the language leaves to the build:
`missing_return_resumes` is `true` when a call that reaches the end of a
function declared with a return type, without a `return` statement, comes back
to its caller (with a value that is not specified), and `false` when it does
not come back. -/
structure Extern where
  m : Libm
  tokenizer : String → String → List String
  lexical_cast : String → Option ℚ
  createQuaternionFromRPY : ℚ → ℚ → ℚ → Quaternion
  nodeName : String
  missing_return_resumes : Bool

/-- The end of a call of a function declared `bool`, as the caller sees it: a
returned value comes back to the caller; a call that reached the end of the
body without a `return` statement has undefined behaviour, and the build
decides whether the caller goes on. -/
def callEnd (x : Extern) (returned : Option Bool) : Except Abort Unit :=
  match returned with
  | some _ => .ok ()
  | none => if x.missing_return_resumes then .ok () else .error .missing_return

/-- Conversion of an `unsigned int` to `int`, as at the call sites that pass
the frame counter to an `int` parameter. -/
def toInt32 (n : Nat) : Int :=
  if n % 2 ^ 32 < 2 ^ 31 then ((n % 2 ^ 32 : Nat) : Int) else ((n % 2 ^ 32 : Nat) : Int) - 2 ^ 32

/-- The access `v.at (i)` for an `int` index: the element, or the exception
`std::out_of_range` (a negative `int` converts to an index beyond every
vector). -/
def vectorAt {α : Type} (v : List α) (i : Int) : Except Abort α :=
  if 0 ≤ i then
    match v[i.toNat]? with
    | some a => .ok a
    | none => .error .out_of_range
  else
    .error .out_of_range

/-- The access `s[i]` on a vector: the element; past the end the behaviour is
undefined. -/
def vectorIndex {α : Type} (s : List α) (i : Nat) : Except Abort α :=
  match s[i]? with
  | some a => .ok a
  | none => .error .undefined_access

/-- The expression `boost::lexical_cast<double> (s[i])`. -/
def castField (x : Extern) (s : List String) (i : Nat) : Except Abort ℚ := do
  let token ← vectorIndex s i
  match x.lexical_cast token with
  | some value => .ok value
  | none => .error .bad_lexical_cast

/-- The function `getGPS (lines, entries, ros_msgGpsFix, header)`: the returned `int` and
the message written through `ros_msgGpsFix`. -/
def getGPS (x : Extern) (lines : List String) (entries : Int) : Except Abort (Int × NavSatFix) := do
  let line ← vectorAt lines entries
  let s := x.tokenizer " " line
  let latitude ← castField x s 0
  let longitude ← castField x s 1
  let altitude ← castField x s 2
  let covariance0 ← castField x s 23
  let covariance4 ← castField x s 23
  let covariance8 ← castField x s 23
  pure (1, { frame_id := x.nodeName
             latitude := latitude
             longitude := longitude
             altitude := altitude
             position_covariance := [covariance0, 0, 0, 0, covariance4, 0, 0, 0, covariance8] })

/-- The function `getIMU (lines, entries, ros_msgImu, header)`: the returned `int` and the
message written through `ros_msgImu`. -/
def getIMU (x : Extern) (lines : List String) (entries : Int) : Except Abort (Int × Imu) := do
  let line ← vectorAt lines entries
  let s := x.tokenizer " " line
  let ax ← castField x s 11
  let ay ← castField x s 12
  let az ← castField x s 13
  let wx ← castField x s 8
  let wy ← castField x s 9
  let wz ← castField x s 10
  let roll ← castField x s 3
  let pitch ← castField x s 4
  let yaw ← castField x s 5
  let q := x.createQuaternionFromRPY roll pitch yaw
  pure (1, { frame_id := x.nodeName
             orientation := ⟨q.x, q.y, q.z, q.w⟩
             angular_velocity := ⟨wx, wy, wz⟩
             linear_acceleration := ⟨ax, ay, az⟩ })

/-! ## Bounding boxes -/

/-- The fields of `visualization_msgs::Marker` that `showBoundingBox` sets from
its input. -/
structure Marker where
  id : Int
  position : Vector3
  orientation : Quaternion
  scale : Vector3
deriving DecidableEq, Repr

/-- The fields of `iv_dynamicobject_msgs::Object` that `showBoundingBox` sets.
The message type is declared outside the sources at hand; its fields are taken
to hold the value assigned to them without a further conversion. -/
structure Object where
  height : ℚ
  width : ℚ
  length : ℚ
  velo_pose : Vector3
  heading : ℚ
deriving DecidableEq, Repr

/-- The loop of `showBoundingBox` from the value `i` of the loop counter on,
over the tracklets from that index: the markers published and the objects
pushed onto `object_array.list`, in order.  The `double` values of the pose
and the box height are cast to `float`, the box centre is computed in `float`
arithmetic, and the rotation about the vertical axis is built from the sine
and cosine of half the angle. -/
def showBoundingBox.loop (m : Libm) (frame_index : Int) :
    Nat → List KittiTracklet → Except Abort (List Marker × List Object)
  | _, [] => pure ([], [])
  | i, tracklet :: rest => do
    let boxHeight := tracklet.h
    let boxWidth := tracklet.w
    let boxLength := tracklet.l
    let pose_number : Int := frame_index - tracklet.first_frame
    let tpose ← vectorAt tracklet.poses pose_number
    let boxTranslation : Vector3 :=
      ⟨toFloat tpose.tx, toFloat tpose.ty,
       toFloat (toFloat tpose.tz + toFloat (toFloat boxHeight / 2.0))⟩
    let halfAngle := toFloat (0.5 * toFloat tpose.rz)
    let boxRotation : Quaternion := ⟨0, 0, m.sin halfAngle, m.cos halfAngle⟩
    let viz_obj : Marker :=
      { id := (i : Int)
        position := ⟨boxTranslation.x, boxTranslation.y, boxTranslation.z⟩
        orientation := boxRotation
        scale := ⟨boxLength, boxWidth, boxHeight⟩ }
    let obj : Object :=
      { height := boxHeight
        width := boxWidth
        length := boxLength
        velo_pose := ⟨boxTranslation.x, boxTranslation.y, toFloat tpose.tz⟩
        heading := toFloat tpose.rz }
    let (markers, objects) ← showBoundingBox.loop m frame_index (i + 1) rest
    pure (viz_obj :: markers, obj :: objects)

/-- The function `showBoundingBox (pub, frame_index, availableTracklets, object_array)`,
called with an `object_array` whose list is `object_array`: the markers
published and the list of `object_array` after the call. -/
def showBoundingBox (m : Libm) (frame_index : Int) (availableTracklets : List KittiTracklet)
    (object_array : List Object) : Except Abort (List Marker × List Object) := do
  let (markers, objects) ← showBoundingBox.loop m frame_index 0 availableTracklets
  pure (markers, object_array ++ objects)

/-! ## The frame loop of `main` -/

/-- The command-line options read inside and just before the frame loop
(`struct kitti_player_options`). -/
structure Options where
  all_data : Bool
  velodyne : Bool
  gps : Bool
  imu : Bool
  grayscale : Bool
  color : Bool
  synchMode : Bool
  startFrame : Nat

/-- What the player reads from outside during one run: the tracklets of the
dataset, the number of entries counted in the sequence directory, whether the
colour image of a frame can be read, the lidar points of a frame (`none` when
the file cannot be read), the contents of the GPS/IMU trace file (`none` when
it cannot be opened), the lidar-to-image matrix of the calibration, the value
of `ros::ok ()` at the end of each loop iteration, and the synch messages that
the `ros::spinOnce ()` of each loop iteration dispatches. -/
structure World where
  tracklets : List KittiTracklet
  total_entries : Nat
  imread : Nat → Bool
  velodyne : Nat → Option (List PointXYZI)
  oxts : Option String
  velo2image : MatrixXf
  ok : Nat → Bool
  synch : Nat → List Bool

/-- What one publishing cycle hands to the publishers and the viewer. -/
inductive Output where
  | markers (published : List Marker)
  | object_array (list : List Object)
  | image (frame : Nat)
  | cloud (points : List PointXYZI)
  | gps (fix : NavSatFix)
  | gps_initial (fix : NavSatFix)
  | imu (msg : Imu)
  | pose (transform : TransformStamped)
  | projection (circles : List CircleCall)

/-- The variables of `main` and the function-local statics that live across
iterations of the frame loop, and the outputs so far.  `cv_image02` records
whether the image variable holds image data. -/
structure PlayerState where
  ros_msgGpsFix : NavSatFix
  ros_msgGpsFixInitial : NavSatFix
  firstGpsData : Bool
  ros_msgImu : Imu
  cv_image02 : Bool
  lines : List String
  init_read : Bool
  origin : Option Vector3
  output : List Output

/-- The state in which `main` enters the frame loop. -/
def PlayerState.initial (w : World) (opts : Options) : PlayerState :=
  { ros_msgGpsFix := NavSatFix.default
    ros_msgGpsFixInitial := NavSatFix.default
    firstGpsData := true
    ros_msgImu := Imu.default
    cv_image02 := (opts.color || opts.all_data) && w.imread 0
    lines := []
    init_read := true
    origin := none
    output := [] }

/-- The callback `synchCallback (msg)`, as a function of the message and of the global
`waitSynch`: the value of `waitSynch` after the call. -/
def synchCallback (msg : Bool) (waitSynch : Bool) : Bool :=
  if msg then false else waitSynch

/-- The tracklet part of a cycle: `loadAvailableTracklets`, `showBoundingBox`
and the publication of the object array. -/
def trackletSection (x : Extern) (w : World) (entries_played : Nat) (ps : PlayerState) :
    Except Abort PlayerState := do
  let availableTracklets := loadAvailableTracklets w.tracklets (toInt32 entries_played) []
  let (markers, object_array) ← showBoundingBox x.m (toInt32 entries_played) availableTracklets []
  pure { ps with output := ps.output ++ [.markers markers, .object_array object_array] }

/-- The colour-image part of a cycle. -/
def imageSection (w : World) (opts : Options) (entries_played : Nat) (ps : PlayerState) :
    Except Abort PlayerState :=
  if opts.color || opts.all_data then
    if w.imread entries_played then
      pure { ps with cv_image02 := true, output := ps.output ++ [.image entries_played] }
    else
      .error (.returned (-1))
  else
    pure ps

/-- The lidar part of a cycle: the state and the value of `points_pub`. -/
def velodyneSection (w : World) (opts : Options) (entries_played : Nat) (ps : PlayerState) :
    PlayerState × Option (List PointXYZI) :=
  if opts.velodyne || opts.all_data then
    match w.velodyne entries_played with
    | some points => ({ ps with output := ps.output ++ [.cloud points] }, some points)
    | none => (ps, none)
  else
    (ps, none)

/-- The part of a cycle that reads the GPS/IMU trace file into the static
`lines`, once. -/
def oxtsSection (x : Extern) (w : World) (opts : Options) (ps : PlayerState) :
    Except Abort PlayerState :=
  if opts.all_data || opts.gps || opts.imu then
    if ps.init_read then
      match w.oxts with
      | none => .error (.returned 0)
      | some contents => pure { ps with lines := x.tokenizer "\n" contents, init_read := false }
    else
      pure ps
  else
    pure ps

/-- The GPS part of a cycle. -/
def gpsSection (x : Extern) (opts : Options) (entries_played : Nat) (ps : PlayerState) :
    Except Abort PlayerState :=
  if opts.gps || opts.all_data then do
    let (ret, fix) ← getGPS x ps.lines (toInt32 entries_played)
    if ret = 0 then
      .error (.returned (-1))
    else
      let ps1 := { ps with ros_msgGpsFix := fix }
      if ps1.firstGpsData then do
        let (ret1, fix1) ← getGPS x ps1.lines 1
        if ret1 = 0 then
          .error (.returned (-1))
        else
          let ps2 := { ps1 with
            ros_msgGpsFix := fix1
            firstGpsData := false
            ros_msgGpsFixInitial := { fix1 with frame_id := "/local_map", altitude := 0.0 } }
          pure { ps2 with
            output := ps2.output ++ [.gps ps2.ros_msgGpsFix, .gps_initial ps2.ros_msgGpsFixInitial] }
      else
        pure { ps1 with
          output := ps1.output ++ [.gps ps1.ros_msgGpsFix, .gps_initial ps1.ros_msgGpsFixInitial] }
  else
    pure ps

/-- The IMU part of a cycle. -/
def imuSection (x : Extern) (opts : Options) (entries_played : Nat) (ps : PlayerState) :
    Except Abort PlayerState :=
  if opts.imu || opts.all_data then do
    let (ret, msg) ← getIMU x ps.lines (toInt32 entries_played)
    if ret = 0 then
      .error (.returned (-1))
    else
      pure { ps with ros_msgImu := msg, output := ps.output ++ [.imu msg] }
  else
    pure ps

/-- The call `publishPoseTF (ros_msgGpsFix, ros_msgImu, &header_support)` of a
cycle: the origin is stored and the pose handed to the broadcaster inside the
call; the cycle goes on when the call comes back. -/
def poseSection (x : Extern) (ps : PlayerState) : Except Abort PlayerState := do
  let call := publishPoseTF x.m ps.origin ps.ros_msgGpsFix ps.ros_msgImu
  callEnd x call.returned
  pure { ps with origin := call.origin, output := ps.output ++ [.pose call.pose_transform] }

/-- The call `showProjection (points_pub, cv_image02)` of a cycle:
`cv::cvtColor` comes first and throws on an image without data, then the cloud
pointer is dereferenced. -/
def showProjection (x : Extern) (w : World) (points_pub : Option (List PointXYZI))
    (ps : PlayerState) : Except Abort PlayerState :=
  if ps.cv_image02 then
    match points_pub with
    | none => .error .null_cloud
    | some cloud =>
      pure { ps with
        output := ps.output ++ [.projection (ProjectCloud2Image x.m.sqrt cloud w.velo2image)] }
  else
    .error .empty_image

/-- The first part of a publishing cycle: the body of the `do` loop of `main`
after the synch gate, for the frame `entries_played`, up to the call of
`publishPoseTF`; the result is the player state and the value of
`points_pub`. -/
def cycleBeforePose (x : Extern) (w : World) (opts : Options) (entries_played : Nat)
    (ps : PlayerState) : Except Abort (PlayerState × Option (List PointXYZI)) := do
  let ps ← trackletSection x w entries_played ps
  let ps ← imageSection w opts entries_played ps
  let (ps, points_pub) := velodyneSection w opts entries_played ps
  let ps ← oxtsSection x w opts ps
  let ps ← gpsSection x opts entries_played ps
  let ps ← imuSection x opts entries_played ps
  pure (ps, points_pub)

/-- One publishing cycle: the body of the `do` loop of `main` after the synch
gate and before the frame counter is advanced, for the frame `entries_played`. -/
def publishCycle (x : Extern) (w : World) (opts : Options) (entries_played : Nat)
    (ps : PlayerState) : Except Abort PlayerState := do
  let (ps, points_pub) ← cycleBeforePose x w opts entries_played ps
  let ps ← poseSection x ps
  showProjection x w points_pub ps

/-- The state of the frame loop: the `unsigned int` counter `entries_played`,
the global `waitSynch`, the number of loop iterations completed, the frame
indices for which a publishing cycle was started, and the player state. -/
structure LoopState where
  entries_played : Nat
  waitSynch : Bool
  iteration : Nat
  played : List Nat
  player : PlayerState

/-- The body of the `do` loop up to its condition: the synch gate (with
`continue`, which in a `do` loop jumps to the condition), the publishing cycle
and the increment of `entries_played`. -/
def loopBody (x : Extern) (w : World) (opts : Options) (st : LoopState) :
    Except (Abort × LoopState) LoopState :=
  if opts.synchMode && st.waitSynch then
    .ok { st with waitSynch := (w.synch st.iteration).foldl (fun flag msg => synchCallback msg flag) st.waitSynch }
  else
    let st1 : LoopState :=
      { st with
        waitSynch := if opts.synchMode then true else st.waitSynch
        played := st.played ++ [st.entries_played] }
    match publishCycle x w opts st.entries_played st.player with
    | .error a => .error (a, st1)
    | .ok player =>
      .ok { st1 with player := player, entries_played := (st.entries_played + 1) % 2 ^ 32 }

/-- How a run of the frame loop ends: the loop condition became false
(`finished`), the loop was left from inside (`aborted`), or the iterations
allowed were used up with the loop still running (`running`). -/
inductive Outcome where
  | finished (st : LoopState)
  | aborted (a : Abort) (st : LoopState)
  | running (st : LoopState)

/-- The loop condition `entries_played <= total_entries - 1 && ros::ok ()`, in
`unsigned int` arithmetic. -/
def loopCondition (w : World) (iteration : Nat) (entries_played : Nat) : Bool :=
  decide (entries_played ≤ (w.total_entries % 2 ^ 32 + 2 ^ 32 - 1) % 2 ^ 32) && w.ok iteration

/-- The `do { ... } while (...)` loop of `main`, run for at most `fuel`
iterations. -/
def mainLoop (x : Extern) (w : World) (opts : Options) : Nat → LoopState → Outcome
  | 0, st => .running st
  | fuel + 1, st =>
    match loopBody x w opts st with
    | .error (a, st') => .aborted a st'
    | .ok st' =>
      if loopCondition w st.iteration st'.entries_played then
        mainLoop x w opts fuel { st' with iteration := st.iteration + 1 }
      else
        .finished st'

/-- The state in which the frame loop is entered: `entries_played` is the start
frame and `waitSynch` has its initial value `false`. -/
def LoopState.initial (w : World) (opts : Options) : LoopState :=
  { entries_played := opts.startFrame
    waitSynch := false
    iteration := 0
    played := []
    player := PlayerState.initial w opts }

/-- The start-frame check of `main`: `options.startFrame > total_entries` ends
the program with `-1`. -/
def startFrameCheck (w : World) (opts : Options) : Bool :=
  ! decide (opts.startFrame > w.total_entries)

/-- The part of `main` from the check of the publishing options on, for at
most `fuel` iterations of the frame loop. -/
def main (x : Extern) (w : World) (opts : Options) (fuel : Nat) : Outcome :=
  if ! (opts.all_data || opts.color || opts.gps || opts.grayscale || opts.imu || opts.velodyne) then
    .aborted (.returned 1) (LoopState.initial w opts)
  else if ! startFrameCheck w opts then
    .aborted (.returned (-1)) (LoopState.initial w opts)
  else
    mainLoop x w opts fuel (LoopState.initial w opts)

/-- The loop state an outcome carries. -/
def Outcome.state : Outcome → LoopState
  | .finished st => st
  | .aborted _ st => st
  | .running st => st

/-- Whether the loop was left from inside. -/
def Outcome.isAborted : Outcome → Bool
  | .aborted _ _ => true
  | _ => false

/-- Whether the loop ended through its condition. -/
def Outcome.isFinished : Outcome → Bool
  | .finished _ => true
  | _ => false

/-- The way in which the loop was left from inside, when it was. -/
def Outcome.abort : Outcome → Option Abort
  | .aborted a _ => some a
  | _ => none

/-- The loop-state update of an iteration whose publishing cycle runs through:
the frame is recorded as played, the player state is that after the cycle, and
the frame counter is advanced. -/
def LoopState.afterCycle (opts : Options) (st : LoopState) (player : PlayerState) : LoopState :=
  { entries_played := (st.entries_played + 1) % 2 ^ 32
    waitSynch := if opts.synchMode then true else st.waitSynch
    iteration := st.iteration
    played := st.played ++ [st.entries_played]
    player := player }

/-- The loop-state of an iteration whose publishing cycle was left from
inside. -/
def LoopState.atAbort (opts : Options) (st : LoopState) : LoopState :=
  { st with
    waitSynch := if opts.synchMode then true else st.waitSynch
    played := st.played ++ [st.entries_played] }

/-- The parts of the player state that decide the pose origin. -/
def PlayerState.gpsView (ps : PlayerState) :
    NavSatFix × Bool × List String × Bool × Option Vector3 :=
  (ps.ros_msgGpsFix, ps.firstGpsData, ps.lines, ps.init_read, ps.origin)

/-! ## A sample run, for examples -/

/-- A stand-in for the `float` square root: a monotone step function that takes
the correctly rounded value of the root at the arguments of the examples
(`0`, `1`, `576 - 2 ^ (-14)`, `576`, `4900`, `72.875 ^ 2` and `139 ^ 2`). -/
def stepSqrt (v : ℚ) : ℚ :=
  if v < 1 / 4 then 0
  else if v < 1 then 1 / 2
  else if v ≤ 9 / 4 then 1
  else if v < 576 - 1 / 2 ^ 14 then 3 / 2
  else if v < 576 then 24 - 1 / 2 ^ 19
  else if v < 4900 - 1 / 2 ^ 11 then 24
  else if v ≤ 4900 + 1 / 2 ^ 11 then 70
  else if v < 19321 then 583 / 8
  else 139

/-- A stand-in for the mathematical library, exact where the examples need it. -/
def sampleLibm : Libm :=
  { sqrt := tableSqrt, sin := fun _ => 0, cos := fun _ => 1, tan := fun _ => 0, M_PI := 355 / 113 }

/-- Splits a list of characters at every occurrence of `sep`. -/
def splitChars (sep : Char) : List Char → List (List Char)
  | [] => [[]]
  | c :: cs =>
    match splitChars sep cs with
    | [] => [[c]]
    | t :: ts => if c = sep then [] :: t :: ts else (c :: t) :: ts

/-- A tokenizer in the manner of `boost::char_separator`: splits at the first
separator character and drops empty tokens. -/
def sampleTokenizer (sep : String) (text : String) : List String :=
  ((splitChars (sep.data.headD ' ') text.data).filter (fun t => !t.isEmpty)).map String.mk

/-- Reads a non-empty list of decimal digits as a natural number. -/
def parseDigits : Nat → List Char → Option Nat
  | acc, [] => some acc
  | acc, c :: cs => if c.isDigit then parseDigits (10 * acc + (c.toNat - 48)) cs else none

/-- A lexical cast that accepts the unsigned decimal integers. -/
def sampleLexicalCast (s : String) : Option ℚ :=
  match s.data with
  | [] => none
  | c :: cs => (parseDigits 0 (c :: cs)).map (fun n => (n : ℚ))

/-- A stand-in for the libraries outside the repository, in a build where a
call that reaches the end of `publishPoseTF` comes back to `main`. -/
def sampleExtern : Extern :=
  { m := sampleLibm
    tokenizer := sampleTokenizer
    lexical_cast := sampleLexicalCast
    createQuaternionFromRPY := fun _ _ yaw => ⟨0, 0, yaw, 1⟩
    nodeName := "/kitti_tracking_player"
    missing_return_resumes := true }

/-- The same libraries in a build where a call that reaches the end of
`publishPoseTF` does not come back to `main`, as a compiler that takes the end
of such a function for unreachable arranges it. -/
def sampleOptimisedExtern : Extern :=
  { sampleExtern with missing_return_resumes := false }

/-- A GPS/IMU trace of three lines of thirty fields each; the lines differ in
latitude, longitude and altitude. -/
def sampleTrace : String :=
  "49 8 110 0 0 1 0 0 0 0 0 0 0 0 0 0 0 0 0 0 0 0 0 2 0 0 0 0 0 0\n" ++
  "50 9 120 0 0 2 0 0 0 0 0 0 0 0 0 0 0 0 0 0 0 0 0 2 0 0 0 0 0 0\n" ++
  "51 7 130 0 0 3 0 0 0 0 0 0 0 0 0 0 0 0 0 0 0 0 0 2 0 0 0 0 0 0\n"

/-- A sequence of three frames with one tracklet, active on frames 1 and 2. -/
def sampleWorld : World :=
  { tracklets := [{ objectType := "Car", h := 2, w := 2, l := 4, first_frame := 1,
                    poses := [zeroPose, zeroPose] }]
    total_entries := 3
    imread := fun i => decide (i < 3)
    velodyne := fun i => if i < 3 then some [⟨5, 1, 0, 0⟩, ⟨-3, 2, 0, 0⟩] else none
    oxts := some sampleTrace
    velo2image := sampleProjection
    ok := fun _ => true
    synch := fun _ => [] }

/-- Replay of all data from frame `startFrame`, synch mode off. -/
def sampleOptions (startFrame : Nat) : Options :=
  { all_data := true, velodyne := false, gps := false, imu := false, grayscale := false,
    color := false, synchMode := false, startFrame := startFrame }

/-- Two GPS fixes and an IMU message, for examples. -/
def sampleFixA : NavSatFix :=
  { frame_id := "", latitude := 49, longitude := 8, altitude := 110, position_covariance := [] }

/-- Two tracklets that both cover frame 1: a car from frame 1 on with two
poses, and a pedestrian from frame 0 on with three poses. -/
def sampleTracklets : List KittiTracklet :=
  [ { objectType := "Car", h := 2, w := 2, l := 4, first_frame := 1,
      poses := [⟨10, 1, 0, 0, 0, 1⟩, ⟨11, 1, 0, 0, 0, 1⟩] },
    { objectType := "Pedestrian", h := 2, w := 1, l := 1, first_frame := 0,
      poses := [⟨5, -3, 0, 0, 0, 0⟩, ⟨5, -2, 0, 0, 0, 0⟩, ⟨5, -1, 0, 0, 0, 0⟩] } ]

/-- One tracklet whose only pose, at frame 0, lies `0.1` ahead of the sensor. -/
def sampleCastTracklets : List KittiTracklet :=
  [ { objectType := "Car", h := 2, w := 2, l := 4, first_frame := 0,
      poses := [⟨0.1, 0, 0, 0, 0, 0⟩] } ]

/-- Replay of all data from frame `startFrame`, synch mode on. -/
def sampleSynchOptions (startFrame : Nat) : Options :=
  { sampleOptions startFrame with synchMode := true }

/-- The sample sequence with no entry counted in its directory. -/
def sampleEmptyWorld : World :=
  { sampleWorld with total_entries := 0 }

/-- A 4 x 4 matrix, the identity: not a projection matrix of the size that
`projectPoint2Image` accepts. -/
def sampleSquareMatrix : MatrixXf :=
  { rows := 4, cols := 4, coeff := fun i j => if i = j then 1 else 0 }

/-- Rounding to an integer gives the integer just below or the one just above,
and the nearer of the two. -/
theorem roundHalfEven_cases (r : ℚ) :
    roundHalfEven r = ⌊r⌋ ∧ r - ⌊r⌋ ≤ 1 / 2 ∨ roundHalfEven r = ⌊r⌋ + 1 ∧ 1 / 2 ≤ r - ⌊r⌋ := by
  unfold roundHalfEven
  by_cases h1 : r - ⌊r⌋ < 1 / 2
  · left; simp only [h1, if_true]; exact ⟨trivial, le_of_lt h1⟩
  · by_cases h2 : 1 / 2 < r - ⌊r⌋
    · right; simp only [h1, h2, if_true, if_false]; exact ⟨trivial, le_of_lt h2⟩
    · have heq : r - ⌊r⌋ = 1 / 2 := le_antisymm (not_lt.mp h2) (not_lt.mp h1)
      by_cases h3 : ⌊r⌋ % 2 = 0
      · left; simp only [h1, h2, h3, if_true, if_false]; exact ⟨trivial, le_of_eq heq⟩
      · right; simp only [h1, h2, h3, if_false]; exact ⟨trivial, le_of_eq heq.symm⟩

/-- Rounding to an integer moves a value by at most one half. -/
theorem roundHalfEven_error (r : ℚ) : |(roundHalfEven r : ℚ) - r| ≤ 1 / 2 := by
  have hf := Int.floor_le r
  have hl := Int.lt_floor_add_one r
  rw [abs_le]
  rcases roundHalfEven_cases r with ⟨h, hb⟩ | ⟨h, hb⟩
  · rw [h]; constructor <;> linarith
  · rw [h]; push_cast; constructor <;> linarith

/-- A value less than one half away from an integer rounds to it. -/
theorem roundHalfEven_eq_of_near (r : ℚ) (n : Int) (h : |r - n| < 1 / 2) :
    roundHalfEven r = n := by
  rw [abs_lt] at h
  have hf := Int.floor_le r
  have hl := Int.lt_floor_add_one r
  rcases roundHalfEven_cases r with ⟨h1, hb⟩ | ⟨h1, hb⟩
  · rw [h1]
    have h2 : ((⌊r⌋ : Int) : ℚ) < n + 1 := by linarith
    have h3 : (n : ℚ) < ⌊r⌋ + 1 := by linarith
    have h2' : ⌊r⌋ < n + 1 := by exact_mod_cast h2
    have h3' : n < ⌊r⌋ + 1 := by exact_mod_cast h3
    omega
  · rw [h1]
    have h2 : ((⌊r⌋ : Int) : ℚ) + 1 < n + 1 := by linarith
    have h3 : (n : ℚ) < ⌊r⌋ + 1 + 1 := by linarith
    have h2' : ⌊r⌋ + 1 < n + 1 := by exact_mod_cast h2
    have h3' : n < ⌊r⌋ + 1 + 1 := by exact_mod_cast h3
    omega

/-- An integer rounds to itself. -/
theorem roundHalfEven_intCast (n : Int) : roundHalfEven (n : ℚ) = n :=
  roundHalfEven_eq_of_near _ n (by simp)

/-- Rounding to an integer is monotone. -/
theorem roundHalfEven_mono {r s : ℚ} (h : r ≤ s) : roundHalfEven r ≤ roundHalfEven s := by
  have hfl : ⌊r⌋ ≤ ⌊s⌋ := Int.floor_mono h
  rcases lt_or_eq_of_le hfl with hlt | heq
  · rcases roundHalfEven_cases r with ⟨h1, _⟩ | ⟨h1, _⟩ <;>
      rcases roundHalfEven_cases s with ⟨h2, _⟩ | ⟨h2, _⟩ <;> omega
  · unfold roundHalfEven
    rw [← heq]
    by_cases a1 : r - ⌊r⌋ < 1 / 2
    · simp only [a1, if_true]
      split_ifs <;> omega
    · have b1 : ¬ (s - ⌊r⌋ < 1 / 2) := by
        intro hb; apply a1; linarith
      simp only [a1, b1, if_false]
      by_cases a2 : 1 / 2 < r - ⌊r⌋
      · have b2 : 1 / 2 < s - ⌊r⌋ := by linarith
        simp only [a2, b2, if_true]
        exact le_refl _
      · simp only [a2, if_false]
        split_ifs <;> omega

/-- The binade of a positive rational, from bounds. -/
theorem log_two_eq {q : ℚ} {e : Int} (h1 : (2 : ℚ) ^ e ≤ q) (h2 : q < (2 : ℚ) ^ (e + 1)) :
    Int.log 2 q = e := by
  have hq : 0 < q := lt_of_lt_of_le (zpow_pos (by norm_num) e) h1
  have a := (Int.zpow_le_iff_le_log (b := 2) (by norm_num) hq (x := e)).mp (by simpa using h1)
  have b := (Int.lt_zpow_iff_log_lt (b := 2) (by norm_num) hq (x := e + 1)).mp (by simpa using h2)
  omega

/-- A rational lies below the end of its binade. -/
theorem lt_two_zpow_log (q : ℚ) : q < (2 : ℚ) ^ (Int.log 2 q + 1) := by
  simpa using Int.lt_zpow_succ_log_self (b := 2) (by norm_num) q

/-- A positive rational lies above the start of its binade. -/
theorem two_zpow_log_le {q : ℚ} (hq : 0 < q) : (2 : ℚ) ^ Int.log 2 q ≤ q := by
  simpa using Int.zpow_log_le_self (b := 2) (by norm_num) hq

/-- Powers of two are positive. -/
theorem two_zpow_pos (e : Int) : (0 : ℚ) < 2 ^ e := zpow_pos (by norm_num) e

/-- Powers of two grow with the exponent. -/
theorem two_zpow_mono {a b : Int} (h : a ≤ b) : (2 : ℚ) ^ a ≤ 2 ^ b :=
  zpow_le_zpow_right₀ (by norm_num) h

/-- A magnitude lies below the end of its level. -/
theorem lt_zpow_ulpExponent (p : Nat) (emin : Int) (q : ℚ) :
    q < (2 : ℚ) ^ (ulpExponent p emin q + (p : Int)) := by
  have h := lt_two_zpow_log q
  refine lt_of_lt_of_le h (two_zpow_mono ?_)
  unfold ulpExponent
  have := le_max_left (Int.log 2 q) emin
  omega

/-- A magnitude above the subnormal range lies above the start of its level. -/
theorem zpow_ulpExponent_le (p : Nat) (emin : Int) {q : ℚ} (hq : 0 < q)
    (h : emin ≤ Int.log 2 q) :
    (2 : ℚ) ^ (ulpExponent p emin q + ((p : Int) - 1)) ≤ q := by
  have h1 := two_zpow_log_le hq
  have : ulpExponent p emin q + ((p : Int) - 1) = Int.log 2 q := by
    unfold ulpExponent
    rw [max_eq_left h]
    omega
  rw [this]
  exact h1

/-- A magnitude rounds to a magnitude. -/
theorem roundMagnitude_nonneg (p : Nat) (emin : Int) {q : ℚ} (hq : 0 ≤ q) :
    0 ≤ roundMagnitude p emin q := by
  unfold roundMagnitude
  have h0 : (0 : Int) ≤ roundHalfEven (q / 2 ^ ulpExponent p emin q) := by
    have := roundHalfEven_mono (r := 0) (s := q / 2 ^ ulpExponent p emin q)
      (div_nonneg hq (le_of_lt (two_zpow_pos _)))
    have h00 : roundHalfEven (0 : ℚ) = 0 := by simpa using roundHalfEven_intCast 0
    omega
  exact mul_nonneg (by exact_mod_cast h0) (le_of_lt (two_zpow_pos _))

/-- The rounded magnitude stays within the level of the magnitude: below. -/
theorem roundMagnitude_le_zpow (p : Nat) (emin : Int) (q : ℚ) :
    roundMagnitude p emin q ≤ (2 : ℚ) ^ (ulpExponent p emin q + (p : Int)) := by
  unfold roundMagnitude
  have hlt := lt_zpow_ulpExponent p emin q
  have hu := two_zpow_pos (ulpExponent p emin q)
  have hdiv : q / 2 ^ ulpExponent p emin q ≤ (((2 : Int) ^ p : Int) : ℚ) := by
    rw [div_le_iff₀ hu]
    push_cast
    rw [← zpow_natCast, ← zpow_add₀ (by norm_num : (2 : ℚ) ≠ 0), add_comm]
    exact le_of_lt hlt
  have hr := roundHalfEven_mono hdiv
  rw [roundHalfEven_intCast] at hr
  have hr' : (roundHalfEven (q / 2 ^ ulpExponent p emin q) : ℚ) ≤ (2 : ℚ) ^ (p : Int) := by
    have : (roundHalfEven (q / 2 ^ ulpExponent p emin q) : ℚ) ≤ (((2 : Int) ^ p : Int) : ℚ) := by
      exact_mod_cast hr
    simpa using this
  calc (roundHalfEven (q / 2 ^ ulpExponent p emin q) : ℚ) * 2 ^ ulpExponent p emin q
      ≤ (2 : ℚ) ^ (p : Int) * 2 ^ ulpExponent p emin q :=
        mul_le_mul_of_nonneg_right hr' (le_of_lt hu)
    _ = (2 : ℚ) ^ (ulpExponent p emin q + (p : Int)) := by
        rw [← zpow_add₀ (by norm_num : (2 : ℚ) ≠ 0), add_comm]

/-- The rounded magnitude stays within the level of the magnitude: above. -/
theorem zpow_le_roundMagnitude (p : Nat) (emin : Int) (hp : 1 ≤ p) {q : ℚ} (hq : 0 < q)
    (h : emin ≤ Int.log 2 q) :
    (2 : ℚ) ^ (ulpExponent p emin q + ((p : Int) - 1)) ≤ roundMagnitude p emin q := by
  unfold roundMagnitude
  have hle := zpow_ulpExponent_le p emin hq h
  have hu := two_zpow_pos (ulpExponent p emin q)
  have hdiv : (((2 : Int) ^ (p - 1) : Int) : ℚ) ≤ q / 2 ^ ulpExponent p emin q := by
    rw [le_div_iff₀ hu]
    push_cast
    rw [← zpow_natCast, ← zpow_add₀ (by norm_num : (2 : ℚ) ≠ 0)]
    have : ((p - 1 : Nat) : Int) + ulpExponent p emin q
        = ulpExponent p emin q + ((p : Int) - 1) := by omega
    rw [this]
    exact hle
  have hr := roundHalfEven_mono hdiv
  rw [roundHalfEven_intCast] at hr
  have hr' : (2 : ℚ) ^ ((p : Int) - 1) ≤ (roundHalfEven (q / 2 ^ ulpExponent p emin q) : ℚ) := by
    have h1 : (((2 : Int) ^ (p - 1) : Int) : ℚ)
        ≤ (roundHalfEven (q / 2 ^ ulpExponent p emin q) : ℚ) := by exact_mod_cast hr
    have h2 : (((2 : Int) ^ (p - 1) : Int) : ℚ) = (2 : ℚ) ^ ((p : Int) - 1) := by
      push_cast
      rw [← zpow_natCast]
      congr 1
      omega
    rw [h2] at h1
    exact h1
  calc (2 : ℚ) ^ (ulpExponent p emin q + ((p : Int) - 1))
      = (2 : ℚ) ^ ((p : Int) - 1) * 2 ^ ulpExponent p emin q := by
        rw [← zpow_add₀ (by norm_num : (2 : ℚ) ≠ 0), add_comm]
    _ ≤ (roundHalfEven (q / 2 ^ ulpExponent p emin q) : ℚ) * 2 ^ ulpExponent p emin q :=
        mul_le_mul_of_nonneg_right hr' (le_of_lt hu)

/-- Zero rounds to zero. -/
theorem roundMagnitude_zero (p : Nat) (emin : Int) : roundMagnitude p emin 0 = 0 := by
  unfold roundMagnitude
  have h00 : roundHalfEven (0 : ℚ) = 0 := by simpa using roundHalfEven_intCast 0
  simp [h00]

/-- Rounding of magnitudes is monotone. -/
theorem roundMagnitude_mono (p : Nat) (emin : Int) (hp : 1 ≤ p) {q r : ℚ} (hq : 0 ≤ q)
    (h : q ≤ r) : roundMagnitude p emin q ≤ roundMagnitude p emin r := by
  rcases eq_or_lt_of_le hq with h0 | hpos
  · rw [← h0, roundMagnitude_zero]
    exact roundMagnitude_nonneg p emin (le_trans hq h)
  · have hlog : Int.log 2 q ≤ Int.log 2 r := Int.log_mono_right hpos h
    have hu : ulpExponent p emin q ≤ ulpExponent p emin r := by
      unfold ulpExponent
      have := max_le_max hlog (le_refl emin)
      omega
    rcases eq_or_lt_of_le hu with heq | hlt
    · unfold roundMagnitude
      rw [← heq]
      have hpow := two_zpow_pos (ulpExponent p emin q)
      have hdiv : q / 2 ^ ulpExponent p emin q ≤ r / 2 ^ ulpExponent p emin q :=
        div_le_div_of_nonneg_right h (le_of_lt hpow)
      have := roundHalfEven_mono hdiv
      exact mul_le_mul_of_nonneg_right (by exact_mod_cast this) (le_of_lt hpow)
    · have hrpos : 0 < r := lt_of_lt_of_le hpos h
      have hemin : emin ≤ Int.log 2 r := by
        unfold ulpExponent at hlt
        by_contra hcon
        have h1 : max (Int.log 2 r) emin = emin := max_eq_right (by omega)
        have h2 := le_max_right (Int.log 2 q) emin
        rw [h1] at hlt
        omega
      calc roundMagnitude p emin q
          ≤ (2 : ℚ) ^ (ulpExponent p emin q + (p : Int)) := roundMagnitude_le_zpow p emin q
        _ ≤ (2 : ℚ) ^ (ulpExponent p emin r + ((p : Int) - 1)) := two_zpow_mono (by omega)
        _ ≤ roundMagnitude p emin r := zpow_le_roundMagnitude p emin hp hrpos hemin

/-- Rounding to a format is monotone. -/
theorem roundToFormat_mono (p : Nat) (emin : Int) (hp : 1 ≤ p) {q r : ℚ} (h : q ≤ r) :
    roundToFormat p emin q ≤ roundToFormat p emin r := by
  unfold roundToFormat
  by_cases hq : q < 0
  · by_cases hr : r < 0
    · simp only [hq, hr, if_true]
      have := roundMagnitude_mono p emin hp (q := -r) (r := -q) (by linarith) (by linarith)
      linarith
    · simp only [hq, hr, if_true, if_false]
      have h1 := roundMagnitude_nonneg p emin (q := -q) (by linarith)
      have h2 := roundMagnitude_nonneg p emin (q := r) (not_lt.mp hr)
      linarith
  · have hr : ¬ r < 0 := by
      intro hr
      exact hq (lt_of_le_of_lt h hr)
    simp only [hq, hr, if_false]
    exact roundMagnitude_mono p emin hp (not_lt.mp hq) h

/-- The rounding error of a magnitude is at most half a unit in the last
place. -/
theorem roundMagnitude_error (p : Nat) (emin : Int) (q : ℚ) :
    |roundMagnitude p emin q - q| ≤ 2 ^ (ulpExponent p emin q - 1) := by
  unfold roundMagnitude
  have hu := two_zpow_pos (ulpExponent p emin q)
  have herr := roundHalfEven_error (q / 2 ^ ulpExponent p emin q)
  have hrew : (roundHalfEven (q / 2 ^ ulpExponent p emin q) : ℚ) * 2 ^ ulpExponent p emin q - q
      = ((roundHalfEven (q / 2 ^ ulpExponent p emin q) : ℚ) - q / 2 ^ ulpExponent p emin q)
        * 2 ^ ulpExponent p emin q := by
    field_simp
  rw [hrew, abs_mul, abs_of_pos hu]
  have hhalf : (2 : ℚ) ^ (ulpExponent p emin q - 1) = 1 / 2 * 2 ^ ulpExponent p emin q := by
    rw [zpow_sub₀ (by norm_num : (2 : ℚ) ≠ 0)]
    simp
    ring
  rw [hhalf]
  exact mul_le_mul_of_nonneg_right herr (le_of_lt hu)

/-- The rounding error of a value of magnitude at most `2 ^ k`, above the
subnormal range, is at most `2 ^ (k - p - 1)`. -/
theorem roundToFormat_error (p : Nat) (emin : Int) (k : Int) (hk : emin < k)
    {q : ℚ} (hq : |q| < 2 ^ k) :
    |roundToFormat p emin q - q| ≤ 2 ^ (k - (p : Int) - 1) := by
  have key : ∀ m : ℚ, 0 ≤ m → m < 2 ^ k →
      |roundMagnitude p emin m - m| ≤ 2 ^ (k - (p : Int) - 1) := by
    intro m hm0 hmk
    rcases eq_or_lt_of_le hm0 with h0 | hpos
    · rw [← h0, roundMagnitude_zero, sub_zero, abs_zero]
      exact le_of_lt (two_zpow_pos _)
    · refine le_trans (roundMagnitude_error p emin m) (two_zpow_mono ?_)
      unfold ulpExponent
      have hlog : Int.log 2 m < k :=
        (Int.lt_zpow_iff_log_lt (b := 2) (by norm_num) hpos (x := k)).mp (by simpa using hmk)
      have := max_le (show Int.log 2 m ≤ k - 1 by omega) (show emin ≤ k - 1 by omega)
      omega
  unfold roundToFormat
  by_cases hneg : q < 0
  · simp only [hneg, if_true]
    have := key (-q) (by linarith) (by rw [abs_of_neg hneg] at hq; exact hq)
    rw [show -roundMagnitude p emin (-q) - q = -(roundMagnitude p emin (-q) - -q) by ring, abs_neg]
    exact this
  · simp only [hneg, if_false]
    exact key q (not_lt.mp hneg) (by rw [abs_of_nonneg (not_lt.mp hneg)] at hq; exact hq)

/-- A positive value whose binade and nearest multiple of the unit in the
last place are known rounds to that multiple. -/
theorem roundToFormat_eq_of_near (p : Nat) (emin : Int) {q : ℚ} (e n : Int)
    (h1 : (2 : ℚ) ^ e ≤ q) (h2 : q < (2 : ℚ) ^ (e + 1)) (hemin : emin ≤ e)
    (hn : |q / 2 ^ (e - ((p : Int) - 1)) - n| < 1 / 2) :
    roundToFormat p emin q = n * 2 ^ (e - ((p : Int) - 1)) := by
  have hq : 0 < q := lt_of_lt_of_le (two_zpow_pos e) h1
  have hlog := log_two_eq h1 h2
  unfold roundToFormat roundMagnitude ulpExponent
  rw [if_neg (not_lt.mpr (le_of_lt hq)), hlog, max_eq_left hemin,
    roundHalfEven_eq_of_near _ n hn]

/-- The same for a negative value. -/
theorem roundToFormat_eq_of_near_neg (p : Nat) (emin : Int) {q : ℚ} (e n : Int)
    (h1 : (2 : ℚ) ^ e ≤ -q) (h2 : -q < (2 : ℚ) ^ (e + 1)) (hemin : emin ≤ e)
    (hn : |-q / 2 ^ (e - ((p : Int) - 1)) - n| < 1 / 2) :
    roundToFormat p emin q = -(n * 2 ^ (e - ((p : Int) - 1))) := by
  have hq : 0 < -q := lt_of_lt_of_le (two_zpow_pos e) h1
  have hlog := log_two_eq h1 h2
  unfold roundToFormat roundMagnitude ulpExponent
  rw [if_pos (by linarith), hlog, max_eq_left hemin, roundHalfEven_eq_of_near _ n hn]

/-- Zero is a number of every format. -/
theorem roundToFormat_zero (p : Nat) (emin : Int) : roundToFormat p emin 0 = 0 := by
  unfold roundToFormat
  simp [roundMagnitude_zero]

/-- An integer of magnitude below `2 ^ p` is a number of the format. -/
theorem roundToFormat_intCast (p : Nat) (emin : Int) (hp : 1 ≤ p) (hemin : emin ≤ 0)
    (n : Int) (hn : |n| < 2 ^ p) : roundToFormat p emin (n : ℚ) = n := by
  have key : ∀ m : Int, 0 < m → m < 2 ^ p → roundMagnitude p emin (m : ℚ) = m := by
    intro m hm0 hmp
    have hmq : (0 : ℚ) < m := by exact_mod_cast hm0
    have hu : ulpExponent p emin (m : ℚ) ≤ 0 := by
      unfold ulpExponent
      have hlog : Int.log 2 (m : ℚ) < (p : Int) := by
        apply (Int.lt_zpow_iff_log_lt (b := 2) (by norm_num) hmq (x := (p : Int))).mp
        have : ((m : Int) : ℚ) < (((2 : Int) ^ p : Int) : ℚ) := by exact_mod_cast hmp
        simpa using this
      have := max_le (show Int.log 2 (m : ℚ) ≤ (p : Int) - 1 by omega)
        (show emin ≤ (p : Int) - 1 by omega)
      omega
    obtain ⟨j, hj⟩ : ∃ j : Nat, ulpExponent p emin (m : ℚ) = -(j : Int) :=
      ⟨(-ulpExponent p emin (m : ℚ)).toNat, by omega⟩
    unfold roundMagnitude
    rw [hj]
    have hdiv : (m : ℚ) / 2 ^ (-(j : Int)) = ((m * 2 ^ j : Int) : ℚ) := by
      rw [zpow_neg, zpow_natCast]
      push_cast
      field_simp
    rw [hdiv, roundHalfEven_intCast, zpow_neg, zpow_natCast]
    push_cast
    field_simp
  unfold roundToFormat
  rcases lt_trichotomy n 0 with hneg | hzero | hpos
  · have hq : ((n : Int) : ℚ) < 0 := by exact_mod_cast hneg
    rw [if_pos hq]
    have := key (-n) (by omega) (by rw [abs_of_neg hneg] at hn; exact hn)
    push_cast at this
    rw [this]
    ring
  · subst hzero
    simp [roundMagnitude_zero]
  · have hq : ¬ ((n : Int) : ℚ) < 0 := by
      have : (0 : ℚ) < n := by exact_mod_cast hpos
      linarith
    rw [if_neg hq]
    exact key n hpos (by rw [abs_of_pos hpos] at hn; exact hn)


/-- Rounding to `float` is monotone. -/
theorem toFloat_mono {q r : ℚ} (h : q ≤ r) : toFloat q ≤ toFloat r :=
  roundToFormat_mono 24 (-126) (by norm_num) h

/-- Rounding to `double` is monotone. -/
theorem toDouble_mono {q r : ℚ} (h : q ≤ r) : toDouble q ≤ toDouble r :=
  roundToFormat_mono 53 (-1022) (by norm_num) h

/-- An integer of magnitude below `2 ^ 24` is a `float`. -/
theorem toFloat_intCast (n : Int) (hn : |n| < 2 ^ 24) : toFloat (n : ℚ) = n :=
  roundToFormat_intCast 24 (-126) (by norm_num) (by norm_num) n hn

/-- An integer of magnitude below `2 ^ 53` is a `double`. -/
theorem toDouble_intCast (n : Int) (hn : |n| < 2 ^ 53) : toDouble (n : ℚ) = n :=
  roundToFormat_intCast 53 (-1022) (by norm_num) (by norm_num) n hn

/-- The numbers 0, 1 and 2 are `float`s. -/
theorem toFloat_small : toFloat 0 = 0 ∧ toFloat 1 = 1 ∧ toFloat 2 = 2 := by
  refine ⟨?_, ?_, ?_⟩
  · simpa using toFloat_intCast 0 (by norm_num)
  · simpa using toFloat_intCast 1 (by norm_num)
  · simpa using toFloat_intCast 2 (by norm_num)

/-- The `float` nearest to one tenth is `13421773 / 2 ^ 27`, which is above one
tenth. -/
theorem toFloat_tenth : toFloat (1 / 10) = 13421773 / 134217728 := by
  have h := roundToFormat_eq_of_near 24 (-126) (q := 1 / 10) (-4) 13421773
    (by norm_num) (by norm_num) (by norm_num)
    (by rw [abs_lt]; constructor <;> norm_num)
  unfold toFloat
  rw [h]
  norm_num

/-- The first `n` rounds of the loop of `loadAvailableTracklets` append to the
output vector the tracklets among the first `n` that pass the frame-range test,
in order. -/
theorem loadAvailableTracklets_rounds (tracklets : List KittiTracklet) (f : Int)
    (acc : List KittiTracklet) :
    ∀ n : Nat, n ≤ tracklets.length →
      (List.range n).foldl
        (fun availableTracklets tracklet_id =>
          match tracklets[tracklet_id]? with
          | some tracklet =>
            if tracklet.first_frame ≤ f ∧ tracklet.lastFrame ≥ f then
              availableTracklets ++ [tracklet]
            else
              availableTracklets
          | none => availableTracklets)
        acc
        = acc ++ (tracklets.take n).filter (activeAtFrame f) := by
  intro n
  induction n with
  | zero => intro _; simp
  | succ n ih =>
    intro hn
    have hlt : n < tracklets.length := by omega
    rw [List.range_succ, List.foldl_append, ih (by omega)]
    have hget : tracklets[n]? = some tracklets[n] := List.getElem?_eq_getElem hlt
    have htake : tracklets.take (n + 1) = tracklets.take n ++ [tracklets[n]] := by
      rw [List.take_succ, hget]
      rfl
    rw [htake, List.filter_append]
    simp only [List.foldl_cons, List.foldl_nil, hget]
    by_cases hc : tracklets[n].first_frame ≤ f ∧ tracklets[n].lastFrame ≥ f
    · have hact : activeAtFrame f tracklets[n] = true := by
        simp only [activeAtFrame, decide_eq_true_eq]
        simpa [KittiTracklet.lastFrame] using hc
      rw [if_pos hc, List.filter_cons_of_pos hact]
      simp
    · have hact : ¬ activeAtFrame f tracklets[n] = true := by
        simp only [activeAtFrame, decide_eq_true_eq]
        simpa [KittiTracklet.lastFrame] using hc
      rw [if_neg hc, List.filter_cons_of_neg hact]
      simp

/-- The function `loadAvailableTracklets` appends to the output vector the tracklets that
pass the frame-range test, in load order. -/
theorem loadAvailableTracklets_append (tracklets : List KittiTracklet) (f : Int)
    (acc : List KittiTracklet) :
    loadAvailableTracklets tracklets f acc = acc ++ tracklets.filter (activeAtFrame f) := by
  have h := loadAvailableTracklets_rounds tracklets f acc tracklets.length (le_refl _)
  rw [List.take_length] at h
  exact h

/-- C1: called with an empty output vector, `loadAvailableTracklets` yields the
order-preserving filter of the tracklet list by the inclusive range test
`first_frame <= f <= first_frame + len(poses) - 1`; the tracklet with
`first_frame = 10` and five poses is returned for `f = 10 .. 14` and not for
`f = 9` or `f = 15`. -/
theorem loadAvailableTracklets_eq_filter (tracklets : List KittiTracklet) (f : Int) :
    loadAvailableTracklets tracklets f [] = tracklets.filter (activeAtFrame f)
    ∧ loadAvailableTracklets [exampleTracklet] 10 [] = [exampleTracklet]
    ∧ loadAvailableTracklets [exampleTracklet] 11 [] = [exampleTracklet]
    ∧ loadAvailableTracklets [exampleTracklet] 12 [] = [exampleTracklet]
    ∧ loadAvailableTracklets [exampleTracklet] 13 [] = [exampleTracklet]
    ∧ loadAvailableTracklets [exampleTracklet] 14 [] = [exampleTracklet]
    ∧ loadAvailableTracklets [exampleTracklet] 9 [] = []
    ∧ loadAvailableTracklets [exampleTracklet] 15 [] = [] := by
  refine ⟨?_, ?_, ?_, ?_, ?_, ?_, ?_, ?_⟩
  · simpa using loadAvailableTracklets_append tracklets f []
  all_goals decide

/-! ### Projection -/

/-- C7: `projectPoint2Image` returns `false` exactly when the matrix is not
3 rows by 4 columns; for a 3 x 4 matrix it returns `true` for every point, also
when the projected depth component is zero or negative (here: the points
`(0, 1, 1)` and `(-2, 1, 1)`, whose depth under `sampleProjection` is `0` and
`-2`). -/
theorem projectPoint2Image_false_iff (pointIn : PointXYZI) (projectmatrix : MatrixXf)
    (point_project : Point2f) :
    ((projectPoint2Image pointIn projectmatrix point_project).1 = false
        ↔ ¬ (projectmatrix.rows = 3 ∧ projectmatrix.cols = 4))
    ∧ ((projectmatrix.rows = 3 ∧ projectmatrix.cols = 4) →
        (projectPoint2Image pointIn projectmatrix point_project).1 = true)
    ∧ (projectPoint2Image ⟨0, 1, 1, 0⟩ sampleProjection point_project).1 = true
    ∧ (projectPoint2Image ⟨-2, 1, 1, 0⟩ sampleProjection point_project).1 = true := by
  refine ⟨?_, ?_, ?_, ?_⟩
  · by_cases h : projectmatrix.rows = 3 ∧ projectmatrix.cols = 4
    · simp [projectPoint2Image, h]
    · simp [projectPoint2Image, h]
  · intro h
    simp [projectPoint2Image, h]
  · simp [projectPoint2Image, sampleProjection]
  · simp [projectPoint2Image, sampleProjection]

/-- The drawing loop makes one `cv::circle` call for each point that is not
skipped, in cloud order. -/
theorem ProjectCloud2Image_eq_map (sqrt : ℚ → ℚ) (projectmatrix : MatrixXf)
    (cloudIn : List PointXYZI) :
    ProjectCloud2Image sqrt cloudIn projectmatrix
      = (cloudIn.filter (fun p => decide (0 ≤ p.x))).map
          (fun p => ⟨(projectPoint2Image p projectmatrix ⟨0, 0⟩).2,
                     ProjectCloud2Image.toColor sqrt p⟩) := by
  induction cloudIn with
  | nil => simp [ProjectCloud2Image]
  | cons point rest ih =>
    by_cases hx : point.x < 0
    · have hnot : ¬ (0 ≤ point.x) := not_le.mpr hx
      simp [ProjectCloud2Image, hx, hnot, ih]
    · have hge : 0 ≤ point.x := not_lt.mp hx
      simp [ProjectCloud2Image, hx, hge, ih]

/-- C8, as stated, fails: for the cloud with the single point `(0, 1, 0)`, whose
forward coordinate is `0`, one marker is drawn although no point has `x > 0`;
the number of markers is not the number of points with `x > 0`. -/
theorem ProjectCloud2Image_marker_at_zero :
    (ProjectCloud2Image tableSqrt [⟨0, 1, 0, 0⟩] sampleProjection).length
      ≠ (([⟨0, 1, 0, 0⟩] : List PointXYZI).filter (fun p => decide (0 < p.x))).length
    ∧ (ProjectCloud2Image tableSqrt [⟨0, 1, 0, 0⟩] sampleProjection).length = 1 := by
  constructor
  · simp [ProjectCloud2Image]
  · simp [ProjectCloud2Image]

/-- C8, amended: `ProjectCloud2Image` draws a marker for a point if and only if
its forward coordinate is not negative (`x ≥ 0`, so also for `x = 0`): the
markers are, in cloud order, those of the points with `x ≥ 0`, one each, their
number is the number of points with `x ≥ 0`, and a cloud whose points all have
`x < 0` gets no marker. -/
theorem ProjectCloud2Image_markers (sqrt : ℚ → ℚ) (projectmatrix : MatrixXf)
    (cloudIn : List PointXYZI) :
    ProjectCloud2Image sqrt cloudIn projectmatrix
        = (cloudIn.filter (fun p => decide (0 ≤ p.x))).map
            (fun p => ⟨(projectPoint2Image p projectmatrix ⟨0, 0⟩).2,
                       ProjectCloud2Image.toColor sqrt p⟩)
    ∧ (ProjectCloud2Image sqrt cloudIn projectmatrix).length
        = (cloudIn.filter (fun p => decide (0 ≤ p.x))).length
    ∧ ((∀ p ∈ cloudIn, p.x < 0) → ProjectCloud2Image sqrt cloudIn projectmatrix = []) := by
  refine ⟨ProjectCloud2Image_eq_map sqrt projectmatrix cloudIn, ?_, ?_⟩
  · rw [ProjectCloud2Image_eq_map]
    simp
  · intro hall
    rw [ProjectCloud2Image_eq_map]
    have : cloudIn.filter (fun p => decide (0 ≤ p.x)) = [] := by
      rw [List.filter_eq_nil_iff]
      intro p hp
      simpa using hall p hp
    simp [this]

/-! ### Distance colouring -/

/-- A positive value whose binade and nearest `float` are known. -/
theorem toFloat_eq_of_near {q : ℚ} (e n : Int) (h1 : (2 : ℚ) ^ e ≤ q)
    (h2 : q < (2 : ℚ) ^ (e + 1)) (hemin : -126 ≤ e) (hn : |q / 2 ^ (e - 23) - n| < 1 / 2) :
    toFloat q = n * 2 ^ (e - 23) := by
  have h := roundToFormat_eq_of_near 24 (-126) e n h1 h2 hemin
    (by rw [show e - (((24 : Nat) : Int) - 1) = e - 23 by norm_num]; exact hn)
  rw [show e - (((24 : Nat) : Int) - 1) = e - 23 by norm_num] at h
  exact h

/-- Rounding to `float` commutes with the change of sign. -/
theorem toFloat_neg (q : ℚ) : toFloat (-q) = -toFloat q := by
  unfold toFloat roundToFormat
  rcases lt_trichotomy q 0 with h | h | h
  · have h' : ¬ (-q < 0) := by linarith
    simp only [h, h', if_true, if_false, neg_neg]
  · subst h
    simp [roundMagnitude_zero]
  · have h' : -q < 0 := by linarith
    have hnn : ¬ (q < 0) := by linarith
    simp only [h', hnn, if_true, if_false, neg_neg]

/-- A non-negative value rounds to a non-negative `float`. -/
theorem toFloat_nonneg {q : ℚ} (h : 0 ≤ q) : 0 ≤ toFloat q := by
  have := toFloat_mono h
  rwa [toFloat_small.1] at this

/-- The rounding error of a `float` of magnitude below `2 ^ k`. -/
theorem toFloat_error (k : Int) (hk : -126 < k) {q : ℚ} (hq : |q| < 2 ^ k) :
    |toFloat q - q| ≤ 2 ^ (k - 25) := by
  have h := roundToFormat_error 24 (-126) k hk hq
  rw [show k - (((24 : Nat) : Int)) - 1 = k - 25 by push_cast; omega] at h
  exact h

/-- The conversion to `int` of a non-negative value below `2 ^ 31`. -/
theorem floatToInt_of_nonneg {q : ℚ} (h0 : 0 ≤ q) (h1 : q < 2 ^ 31) : floatToInt q = ⌊q⌋ := by
  have hf0 : 0 ≤ ⌊q⌋ := Int.floor_nonneg.mpr h0
  have hf1 : ⌊q⌋ < 2 ^ 31 := by
    rw [Int.floor_lt]
    exact_mod_cast h1
  unfold floatToInt
  simp only [h0, if_true]
  rw [if_pos ⟨by omega, hf1⟩]

/-- The conversion to `int` of a negative value not below `-2 ^ 31`. -/
theorem floatToInt_of_neg {q : ℚ} (h0 : q < 0) (h1 : -2 ^ 31 ≤ q) : floatToInt q = ⌈q⌉ := by
  have hc0 : ⌈q⌉ ≤ 0 := by
    rw [Int.ceil_le]
    exact_mod_cast le_of_lt h0
  have hc1 : -2 ^ 31 ≤ ⌈q⌉ := by
    have h2 : ((-2 ^ 31 : Int) : ℚ) ≤ (⌈q⌉ : ℚ) :=
      le_trans (by exact_mod_cast h1) (Int.le_ceil q)
    exact_mod_cast h2
  unfold floatToInt
  simp only [not_le.mpr h0, if_false]
  rw [if_pos ⟨hc1, by omega⟩]

/-- The conversion to `int` of a value in `(-1, 2 ^ 31)` is monotone there. -/
theorem floatToInt_mono {q r : ℚ} (hq : -1 < q) (hr : r < 2 ^ 31) (h : q ≤ r) :
    floatToInt q ≤ floatToInt r := by
  by_cases hr0 : 0 ≤ r
  · rw [floatToInt_of_nonneg hr0 hr]
    by_cases hq0 : 0 ≤ q
    · rw [floatToInt_of_nonneg hq0 (lt_of_le_of_lt h hr)]
      exact Int.floor_mono h
    · rw [floatToInt_of_neg (not_le.mp hq0) (by linarith)]
      have h1 : ⌈q⌉ ≤ 0 := by
        rw [Int.ceil_le]
        exact_mod_cast le_of_lt (not_le.mp hq0)
      have h2 : (0 : Int) ≤ ⌊r⌋ := Int.floor_nonneg.mpr hr0
      exact le_trans h1 h2
  · have hr' : r < 0 := not_le.mp hr0
    have hq' : q < 0 := lt_of_le_of_lt h hr'
    rw [floatToInt_of_neg hr' (by linarith), floatToInt_of_neg hq' (by linarith)]
    exact Int.ceil_mono h

/-- The conversion to `int` of an integral value within 32 bits is that value. -/
theorem floatToInt_intCast (n : Int) (h0 : -2 ^ 31 ≤ n) (h1 : n < 2 ^ 31) :
    floatToInt (n : ℚ) = n := by
  by_cases hn : 0 ≤ n
  · rw [floatToInt_of_nonneg (by exact_mod_cast hn) (by exact_mod_cast h1)]
    exact Int.floor_intCast n
  · rw [floatToInt_of_neg (by exact_mod_cast (not_le.mp hn)) (by exact_mod_cast h0)]
    exact Int.ceil_intCast n

/-- The colour value before the conversion to `int`, in plain numbers. -/
theorem colorValue_eq (distance : ℚ) :
    ProjectCloud2Image.colorValue distance
      = toFloat (toFloat (toFloat (distance - 1) / 69) * 120) := by
  simp only [ProjectCloud2Image.colorValue, ProjectCloud2Image.min_dis,
    ProjectCloud2Image.max_dis, ProjectCloud2Image.scale]
  norm_num

/-- The colour value before the conversion to `int` grows with the distance. -/
theorem colorValue_mono {d1 d2 : ℚ} (h : d1 ≤ d2) :
    ProjectCloud2Image.colorValue d1 ≤ ProjectCloud2Image.colorValue d2 := by
  rw [colorValue_eq, colorValue_eq]
  apply toFloat_mono
  apply mul_le_mul_of_nonneg_right _ (by norm_num)
  apply toFloat_mono
  apply div_le_div_of_nonneg_right _ (by norm_num)
  apply toFloat_mono
  linarith

/-- The colour value of an integral distance `1 + 69 * k / 120`-fold: at the
distances 70 and 139 the arithmetic is exact. -/
theorem colorValue_far : ProjectCloud2Image.colorValue 70 = 120
    ∧ ProjectCloud2Image.colorValue 139 = 240 := by
  have f69 : toFloat 69 = 69 := by simpa using toFloat_intCast 69 (by norm_num)
  have f138 : toFloat 138 = 138 := by simpa using toFloat_intCast 138 (by norm_num)
  have f120 : toFloat 120 = 120 := by simpa using toFloat_intCast 120 (by norm_num)
  have f240 : toFloat 240 = 240 := by simpa using toFloat_intCast 240 (by norm_num)
  constructor
  · rw [colorValue_eq, show (70 : ℚ) - 1 = 69 by norm_num, f69,
      show (69 : ℚ) / 69 = 1 by norm_num, toFloat_small.2.1,
      show (1 : ℚ) * 120 = 120 by norm_num, f120]
  · rw [colorValue_eq, show (139 : ℚ) - 1 = 138 by norm_num, f138,
      show (138 : ℚ) / 69 = 2 by norm_num, toFloat_small.2.2,
      show (2 : ℚ) * 120 = 240 by norm_num, f240]

/-- The rounding error of a non-negative `float` below 4. -/
theorem toFloat_error_4 {q : ℚ} (h0 : 0 ≤ q) (h : q < 4) : |toFloat q - q| ≤ 1 / 2 ^ 23 := by
  have := toFloat_error 2 (by norm_num) (q := q) (by rw [abs_of_nonneg h0]; norm_num; exact h)
  norm_num at this ⊢
  exact this

/-- The rounding error of a non-negative `float` below 1024. -/
theorem toFloat_error_1024 {q : ℚ} (h0 : 0 ≤ q) (h : q < 1024) :
    |toFloat q - q| ≤ 1 / 2 ^ 15 := by
  have := toFloat_error 10 (by norm_num) (q := q) (by rw [abs_of_nonneg h0]; norm_num; exact h)
  norm_num at this ⊢
  exact this

/-- The rounding error of a non-negative `float` below 4096. -/
theorem toFloat_error_4096 {q : ℚ} (h0 : 0 ≤ q) (h : q < 4096) :
    |toFloat q - q| ≤ 1 / 2 ^ 13 := by
  have := toFloat_error 12 (by norm_num) (q := q) (by rw [abs_of_nonneg h0]; norm_num; exact h)
  norm_num at this ⊢
  exact this

/-- The rounding error of a non-negative `float` below 8192. -/
theorem toFloat_error_8192 {q : ℚ} (h0 : 0 ≤ q) (h : q < 8192) :
    |toFloat q - q| ≤ 1 / 2 ^ 12 := by
  have := toFloat_error 13 (by norm_num) (q := q) (by rw [abs_of_nonneg h0]; norm_num; exact h)
  norm_num at this ⊢
  exact this

/-- The sum of three non-negative values with exact sum at most 4900, as
`float` arithmetic forms it from left to right: before the last rounding it is
off the exact sum by at most `5 / 2 ^ 13`. -/
theorem floatSum_error (a b c : ℚ) (ha : 0 ≤ a) (hb : 0 ≤ b) (hc : 0 ≤ c)
    (hS : a + b + c ≤ 4900) :
    |toFloat (toFloat a + toFloat b) + toFloat c - (a + b + c)| ≤ 5 / 2 ^ 13 := by
  have hA := toFloat_nonneg ha
  have hB := toFloat_nonneg hb
  by_cases h1 : a < 4096
  · by_cases h2 : b < 4096
    · by_cases h3 : c < 4096
      · have ea := abs_le.mp (toFloat_error_4096 ha h1)
        have eb := abs_le.mp (toFloat_error_4096 hb h2)
        have ec := abs_le.mp (toFloat_error_4096 hc h3)
        have et := abs_le.mp (toFloat_error_8192 (q := toFloat a + toFloat b) (by linarith)
          (by norm_num at ea eb; linarith))
        rw [abs_le]
        norm_num at ea eb ec et ⊢
        constructor <;> linarith
      · have ea := abs_le.mp (toFloat_error_1024 ha (by linarith))
        have eb := abs_le.mp (toFloat_error_1024 hb (by linarith))
        have ec := abs_le.mp (toFloat_error_8192 hc (by linarith))
        have et := abs_le.mp (toFloat_error_1024 (q := toFloat a + toFloat b) (by linarith)
          (by norm_num at ea eb; linarith))
        rw [abs_le]
        norm_num at ea eb ec et ⊢
        constructor <;> linarith
    · have ea := abs_le.mp (toFloat_error_1024 ha (by linarith))
      have eb := abs_le.mp (toFloat_error_8192 hb (by linarith))
      have ec := abs_le.mp (toFloat_error_1024 hc (by linarith))
      have et := abs_le.mp (toFloat_error_8192 (q := toFloat a + toFloat b) (by linarith)
        (by norm_num at ea eb; linarith))
      rw [abs_le]
      norm_num at ea eb ec et ⊢
      constructor <;> linarith
  · have ea := abs_le.mp (toFloat_error_8192 ha (by linarith))
    have eb := abs_le.mp (toFloat_error_1024 hb (by linarith))
    have ec := abs_le.mp (toFloat_error_1024 hc (by linarith))
    have et := abs_le.mp (toFloat_error_8192 (q := toFloat a + toFloat b) (by linarith)
      (by norm_num at ea eb; linarith))
    rw [abs_le]
    norm_num at ea eb ec et ⊢
    constructor <;> linarith

/-- The `float`s next to 4900 on either side, reached from a quarter of a unit
in the last place further out. -/
theorem toFloat_near_4900 : toFloat (4900 + 5 / 2 ^ 13) = 4900 + 1 / 2 ^ 11
    ∧ toFloat (4900 - 5 / 2 ^ 13) = 4900 - 1 / 2 ^ 11 := by
  constructor
  · rw [toFloat_eq_of_near 12 10035201 (by norm_num) (by norm_num) (by norm_num)
      (by rw [abs_lt]; constructor <;> norm_num)]
    norm_num
  · rw [toFloat_eq_of_near 12 10035199 (by norm_num) (by norm_num) (by norm_num)
      (by rw [abs_lt]; constructor <;> norm_num)]
    norm_num

/-- Some `float`s: one quarter, one half, three halves and fifteen sixteenths,
one 128th, and the integers 23, 24, 69, 70, 120 and 139. -/
theorem toFloat_values : toFloat (1 / 4) = 1 / 4 ∧ toFloat (1 / 2) = 1 / 2
    ∧ toFloat (3 / 2) = 3 / 2 ∧ toFloat (15 / 16) = 15 / 16 ∧ toFloat (1 / 128) = 1 / 128
    ∧ toFloat 23 = 23 ∧ toFloat 24 = 24 ∧ toFloat 69 = 69 ∧ toFloat 70 = 70
    ∧ toFloat 120 = 120 ∧ toFloat 139 = 139 := by
  refine ⟨?_, ?_, ?_, ?_, ?_, ?_, ?_, ?_, ?_, ?_, ?_⟩
  · rw [toFloat_eq_of_near (-2) 8388608 (by norm_num) (by norm_num) (by norm_num)
      (by rw [abs_lt]; constructor <;> norm_num)]
    norm_num
  · rw [toFloat_eq_of_near (-1) 8388608 (by norm_num) (by norm_num) (by norm_num)
      (by rw [abs_lt]; constructor <;> norm_num)]
    norm_num
  · rw [toFloat_eq_of_near 0 12582912 (by norm_num) (by norm_num) (by norm_num)
      (by rw [abs_lt]; constructor <;> norm_num)]
    norm_num
  · rw [toFloat_eq_of_near (-1) 15728640 (by norm_num) (by norm_num) (by norm_num)
      (by rw [abs_lt]; constructor <;> norm_num)]
    norm_num
  · rw [toFloat_eq_of_near (-7) 8388608 (by norm_num) (by norm_num) (by norm_num)
      (by rw [abs_lt]; constructor <;> norm_num)]
    norm_num
  · simpa using toFloat_intCast 23 (by norm_num)
  · simpa using toFloat_intCast 24 (by norm_num)
  · simpa using toFloat_intCast 69 (by norm_num)
  · simpa using toFloat_intCast 70 (by norm_num)
  · simpa using toFloat_intCast 120 (by norm_num)
  · simpa using toFloat_intCast 139 (by norm_num)

/-- The squared distance that `toColor` computes is not negative. -/
theorem squaredDistance_nonneg (p : PointXYZI) : 0 ≤ ProjectCloud2Image.squaredDistance p := by
  unfold ProjectCloud2Image.squaredDistance
  apply toFloat_nonneg
  have h1 := toFloat_nonneg (mul_self_nonneg p.x)
  have h2 := toFloat_nonneg (mul_self_nonneg p.y)
  have h3 := toFloat_nonneg (mul_self_nonneg p.z)
  have h4 := toFloat_nonneg (add_nonneg h1 h2)
  linarith

/-- For a point at Euclidean distance at most 70, the squared distance that
`toColor` computes is at most the `float` next above 4900. -/
theorem squaredDistance_le (p : PointXYZI)
    (h : p.x * p.x + p.y * p.y + p.z * p.z ≤ 4900) :
    ProjectCloud2Image.squaredDistance p ≤ 4900 + 1 / 2 ^ 11 := by
  have herr := abs_le.mp (floatSum_error _ _ _ (mul_self_nonneg p.x) (mul_self_nonneg p.y)
    (mul_self_nonneg p.z) h)
  unfold ProjectCloud2Image.squaredDistance
  rw [← toFloat_near_4900.1]
  apply toFloat_mono
  linarith

/-- For a point at Euclidean distance 70, the squared distance that `toColor`
computes is at least the `float` next below 4900. -/
theorem squaredDistance_ge (p : PointXYZI)
    (h : p.x * p.x + p.y * p.y + p.z * p.z = 4900) :
    4900 - 1 / 2 ^ 11 ≤ ProjectCloud2Image.squaredDistance p := by
  have herr := abs_le.mp (floatSum_error _ _ _ (mul_self_nonneg p.x) (mul_self_nonneg p.y)
    (mul_self_nonneg p.z) (le_of_eq h))
  unfold ProjectCloud2Image.squaredDistance
  rw [← toFloat_near_4900.2]
  apply toFloat_mono
  linarith

/-- For a point at Euclidean distance at least 1, the squared distance that
`toColor` computes is at least one quarter. -/
theorem squaredDistance_ge_quarter (p : PointXYZI)
    (h : 1 ≤ p.x * p.x + p.y * p.y + p.z * p.z) :
    1 / 4 ≤ ProjectCloud2Image.squaredDistance p := by
  have hA := toFloat_nonneg (mul_self_nonneg p.x)
  have hB := toFloat_nonneg (mul_self_nonneg p.y)
  have hC := toFloat_nonneg (mul_self_nonneg p.z)
  have hT := toFloat_nonneg (add_nonneg hA hB)
  unfold ProjectCloud2Image.squaredDistance
  rw [← toFloat_values.1]
  apply toFloat_mono
  by_cases hz : 1 / 4 ≤ p.z * p.z
  · have := toFloat_mono hz
    rw [toFloat_values.1] at this
    linarith
  · have hxy : 1 / 4 ≤ p.x * p.x ∨ 1 / 4 ≤ p.y * p.y := by
      by_contra hcon
      push_neg at hcon
      linarith [hcon.1, hcon.2, not_le.mp hz]
    have hAB : 1 / 4 ≤ toFloat (p.x * p.x) + toFloat (p.y * p.y) := by
      rcases hxy with hx | hy
      · have := toFloat_mono hx
        rw [toFloat_values.1] at this
        linarith
      · have := toFloat_mono hy
        rw [toFloat_values.1] at this
        linarith
    have := toFloat_mono hAB
    rw [toFloat_values.1] at this
    linarith

/-- For a point at Euclidean distance 1, the squared distance that `toColor`
computes is at most nine quarters. -/
theorem squaredDistance_le_of_unit (p : PointXYZI)
    (h : p.x * p.x + p.y * p.y + p.z * p.z = 1) :
    ProjectCloud2Image.squaredDistance p ≤ 9 / 4 := by
  have ha := mul_self_nonneg p.x
  have hb := mul_self_nonneg p.y
  have hc := mul_self_nonneg p.z
  have hA := toFloat_nonneg ha
  have hB := toFloat_nonneg hb
  have hC := toFloat_nonneg hc
  have ea := abs_le.mp (toFloat_error_4 ha (by linarith))
  have eb := abs_le.mp (toFloat_error_4 hb (by linarith))
  have ec := abs_le.mp (toFloat_error_4 hc (by linarith))
  norm_num at ea eb ec
  have hT := toFloat_nonneg (add_nonneg hA hB)
  have et := abs_le.mp (toFloat_error_4 (q := toFloat (p.x * p.x) + toFloat (p.y * p.y))
    (by linarith) (by linarith))
  norm_num at et
  have es := abs_le.mp (toFloat_error_4
    (q := toFloat (toFloat (p.x * p.x) + toFloat (p.y * p.y)) + toFloat (p.z * p.z))
    (by linarith) (by linarith))
  norm_num at es
  unfold ProjectCloud2Image.squaredDistance
  linarith

/-- The colour value before the conversion to `int` is above `-1` from the
distance one half on, and below `1` up to the distance three halves. -/
theorem colorValue_near_zero (d : ℚ) :
    (1 / 2 ≤ d → -(15 / 16) ≤ ProjectCloud2Image.colorValue d)
    ∧ (d ≤ 3 / 2 → ProjectCloud2Image.colorValue d ≤ 15 / 16) := by
  have hneg : ∀ q : ℚ, toFloat (-q) = -toFloat q := toFloat_neg
  constructor
  · intro h
    rw [colorValue_eq]
    have h1 : -(1 / 2) ≤ toFloat (d - 1) := by
      have := toFloat_mono (show -(1 / 2 : ℚ) ≤ d - 1 by linarith)
      rwa [hneg, toFloat_values.2.1] at this
    have h2 : -(1 / 128) ≤ toFloat (toFloat (d - 1) / 69) := by
      have := toFloat_mono (show -(1 / 128 : ℚ) ≤ toFloat (d - 1) / 69 by
        rw [le_div_iff₀ (by norm_num)]; linarith)
      rwa [hneg, toFloat_values.2.2.2.2.1] at this
    have := toFloat_mono (show -(15 / 16 : ℚ) ≤ toFloat (toFloat (d - 1) / 69) * 120 by linarith)
    rwa [hneg, toFloat_values.2.2.2.1] at this
  · intro h
    rw [colorValue_eq]
    have h1 : toFloat (d - 1) ≤ 1 / 2 := by
      have := toFloat_mono (show d - 1 ≤ (1 / 2 : ℚ) by linarith)
      rwa [toFloat_values.2.1] at this
    have h2 : toFloat (toFloat (d - 1) / 69) ≤ 1 / 128 := by
      have := toFloat_mono (show toFloat (d - 1) / 69 ≤ (1 / 128 : ℚ) by
        rw [div_le_iff₀ (by norm_num)]; linarith)
      rwa [toFloat_values.2.2.2.2.1] at this
    have := toFloat_mono (show toFloat (toFloat (d - 1) / 69) * 120 ≤ (15 / 16 : ℚ) by linarith)
    rwa [toFloat_values.2.2.2.1] at this

/-- The conversion to `int` of a colour value in `[-15/16, 15/16]` is `0`, and
that of one in `[-15/16, 120]` lies in `[0, 120]`. -/
theorem floatToInt_color {r : ℚ} (hlo : -(15 / 16) ≤ r) :
    (r ≤ 15 / 16 → floatToInt r = 0)
    ∧ (r ≤ 120 → 0 ≤ floatToInt r ∧ floatToInt r ≤ 120) := by
  have h0 : floatToInt (-(15 / 16) : ℚ) = 0 := by
    rw [floatToInt_of_neg (by norm_num) (by norm_num), Int.ceil_eq_iff]
    norm_num
  have h1 : floatToInt (15 / 16 : ℚ) = 0 := by
    rw [floatToInt_of_nonneg (by norm_num) (by norm_num), Int.floor_eq_iff]
    norm_num
  have h120 : floatToInt (120 : ℚ) = 120 := by
    simpa using floatToInt_intCast 120 (by norm_num) (by norm_num)
  constructor
  · intro hhi
    have a := floatToInt_mono (q := -(15 / 16)) (r := r) (by norm_num) (by linarith) hlo
    have b := floatToInt_mono (q := r) (r := 15 / 16) (by linarith) (by norm_num) hhi
    rw [h0] at a
    rw [h1] at b
    omega
  · intro hhi
    have a := floatToInt_mono (q := -(15 / 16)) (r := r) (by norm_num) (by linarith) hlo
    have b := floatToInt_mono (q := r) (r := 120) (by linarith) (by norm_num) hhi
    rw [h0] at a
    rw [h120] at b
    exact ⟨a, b⟩

/-- The squared distance of a point, from the roundings of its steps. -/
theorem squaredDistance_eval (p : PointXYZI) (a b c t s : ℚ)
    (ha : toFloat (p.x * p.x) = a) (hb : toFloat (p.y * p.y) = b)
    (hc : toFloat (p.z * p.z) = c) (ht : toFloat (a + b) = t) (hs : toFloat (t + c) = s) :
    ProjectCloud2Image.squaredDistance p = s := by
  unfold ProjectCloud2Image.squaredDistance
  rw [ha, hb, hc, ht, hs]

/-- The colour value before the conversion to `int`, from the roundings of its
steps. -/
theorem colorValue_eval (d a b c : ℚ) (ha : toFloat (d - 1) = a) (hb : toFloat (a / 69) = b)
    (hc : toFloat (b * 120) = c) : ProjectCloud2Image.colorValue d = c := by
  rw [colorValue_eq, ha, hb, hc]

/-- The colour of a point, from the values of its steps. -/
theorem toColor_eval (sqrt : ℚ → ℚ) (p : PointXYZI) (s d r : ℚ) (n : Int)
    (hs : ProjectCloud2Image.squaredDistance p = s) (hd : toFloat (sqrt s) = d)
    (hr : ProjectCloud2Image.colorValue d = r) (hn : floatToInt r = n) :
    ProjectCloud2Image.toColor sqrt p = n := by
  show floatToInt (ProjectCloud2Image.colorValue (toFloat (sqrt
    (ProjectCloud2Image.squaredDistance p)))) = n
  rw [hs, hd, hr, hn]

/-- The colour value before the conversion to `int` at the distances 0, 24,
`24 - 2 ^ (-19)` and 72.875. -/
theorem colorValue_samples :
    ProjectCloud2Image.colorValue 0 = -(3647221 / 2097152)
    ∧ ProjectCloud2Image.colorValue 24 = 40
    ∧ ProjectCloud2Image.colorValue (24 - 1 / 2 ^ 19) = 10485759 / 262144
    ∧ ProjectCloud2Image.colorValue (583 / 8) = 16383999 / 131072 := by
  refine ⟨?_, ?_, ?_, ?_⟩
  · apply colorValue_eval 0 (-1) (-(3890369 / 268435456))
    · rw [show (0 : ℚ) - 1 = -1 by norm_num, toFloat_neg, toFloat_small.2.1]
    · rw [show (-1 : ℚ) / 69 = -(1 / 69) by norm_num, toFloat_neg,
        toFloat_eq_of_near (-7) 15561476 (by norm_num) (by norm_num) (by norm_num)
          (by rw [abs_lt]; constructor <;> norm_num)]
      norm_num
    · rw [show -(3890369 / 268435456 : ℚ) * 120 = -(3890369 / 268435456 * 120) by ring,
        toFloat_neg,
        toFloat_eq_of_near 0 14588884 (by norm_num) (by norm_num) (by norm_num)
          (by rw [abs_lt]; constructor <;> norm_num)]
      norm_num
  · apply colorValue_eval 24 23 (11184811 / 33554432)
    · rw [show (24 : ℚ) - 1 = 23 by norm_num]
      exact toFloat_values.2.2.2.2.2.1
    · rw [toFloat_eq_of_near (-2) 11184811 (by norm_num) (by norm_num) (by norm_num)
        (by rw [abs_lt]; constructor <;> norm_num)]
      norm_num
    · rw [toFloat_eq_of_near 5 10485760 (by norm_num) (by norm_num) (by norm_num)
        (by rw [abs_lt]; constructor <;> norm_num)]
      norm_num
  · apply colorValue_eval _ (12058623 / 524288) (5592405 / 16777216)
    · rw [toFloat_eq_of_near 4 12058623 (by norm_num) (by norm_num) (by norm_num)
        (by rw [abs_lt]; constructor <;> norm_num)]
      norm_num
    · rw [toFloat_eq_of_near (-2) 11184810 (by norm_num) (by norm_num) (by norm_num)
        (by rw [abs_lt]; constructor <;> norm_num)]
      norm_num
    · rw [toFloat_eq_of_near 5 10485759 (by norm_num) (by norm_num) (by norm_num)
        (by rw [abs_lt]; constructor <;> norm_num)]
      norm_num
  · apply colorValue_eval _ (575 / 8) (8738133 / 8388608)
    · rw [toFloat_eq_of_near 6 9420800 (by norm_num) (by norm_num) (by norm_num)
        (by rw [abs_lt]; constructor <;> norm_num)]
      norm_num
    · rw [toFloat_eq_of_near 0 8738133 (by norm_num) (by norm_num) (by norm_num)
        (by rw [abs_lt]; constructor <;> norm_num)]
      norm_num
    · rw [toFloat_eq_of_near 6 16383999 (by norm_num) (by norm_num) (by norm_num)
        (by rw [abs_lt]; constructor <;> norm_num)]
      norm_num

/-- The colours of the points `(24, 0, 0)` and
`(23205 / 1024, 1387 / 256, 5893 / 1024)` with the square root `stepSqrt`. -/
theorem toColor_near_24 :
    ProjectCloud2Image.toColor stepSqrt ⟨24, 0, 0, 0⟩ = 40
    ∧ ProjectCloud2Image.toColor stepSqrt ⟨23205 / 1024, 1387 / 256, 5893 / 1024, 0⟩ = 39
    ∧ ProjectCloud2Image.squaredDistance ⟨23205 / 1024, 1387 / 256, 5893 / 1024, 0⟩
        = 576 - 1 / 2 ^ 14
    ∧ ProjectCloud2Image.distance stepSqrt ⟨24, 0, 0, 0⟩ = 24
    ∧ ProjectCloud2Image.distance stepSqrt ⟨23205 / 1024, 1387 / 256, 5893 / 1024, 0⟩
        = 24 - 1 / 2 ^ 19 := by
  have f576 : toFloat 576 = 576 := by simpa using toFloat_intCast 576 (by norm_num)
  have s1 : ProjectCloud2Image.squaredDistance ⟨24, 0, 0, 0⟩ = 576 := by
    apply squaredDistance_eval _ 576 0 0 576
    · rw [show (24 : ℚ) * 24 = 576 by norm_num]; exact f576
    · rw [show (0 : ℚ) * 0 = 0 by norm_num]; exact toFloat_small.1
    · rw [show (0 : ℚ) * 0 = 0 by norm_num]; exact toFloat_small.1
    · rw [show (576 : ℚ) + 0 = 576 by norm_num]; exact f576
    · rw [show (576 : ℚ) + 0 = 576 by norm_num]; exact f576
  have s2 : ProjectCloud2Image.squaredDistance ⟨23205 / 1024, 1387 / 256, 5893 / 1024, 0⟩
      = 576 - 1 / 2 ^ 14 := by
    apply squaredDistance_eval _ (8413625 / 16384) (1923769 / 65536) (4340931 / 131072)
      (8894567 / 16384)
    · rw [toFloat_eq_of_near 9 8413625 (by norm_num) (by norm_num) (by norm_num)
        (by rw [abs_lt]; constructor <;> norm_num)]
      norm_num
    · rw [toFloat_eq_of_near 4 15390152 (by norm_num) (by norm_num) (by norm_num)
        (by rw [abs_lt]; constructor <;> norm_num)]
      norm_num
    · rw [toFloat_eq_of_near 5 8681862 (by norm_num) (by norm_num) (by norm_num)
        (by rw [abs_lt]; constructor <;> norm_num)]
      norm_num
    · rw [toFloat_eq_of_near 9 8894567 (by norm_num) (by norm_num) (by norm_num)
        (by rw [abs_lt]; constructor <;> norm_num)]
      norm_num
    · rw [toFloat_eq_of_near 9 9437183 (by norm_num) (by norm_num) (by norm_num)
        (by rw [abs_lt]; constructor <;> norm_num)]
      norm_num
  have r1 : stepSqrt 576 = 24 := by
    unfold stepSqrt
    norm_num
  have r2 : stepSqrt (576 - 1 / 2 ^ 14) = 24 - 1 / 2 ^ 19 := by
    unfold stepSqrt
    norm_num
  have d2 : toFloat (24 - 1 / 2 ^ 19) = 24 - 1 / 2 ^ 19 := by
    rw [toFloat_eq_of_near 4 12582911 (by norm_num) (by norm_num) (by norm_num)
      (by rw [abs_lt]; constructor <;> norm_num)]
    norm_num
  have i40 : floatToInt (40 : ℚ) = 40 := by
    simpa using floatToInt_intCast 40 (by norm_num) (by norm_num)
  have i39 : floatToInt (10485759 / 262144 : ℚ) = 39 := by
    rw [floatToInt_of_nonneg (by norm_num) (by norm_num), Int.floor_eq_iff]
    norm_num
  refine ⟨?_, ?_, s2, ?_, ?_⟩
  · exact toColor_eval stepSqrt _ 576 24 40 40 s1 (by rw [r1]; exact toFloat_values.2.2.2.2.2.2.1)
      colorValue_samples.2.1 i40
  · exact toColor_eval stepSqrt _ (576 - 1 / 2 ^ 14) (24 - 1 / 2 ^ 19) (10485759 / 262144) 39 s2
      (by rw [r2]; exact d2) colorValue_samples.2.2.1 i39
  · unfold ProjectCloud2Image.distance
    rw [s1, r1]
    exact toFloat_values.2.2.2.2.2.2.1
  · unfold ProjectCloud2Image.distance
    rw [s2, r2]
    exact d2

/-- C9, as stated, fails in `float` arithmetic.  The point `(24, 0, 0)` lies
at the Euclidean distance 24 and gets the colour 40; the point
`(23205 / 1024, 1387 / 256, 5893 / 1024)`, whose coordinates are `float`s, lies
farther away (its squared distance is `576 + 2 ^ (-19)`), both within
`[1, 70]`, and gets the smaller colour 39: `toColor` computes for it the
squared distance `576 - 2 ^ (-14)`, whose correctly rounded root is
`24 - 2 ^ (-19)` (the value lies between the squares of the midpoints to the
neighbouring `float`s). -/
theorem toColor_not_monotone_in_distance :
    (1 ≤ (24 : ℚ) * 24 + 0 * 0 + 0 * 0
      ∧ (24 : ℚ) * 24 + 0 * 0 + 0 * 0
          < 23205 / 1024 * (23205 / 1024) + 1387 / 256 * (1387 / 256)
            + 5893 / 1024 * (5893 / 1024)
      ∧ (23205 / 1024 * (23205 / 1024) + 1387 / 256 * (1387 / 256)
            + 5893 / 1024 * (5893 / 1024) : ℚ) ≤ 4900)
    ∧ ProjectCloud2Image.toColor stepSqrt ⟨24, 0, 0, 0⟩ = 40
    ∧ ProjectCloud2Image.toColor stepSqrt ⟨23205 / 1024, 1387 / 256, 5893 / 1024, 0⟩ = 39
    ∧ ProjectCloud2Image.squaredDistance ⟨23205 / 1024, 1387 / 256, 5893 / 1024, 0⟩
        = 576 - 1 / 2 ^ 14
    ∧ ((24 - 3 / 2 ^ 20 : ℚ) * (24 - 3 / 2 ^ 20) < 576 - 1 / 2 ^ 14
      ∧ (576 - 1 / 2 ^ 14 : ℚ) < (24 - 1 / 2 ^ 20) * (24 - 1 / 2 ^ 20)) := by
  refine ⟨⟨by norm_num, by norm_num, by norm_num⟩, toColor_near_24.1, toColor_near_24.2.1,
    toColor_near_24.2.2.1, by norm_num, by norm_num⟩

/-- C9, amended: with a correctly rounded `float` square root (of which four
consequences are assumed: the root of a value from one quarter on is at least
one half, that of a value up to nine quarters at most three halves, and that
of a value within one unit in the last place of 4900 is 70, which holds since
`(70 - 2 ^ (-18)) ^ 2 < 4900 - 2 ^ (-11)` and
`4900 + 2 ^ (-11) < (70 + 2 ^ (-18)) ^ 2`), for every point whose Euclidean
distance `d` from the sensor origin satisfies `1 ≤ d ≤ 70` (stated on the
square of `d`), the colour value lies in `[0, 120]`, it is `0` at `d = 1` and
`120` at `d = 70`, and it is non-decreasing in the distance that `toColor`
computes in `float` arithmetic: of two such points, the one with the smaller
computed distance has the smaller or the same colour. -/
theorem toColor_in_range (sqrt : ℚ → ℚ) (p q : PointXYZI)
    (hquarter : ∀ v, 1 / 4 ≤ v → 1 / 2 ≤ sqrt v)
    (hsmall : ∀ v, 0 ≤ v → v ≤ 9 / 4 → sqrt v ≤ 3 / 2)
    (hfar_lo : ∀ v, 4900 - 1 / 2 ^ 11 ≤ v → 70 ≤ sqrt v)
    (hfar_hi : ∀ v, 0 ≤ v → v ≤ 4900 + 1 / 2 ^ 11 → sqrt v ≤ 70)
    (hp : 1 ≤ p.x * p.x + p.y * p.y + p.z * p.z ∧ p.x * p.x + p.y * p.y + p.z * p.z ≤ 4900)
    (hq : 1 ≤ q.x * q.x + q.y * q.y + q.z * q.z ∧ q.x * q.x + q.y * q.y + q.z * q.z ≤ 4900) :
    (0 ≤ ProjectCloud2Image.toColor sqrt p ∧ ProjectCloud2Image.toColor sqrt p ≤ 120)
    ∧ (p.x * p.x + p.y * p.y + p.z * p.z = 1 → ProjectCloud2Image.toColor sqrt p = 0)
    ∧ (p.x * p.x + p.y * p.y + p.z * p.z = 4900 → ProjectCloud2Image.toColor sqrt p = 120)
    ∧ (ProjectCloud2Image.distance sqrt p ≤ ProjectCloud2Image.distance sqrt q →
        ProjectCloud2Image.toColor sqrt p ≤ ProjectCloud2Image.toColor sqrt q)
    ∧ ((70 - 1 / 2 ^ 18 : ℚ) * (70 - 1 / 2 ^ 18) < 4900 - 1 / 2 ^ 11
      ∧ (4900 + 1 / 2 ^ 11 : ℚ) < (70 + 1 / 2 ^ 18) * (70 + 1 / 2 ^ 18)) := by
  -- the computed distance of a point within the range lies in [1/2, 70]
  have hdist : ∀ r : PointXYZI, 1 ≤ r.x * r.x + r.y * r.y + r.z * r.z →
      r.x * r.x + r.y * r.y + r.z * r.z ≤ 4900 →
      1 / 2 ≤ ProjectCloud2Image.distance sqrt r ∧ ProjectCloud2Image.distance sqrt r ≤ 70 := by
    intro r h1 h2
    unfold ProjectCloud2Image.distance
    constructor
    · rw [← toFloat_values.2.1]
      exact toFloat_mono (hquarter _ (squaredDistance_ge_quarter r h1))
    · rw [← toFloat_values.2.2.2.2.2.2.2.2.1]
      exact toFloat_mono (hfar_hi _ (squaredDistance_nonneg r) (squaredDistance_le r h2))
  -- hence its colour value lies in [-15/16, 120]
  have hval : ∀ r : PointXYZI, 1 ≤ r.x * r.x + r.y * r.y + r.z * r.z →
      r.x * r.x + r.y * r.y + r.z * r.z ≤ 4900 →
      -(15 / 16) ≤ ProjectCloud2Image.colorValue (ProjectCloud2Image.distance sqrt r)
      ∧ ProjectCloud2Image.colorValue (ProjectCloud2Image.distance sqrt r) ≤ 120 := by
    intro r h1 h2
    obtain ⟨hd1, hd2⟩ := hdist r h1 h2
    refine ⟨(colorValue_near_zero _).1 hd1, ?_⟩
    rw [← colorValue_far.1]
    exact colorValue_mono hd2
  obtain ⟨hvp1, hvp2⟩ := hval p hp.1 hp.2
  obtain ⟨hvq1, hvq2⟩ := hval q hq.1 hq.2
  refine ⟨?_, ?_, ?_, ?_, by norm_num, by norm_num⟩
  · exact (floatToInt_color hvp1).2 hvp2
  · intro h1
    have hd : ProjectCloud2Image.distance sqrt p ≤ 3 / 2 := by
      unfold ProjectCloud2Image.distance
      rw [← toFloat_values.2.2.1]
      exact toFloat_mono (hsmall _ (squaredDistance_nonneg p) (squaredDistance_le_of_unit p h1))
    exact (floatToInt_color hvp1).1 ((colorValue_near_zero _).2 hd)
  · intro h70
    have hroot : sqrt (ProjectCloud2Image.squaredDistance p) = 70 :=
      le_antisymm (hfar_hi _ (squaredDistance_nonneg p) (squaredDistance_le p (le_of_eq h70)))
        (hfar_lo _ (squaredDistance_ge p h70))
    have hd : ProjectCloud2Image.distance sqrt p = 70 := by
      unfold ProjectCloud2Image.distance
      rw [hroot]
      exact toFloat_values.2.2.2.2.2.2.2.2.1
    show floatToInt (ProjectCloud2Image.colorValue (ProjectCloud2Image.distance sqrt p)) = 120
    rw [hd, colorValue_far.1]
    simpa using floatToInt_intCast 120 (by norm_num) (by norm_num)
  · intro hle
    show floatToInt (ProjectCloud2Image.colorValue (ProjectCloud2Image.distance sqrt p))
      ≤ floatToInt (ProjectCloud2Image.colorValue (ProjectCloud2Image.distance sqrt q))
    exact floatToInt_mono (by linarith) (by linarith) (colorValue_mono hle)

/-- The four assumptions on the square root hold of `stepSqrt`. -/
theorem stepSqrt_rounded :
    (∀ v, 1 / 4 ≤ v → 1 / 2 ≤ stepSqrt v)
    ∧ (∀ v, 0 ≤ v → v ≤ 9 / 4 → stepSqrt v ≤ 3 / 2)
    ∧ (∀ v, 4900 - 1 / 2 ^ 11 ≤ v → 70 ≤ stepSqrt v)
    ∧ (∀ v, 0 ≤ v → v ≤ 4900 + 1 / 2 ^ 11 → stepSqrt v ≤ 70) := by
  refine ⟨?_, ?_, ?_, ?_⟩
  · intro v hv
    unfold stepSqrt
    split_ifs <;> norm_num at *
    linarith
  · intro v _ hv
    unfold stepSqrt
    split_ifs <;> norm_num at *
  · intro v hv
    unfold stepSqrt
    split_ifs <;> norm_num at * <;> linarith
  · intro v _ hv
    unfold stepSqrt
    split_ifs <;> norm_num at *

/-- C9, amended, at concrete points off the axes, with the square root
`stepSqrt`: the point `(42, 56, 0)` lies at the Euclidean distance 70 and gets
the colour 120, and the point `(0, 1, 0)` at the distance 1 gets the colour
0. -/
theorem toColor_in_range_witness :
    ProjectCloud2Image.toColor stepSqrt ⟨42, 56, 0, 0⟩ = 120
    ∧ ProjectCloud2Image.toColor stepSqrt ⟨0, 1, 0, 0⟩ = 0
    ∧ ProjectCloud2Image.toColor stepSqrt ⟨0, 1, 0, 0⟩
        ≤ ProjectCloud2Image.toColor stepSqrt ⟨42, 56, 0, 0⟩ := by
  have h1 := toColor_in_range stepSqrt ⟨42, 56, 0, 0⟩ ⟨0, 1, 0, 0⟩ stepSqrt_rounded.1
    stepSqrt_rounded.2.1 stepSqrt_rounded.2.2.1 stepSqrt_rounded.2.2.2
    (by norm_num) (by norm_num)
  have h2 := toColor_in_range stepSqrt ⟨0, 1, 0, 0⟩ ⟨42, 56, 0, 0⟩ stepSqrt_rounded.1
    stepSqrt_rounded.2.1 stepSqrt_rounded.2.2.1 stepSqrt_rounded.2.2.2
    (by norm_num) (by norm_num)
  have e1 := h1.2.2.1 (by norm_num)
  have e2 := h2.2.1 (by norm_num)
  refine ⟨e1, e2, ?_⟩
  rw [e1, e2]
  norm_num

/-- The colours of the points `(72.875, 0, 0)`, `(0, 139, 0)` and the origin
with the square root `stepSqrt`, and the distance computed for the first. -/
theorem toColor_samples :
    ProjectCloud2Image.toColor stepSqrt ⟨583 / 8, 0, 0, 0⟩ = 124
    ∧ ProjectCloud2Image.distance stepSqrt ⟨583 / 8, 0, 0, 0⟩ = 583 / 8
    ∧ ProjectCloud2Image.toColor stepSqrt ⟨0, 139, 0, 0⟩ = 240
    ∧ ProjectCloud2Image.toColor stepSqrt ⟨0, 0, 0, 0⟩ = -1 := by
  have f0 : toFloat (0 * 0) = 0 := by
    rw [show (0 : ℚ) * 0 = 0 by norm_num]
    exact toFloat_small.1
  have f00 : toFloat (0 + 0) = 0 := by
    rw [show (0 : ℚ) + 0 = 0 by norm_num]
    exact toFloat_small.1
  have fsq : toFloat (339889 / 64) = 339889 / 64 := by
    rw [toFloat_eq_of_near 12 10876448 (by norm_num) (by norm_num) (by norm_num)
      (by rw [abs_lt]; constructor <;> norm_num)]
    norm_num
  have f19321 : toFloat 19321 = 19321 := by simpa using toFloat_intCast 19321 (by norm_num)
  have s1 : ProjectCloud2Image.squaredDistance ⟨583 / 8, 0, 0, 0⟩ = 339889 / 64 := by
    apply squaredDistance_eval _ (339889 / 64) 0 0 (339889 / 64)
    · rw [show (583 / 8 : ℚ) * (583 / 8) = 339889 / 64 by norm_num]; exact fsq
    · exact f0
    · exact f0
    · rw [show (339889 / 64 : ℚ) + 0 = 339889 / 64 by norm_num]; exact fsq
    · rw [show (339889 / 64 : ℚ) + 0 = 339889 / 64 by norm_num]; exact fsq
  have s2 : ProjectCloud2Image.squaredDistance ⟨0, 139, 0, 0⟩ = 19321 := by
    apply squaredDistance_eval _ 0 19321 0 19321
    · exact f0
    · rw [show (139 : ℚ) * 139 = 19321 by norm_num]; exact f19321
    · exact f0
    · rw [show (0 : ℚ) + 19321 = 19321 by norm_num]; exact f19321
    · rw [show (19321 : ℚ) + 0 = 19321 by norm_num]; exact f19321
  have s3 : ProjectCloud2Image.squaredDistance ⟨0, 0, 0, 0⟩ = 0 :=
    squaredDistance_eval _ 0 0 0 0 0 f0 f0 f0 f00 f00
  have r1 : stepSqrt (339889 / 64) = 583 / 8 := by
    unfold stepSqrt
    norm_num
  have r2 : stepSqrt 19321 = 139 := by
    unfold stepSqrt
    norm_num
  have r3 : stepSqrt 0 = 0 := by
    unfold stepSqrt
    norm_num
  have d1 : toFloat (583 / 8) = 583 / 8 := by
    rw [toFloat_eq_of_near 6 9551872 (by norm_num) (by norm_num) (by norm_num)
      (by rw [abs_lt]; constructor <;> norm_num)]
    norm_num
  have i124 : floatToInt (16383999 / 131072 : ℚ) = 124 := by
    rw [floatToInt_of_nonneg (by norm_num) (by norm_num), Int.floor_eq_iff]
    norm_num
  have i240 : floatToInt (240 : ℚ) = 240 := by
    simpa using floatToInt_intCast 240 (by norm_num) (by norm_num)
  have ineg : floatToInt (-(3647221 / 2097152) : ℚ) = -1 := by
    rw [floatToInt_of_neg (by norm_num) (by norm_num), Int.ceil_eq_iff]
    norm_num
  refine ⟨?_, ?_, ?_, ?_⟩
  · exact toColor_eval stepSqrt _ (339889 / 64) (583 / 8) (16383999 / 131072) 124 s1
      (by rw [r1]; exact d1) colorValue_samples.2.2.2 i124
  · unfold ProjectCloud2Image.distance
    rw [s1, r1]
    exact d1
  · exact toColor_eval stepSqrt _ 19321 139 240 240 s2
      (by rw [r2]; exact toFloat_values.2.2.2.2.2.2.2.2.2.2) colorValue_far.2 i240
  · exact toColor_eval stepSqrt _ 0 0 (-(3647221 / 2097152)) (-1) s3
      (by rw [r3]; exact toFloat_small.1) colorValue_samples.1 ineg

/-- The colour of the point `(10 ^ 10, 0, 0)`, for a square root that gives
`10 ^ 10` there: the value before the conversion is `17391304704`, beyond the
range of `int`. -/
theorem toColor_beyond_int :
    ProjectCloud2Image.distance (fun _ => 10000000000) ⟨10000000000, 0, 0, 0⟩ = 10000000000
    ∧ ProjectCloud2Image.colorValue 10000000000 = 17391304704
    ∧ ProjectCloud2Image.toColor (fun _ => 10000000000) ⟨10000000000, 0, 0, 0⟩ = -2 ^ 31 := by
  have d1 : toFloat 10000000000 = 10000000000 := by
    rw [toFloat_eq_of_near 33 9765625 (by norm_num) (by norm_num) (by norm_num)
      (by rw [abs_lt]; constructor <;> norm_num)]
    norm_num
  have c1 : ProjectCloud2Image.colorValue 10000000000 = 17391304704 := by
    apply colorValue_eval _ 10000000000 144927536
    · rw [toFloat_eq_of_near 33 9765625 (by norm_num) (by norm_num) (by norm_num)
        (by rw [abs_lt]; constructor <;> norm_num)]
      norm_num
    · rw [toFloat_eq_of_near 27 9057971 (by norm_num) (by norm_num) (by norm_num)
        (by rw [abs_lt]; constructor <;> norm_num)]
      norm_num
    · rw [toFloat_eq_of_near 34 8491848 (by norm_num) (by norm_num) (by norm_num)
        (by rw [abs_lt]; constructor <;> norm_num)]
      norm_num
  have i1 : floatToInt (17391304704 : ℚ) = -2 ^ 31 := by
    have hfloor : ⌊(17391304704 : ℚ)⌋ = 17391304704 := by
      rw [Int.floor_eq_iff]
      norm_num
    unfold floatToInt
    simp only [show (0 : ℚ) ≤ 17391304704 by norm_num, if_true, hfloor]
    rw [if_neg (by norm_num)]
  have hd : ProjectCloud2Image.distance (fun _ => 10000000000) ⟨10000000000, 0, 0, 0⟩
      = 10000000000 := by
    unfold ProjectCloud2Image.distance
    exact d1
  refine ⟨hd, c1, ?_⟩
  show floatToInt (ProjectCloud2Image.colorValue
    (ProjectCloud2Image.distance (fun _ => 10000000000) ⟨10000000000, 0, 0, 0⟩)) = -2 ^ 31
  rw [hd, c1, i1]

/-- C10, as stated, fails in `float` arithmetic.  At the distance
`d = 72.875`, a `float`, the colour is 124, while the truncation toward zero
of `(d - 1) / 69 * 120` is 125: the quotient `71.875 / 69` is rounded down to
a `float`, and so is its product with 120, to `16383999 / 131072`, just below
125.  At the distance `10 ^ 10`, above 70, the value before the conversion is
`17391304704`, beyond the range of `int`, and the colour is `-2 ^ 31`, below
120. -/
theorem toColor_exact_value_fails :
    ProjectCloud2Image.distance stepSqrt ⟨583 / 8, 0, 0, 0⟩ = 583 / 8
    ∧ ProjectCloud2Image.toColor stepSqrt ⟨583 / 8, 0, 0, 0⟩ = 124
    ∧ ⌊((583 / 8 : ℚ) - 1) / 69 * 120⌋ = 125
    ∧ ProjectCloud2Image.distance (fun _ => 10000000000) ⟨10000000000, 0, 0, 0⟩ = 10000000000
    ∧ ProjectCloud2Image.toColor (fun _ => 10000000000) ⟨10000000000, 0, 0, 0⟩ = -2 ^ 31 := by
  refine ⟨toColor_samples.2.1, toColor_samples.1, ?_, toColor_beyond_int.1,
    toColor_beyond_int.2.2⟩
  rw [Int.floor_eq_iff]
  norm_num

/-- C10, amended: `toColor` does not clamp.  For every point, with `d` the
`float` distance that `toColor` computes and `c` the `float` value of
`(d - 1) / 69 * 120` with each of the three operations rounded to `float`, the
colour is the truncation toward zero of `c` whenever `c` lies within the range
of `int`; so for every `d > 70` with `c` below `2 ^ 31` the colour is at least
120, and for some `d` it exceeds 120 (`d = 139` gives 240, as at the point
`(0, 139, 0)`), and for some `d < 1` it is negative (the origin point, `d = 0`,
gives -1). -/
theorem toColor_not_clamped (sqrt : ℚ → ℚ) (point : PointXYZI) :
    (∀ d, ProjectCloud2Image.colorValue d = toFloat (toFloat (toFloat (d - 1) / 69) * 120))
    ∧ (0 ≤ ProjectCloud2Image.colorValue (ProjectCloud2Image.distance sqrt point) →
        ProjectCloud2Image.colorValue (ProjectCloud2Image.distance sqrt point) < 2 ^ 31 →
        ProjectCloud2Image.toColor sqrt point
          = ⌊ProjectCloud2Image.colorValue (ProjectCloud2Image.distance sqrt point)⌋)
    ∧ (ProjectCloud2Image.colorValue (ProjectCloud2Image.distance sqrt point) < 0 →
        -2 ^ 31 ≤ ProjectCloud2Image.colorValue (ProjectCloud2Image.distance sqrt point) →
        ProjectCloud2Image.toColor sqrt point
          = ⌈ProjectCloud2Image.colorValue (ProjectCloud2Image.distance sqrt point)⌉)
    ∧ (70 < ProjectCloud2Image.distance sqrt point →
        ProjectCloud2Image.colorValue (ProjectCloud2Image.distance sqrt point) < 2 ^ 31 →
        120 ≤ ProjectCloud2Image.toColor sqrt point)
    ∧ (ProjectCloud2Image.distance sqrt point = 139 →
        ProjectCloud2Image.toColor sqrt point = 240)
    ∧ (ProjectCloud2Image.distance sqrt point = 0 →
        ProjectCloud2Image.toColor sqrt point = -1)
    ∧ ProjectCloud2Image.toColor stepSqrt ⟨0, 139, 0, 0⟩ = 240
    ∧ ProjectCloud2Image.toColor stepSqrt ⟨0, 0, 0, 0⟩ = -1 := by
  have hdef : ProjectCloud2Image.toColor sqrt point
      = floatToInt (ProjectCloud2Image.colorValue (ProjectCloud2Image.distance sqrt point)) := rfl
  refine ⟨colorValue_eq, ?_, ?_, ?_, ?_, ?_, toColor_samples.2.2.1, toColor_samples.2.2.2⟩
  · intro h0 h1
    rw [hdef, floatToInt_of_nonneg h0 h1]
  · intro h0 h1
    rw [hdef, floatToInt_of_neg h0 h1]
  · intro hd hc
    have h120 : floatToInt (120 : ℚ) = 120 := by
      simpa using floatToInt_intCast 120 (by norm_num) (by norm_num)
    rw [hdef, ← h120]
    apply floatToInt_mono (by norm_num) hc
    rw [← colorValue_far.1]
    exact colorValue_mono (le_of_lt hd)
  · intro hd
    rw [hdef, hd, colorValue_far.2]
    simpa using floatToInt_intCast 240 (by norm_num) (by norm_num)
  · intro hd
    rw [hdef, hd, colorValue_samples.1, floatToInt_of_neg (by norm_num) (by norm_num),
      Int.ceil_eq_iff]
    norm_num

/-! ### Pose -/

/-- The end of a call that returned no value, in a build where the caller does
not go on. -/
theorem callEnd_none_of_not_resumes (x : Extern) (hres : x.missing_return_resumes = false) :
    callEnd x none = .error .missing_return := by
  simp [callEnd, hres]

/-- The loop body when the synch gate is open and the cycle runs to its end. -/
theorem loopBody_of_cycle_ok (x : Extern) (w : World) (opts : Options) (st : LoopState)
    (player : PlayerState) (hgate : (opts.synchMode && st.waitSynch) = false)
    (hcycle : publishCycle x w opts st.entries_played st.player = .ok player) :
    loopBody x w opts st = .ok (st.afterCycle opts player) := by
  simp [loopBody, hgate, hcycle, LoopState.afterCycle]

/-- The loop body when the synch gate is open and the cycle is left from
inside. -/
theorem loopBody_of_cycle_error (x : Extern) (w : World) (opts : Options) (st : LoopState)
    (a : Abort) (hgate : (opts.synchMode && st.waitSynch) = false)
    (hcycle : publishCycle x w opts st.entries_played st.player = .error a) :
    loopBody x w opts st = .error (a, st.atAbort opts) := by
  simp [loopBody, hgate, hcycle, LoopState.atAbort]

/-- One more iteration of the loop, when the gate is open and the cycle runs
to its end. -/
theorem mainLoop_succ_of_cycle_ok (x : Extern) (w : World) (opts : Options) (fuel : Nat)
    (st : LoopState) (player : PlayerState)
    (hgate : (opts.synchMode && st.waitSynch) = false)
    (hcycle : publishCycle x w opts st.entries_played st.player = .ok player) :
    mainLoop x w opts (fuel + 1) st
      = if loopCondition w st.iteration (st.afterCycle opts player).entries_played then
          mainLoop x w opts fuel
            { st.afterCycle opts player with iteration := st.iteration + 1 }
        else .finished (st.afterCycle opts player) := by
  rw [mainLoop, loopBody_of_cycle_ok x w opts st player hgate hcycle]

/-- One more iteration of the loop, when the gate is open and the cycle is left
from inside. -/
theorem mainLoop_succ_of_cycle_error (x : Extern) (w : World) (opts : Options) (fuel : Nat)
    (st : LoopState) (a : Abort)
    (hgate : (opts.synchMode && st.waitSynch) = false)
    (hcycle : publishCycle x w opts st.entries_played st.player = .error a) :
    mainLoop x w opts (fuel + 1) st = .aborted a (st.atAbort opts) := by
  rw [mainLoop, loopBody_of_cycle_error x w opts st a hgate hcycle]

/-- The loop condition in plain arithmetic, for a number of entries that is
positive and fits an `unsigned int`. -/
theorem loopCondition_eq (w : World) (iteration e : Nat) (hpos : 1 ≤ w.total_entries)
    (h32 : w.total_entries < 2 ^ 32) :
    loopCondition w iteration e = (decide (e + 1 ≤ w.total_entries) && w.ok iteration) := by
  have h232 : (2 : Nat) ^ 32 = 4294967296 := by norm_num
  have hsub : (w.total_entries % 2 ^ 32 + 2 ^ 32 - 1) % 2 ^ 32 = w.total_entries - 1 := by
    rw [h232] at h32 ⊢
    omega
  have hdec : decide (e ≤ w.total_entries - 1) = decide (e + 1 ≤ w.total_entries) := by
    simp only [decide_eq_decide]
    omega
  simp only [loopCondition, hsub, hdec]

/-- Once the loop has ended through its condition, more iterations allowed
change nothing. -/
theorem mainLoop_finished_stable (x : Extern) (w : World) (opts : Options) :
    ∀ (n : Nat) (st st' : LoopState), mainLoop x w opts n st = .finished st' →
      ∀ k : Nat, mainLoop x w opts (n + k) st = .finished st' := by
  intro n
  induction n with
  | zero => intro st st' h; simp [mainLoop] at h
  | succ n ih =>
    intro st st' h k
    rw [show n + 1 + k = (n + k) + 1 by omega]
    rw [mainLoop] at h ⊢
    cases hb : loopBody x w opts st with
    | error e =>
      obtain ⟨a, s⟩ := e
      rw [hb] at h
      simp at h
    | ok s =>
      rw [hb] at h
      simp only at h ⊢
      by_cases hc : loopCondition w st.iteration s.entries_played = true
      · rw [if_pos hc] at h ⊢
        exact ih _ _ h k
      · rw [if_neg hc] at h ⊢
        exact h

/-- With synch mode off, the node staying ok and no cycle left from inside,
the loop entered with `n ≥ 1` frames remaining ends through its condition
after exactly `n` iterations, having played these `n` frames in order. -/
theorem mainLoop_run (x : Extern) (w : World) (opts : Options)
    (hsync : opts.synchMode = false) (hok : ∀ k, w.ok k = true)
    (h32 : w.total_entries < 2 ^ 32) :
    ∀ (n : Nat) (st : LoopState), 1 ≤ n → st.entries_played + n = w.total_entries →
      (mainLoop x w opts n st).isAborted = false →
      ∃ st', mainLoop x w opts n st = .finished st'
        ∧ st'.played = st.played ++ List.range' st.entries_played n
        ∧ st'.entries_played = w.total_entries
        ∧ ∀ fuel, fuel < n → (mainLoop x w opts fuel st).isFinished = false := by
  have h232 : (2 : Nat) ^ 32 = 4294967296 := by norm_num
  intro n
  induction n with
  | zero => intro st h1; omega
  | succ m ih =>
    intro st _ hsum hna
    have hgate : (opts.synchMode && st.waitSynch) = false := by simp [hsync]
    have hpos : 1 ≤ w.total_entries := by omega
    cases hcycle : publishCycle x w opts st.entries_played st.player with
    | error a =>
      rw [mainLoop_succ_of_cycle_error x w opts m st a hgate hcycle] at hna
      simp [Outcome.isAborted] at hna
    | ok player =>
      have hstep := mainLoop_succ_of_cycle_ok x w opts m st player hgate hcycle
      have hnext : (st.afterCycle opts player).entries_played = st.entries_played + 1 := by
        simp only [LoopState.afterCycle]
        rw [h232] at h32 ⊢
        omega
      rw [hnext, loopCondition_eq w _ _ hpos h32, hok] at hstep
      by_cases hm : m = 0
      · subst hm
        have hcond : ¬ (st.entries_played + 1 + 1 ≤ w.total_entries) := by omega
        simp only [hcond, decide_False, Bool.false_and, Bool.false_eq_true, if_false] at hstep
        refine ⟨st.afterCycle opts player, hstep, ?_, ?_, ?_⟩
        · simp [LoopState.afterCycle, List.range']
        · rw [hnext]; omega
        · intro fuel hf
          have : fuel = 0 := by omega
          subst this
          simp [mainLoop, Outcome.isFinished]
      · have hcond : st.entries_played + 1 + 1 ≤ w.total_entries := by omega
        simp only [hcond, decide_True, Bool.and_self, if_true] at hstep
        rw [hstep] at hna
        obtain ⟨st', hfin, hplayed, hentries, hshort⟩ :=
          ih { st.afterCycle opts player with iteration := st.iteration + 1 } (by omega)
            (by simp only [hnext]; omega) hna
        refine ⟨st', by rw [hstep]; exact hfin, ?_, hentries, ?_⟩
        · have hplayed' : st'.played = (st.afterCycle opts player).played
              ++ List.range' (st.afterCycle opts player).entries_played m := hplayed
          rw [hplayed', hnext]
          simp [LoopState.afterCycle, List.range'_succ]
        · intro fuel hf
          cases fuel with
          | zero => simp [mainLoop, Outcome.isFinished]
          | succ f =>
            have hstep' := mainLoop_succ_of_cycle_ok x w opts f st player hgate hcycle
            rw [hnext, loopCondition_eq w _ _ hpos h32, hok] at hstep'
            simp only [hcond, decide_True, Bool.and_self, if_true] at hstep'
            rw [hstep']
            exact hshort f (by omega)

/-- When no cycle is left from inside (which needs each call of `publishPoseTF`
to come back to `main`), with a start frame below the number of entries, synch
mode off and the node staying ok, the frame loop ends through its condition
after exactly `total_entries - startFrame` iterations, and the frames played
are `startFrame, startFrame + 1, ..., total_entries - 1`, in that order, each
once. -/
theorem main_frames_of_no_abort (x : Extern) (w : World) (opts : Options)
    (hsync : opts.synchMode = false) (hok : ∀ k, w.ok k = true)
    (h32 : w.total_entries < 2 ^ 32) (hstart : opts.startFrame < w.total_entries)
    (hnoerr : (main x w opts (w.total_entries - opts.startFrame)).isAborted = false) :
    ∃ st, (∀ fuel, w.total_entries - opts.startFrame ≤ fuel → main x w opts fuel = .finished st)
      ∧ (∀ fuel, fuel < w.total_entries - opts.startFrame →
          (main x w opts fuel).isFinished = false)
      ∧ st.played = List.range' opts.startFrame (w.total_entries - opts.startFrame)
      ∧ st.played.length = w.total_entries - opts.startFrame
      ∧ st.entries_played = w.total_entries := by
  by_cases hpub : (!(opts.all_data || opts.color || opts.gps || opts.grayscale || opts.imu
      || opts.velodyne)) = true
  · simp [main, hpub, Outcome.isAborted] at hnoerr
  · have hcheck : (!startFrameCheck w opts) = false := by
      simp only [startFrameCheck, Bool.not_not, decide_eq_false_iff_not]
      omega
    have hmain : ∀ fuel, main x w opts fuel
        = mainLoop x w opts fuel (LoopState.initial w opts) := by
      intro fuel
      simp only [main, hpub, hcheck, if_false, Bool.false_eq_true]
    rw [hmain] at hnoerr
    obtain ⟨st, hfin, hplayed, hentries, hshort⟩ :=
      mainLoop_run x w opts hsync hok h32 (w.total_entries - opts.startFrame)
        (LoopState.initial w opts) (by omega)
        (by simp only [LoopState.initial]; omega) hnoerr
    refine ⟨st, ?_, ?_, ?_, ?_, hentries⟩
    · intro fuel hfuel
      rw [hmain]
      obtain ⟨k, rfl⟩ : ∃ k, fuel = (w.total_entries - opts.startFrame) + k :=
        ⟨fuel - (w.total_entries - opts.startFrame), by omega⟩
      exact mainLoop_finished_stable x w opts _ _ _ hfin k
    · intro fuel hfuel
      rw [hmain]
      exact hshort fuel hfuel
    · simpa [LoopState.initial] using hplayed
    · rw [hplayed]
      simp [LoopState.initial]

/-- One iteration of the loop only appends to the list of frames played. -/
theorem loopBody_played (x : Extern) (w : World) (opts : Options) (st : LoopState) :
    (∀ st', loopBody x w opts st = .ok st' → ∃ l, st'.played = st.played ++ l)
    ∧ (∀ a st', loopBody x w opts st = .error (a, st') → ∃ l, st'.played = st.played ++ l) := by
  by_cases hgate : (opts.synchMode && st.waitSynch) = true
  · constructor
    · intro st' h
      simp only [loopBody, hgate, if_true] at h
      injection h with h
      exact ⟨[], by rw [← h]; simp⟩
    · intro a st' h
      simp [loopBody, hgate] at h
  · have hgate' : (opts.synchMode && st.waitSynch) = false := by simpa using hgate
    cases hcycle : publishCycle x w opts st.entries_played st.player with
    | error a0 =>
      rw [loopBody_of_cycle_error x w opts st a0 hgate' hcycle]
      constructor
      · intro st' h; simp at h
      · intro a st' h
        injection h with h
        injection h with _ h2
        exact ⟨[st.entries_played], by rw [← h2]; rfl⟩
    | ok player =>
      rw [loopBody_of_cycle_ok x w opts st player hgate' hcycle]
      constructor
      · intro st' h
        injection h with h
        exact ⟨[st.entries_played], by rw [← h]; rfl⟩
      · intro a st' h; simp at h

/-- A run of the loop only appends to the list of frames played. -/
theorem mainLoop_played (x : Extern) (w : World) (opts : Options) :
    ∀ (fuel : Nat) (st : LoopState),
      ∃ l, (mainLoop x w opts fuel st).state.played = st.played ++ l := by
  intro fuel
  induction fuel with
  | zero => intro st; exact ⟨[], by simp [mainLoop, Outcome.state]⟩
  | succ fuel ih =>
    intro st
    rw [mainLoop]
    cases hb : loopBody x w opts st with
    | error e =>
      obtain ⟨a, s⟩ := e
      exact (loopBody_played x w opts st).2 a s hb
    | ok s =>
      obtain ⟨l1, hl1⟩ := (loopBody_played x w opts st).1 s hb
      simp only
      by_cases hc : loopCondition w st.iteration s.entries_played = true
      · rw [if_pos hc]
        obtain ⟨l2, hl2⟩ := ih { s with iteration := st.iteration + 1 }
        exact ⟨l1 ++ l2, by rw [hl2]; simp [hl1]⟩
      · rw [if_neg hc]
        exact ⟨l1, hl1⟩

/-- C2 fails on the code: a start frame equal to the number of entries passes
the start-frame check of `main`, and the first publishing cycle of the loop is
then started for the frame index `total_entries`, which is above
`total_entries - 1`. -/
theorem main_cycle_at_total_entries (x : Extern) (w : World) (opts : Options) (fuel : Nat)
    (hpub : (opts.all_data || opts.color || opts.gps || opts.grayscale || opts.imu
      || opts.velodyne) = true)
    (hpos : 1 ≤ w.total_entries) (hstart : opts.startFrame = w.total_entries) :
    startFrameCheck w opts = true
    ∧ (∃ rest, (main x w opts (fuel + 1)).state.played = w.total_entries :: rest)
    ∧ ¬ (w.total_entries ≤ w.total_entries - 1) := by
  have hcheck : startFrameCheck w opts = true := by
    simp [startFrameCheck, hstart]
  refine ⟨hcheck, ?_, by omega⟩
  have hmain : main x w opts (fuel + 1)
      = mainLoop x w opts (fuel + 1) (LoopState.initial w opts) := by
    simp [main, hpub, hcheck]
  have hgate : (opts.synchMode && (LoopState.initial w opts).waitSynch) = false := by
    simp [LoopState.initial]
  rw [hmain]
  cases hcycle : publishCycle x w opts (LoopState.initial w opts).entries_played
      (LoopState.initial w opts).player with
  | error a =>
    rw [mainLoop_succ_of_cycle_error x w opts fuel _ a hgate hcycle]
    exact ⟨[], by simp [Outcome.state, LoopState.atAbort, LoopState.initial, hstart]⟩
  | ok player =>
    rw [mainLoop_succ_of_cycle_ok x w opts fuel _ player hgate hcycle]
    by_cases hc : loopCondition w (LoopState.initial w opts).iteration
        ((LoopState.initial w opts).afterCycle opts player).entries_played = true
    · rw [if_pos hc]
      obtain ⟨l, hl⟩ := mainLoop_played x w opts fuel
        { (LoopState.initial w opts).afterCycle opts player with
          iteration := (LoopState.initial w opts).iteration + 1 }
      exact ⟨l, by rw [hl]; simp [LoopState.afterCycle, LoopState.initial, hstart]⟩
    · rw [if_neg hc]
      exact ⟨[], by simp [Outcome.state, LoopState.afterCycle, LoopState.initial, hstart]⟩

/-- C2 at a concrete input: on the sample sequence of three frames the start
frame 3 passes the check, and a cycle is started for frame index 3. -/
theorem main_cycle_at_total_entries_witness :
    startFrameCheck sampleWorld (sampleOptions 3) = true
    ∧ (∃ rest, (main sampleExtern sampleWorld (sampleOptions 3) 1).state.played = 3 :: rest)
    ∧ ¬ (3 ≤ 3 - 1) :=
  main_cycle_at_total_entries sampleExtern sampleWorld (sampleOptions 3) 0 rfl (by decide) rfl

/-! ### The call of `publishPoseTF` in a cycle -/

/-- In a build where a call that reaches the end of `publishPoseTF` does not
come back, the pose part of a cycle is left from inside. -/
theorem poseSection_missing_return (x : Extern) (ps : PlayerState)
    (hres : x.missing_return_resumes = false) :
    poseSection x ps = .error .missing_return := by
  have hend : callEnd x (publishPoseTF x.m ps.origin ps.ros_msgGpsFix ps.ros_msgImu).returned
      = .error .missing_return := callEnd_none_of_not_resumes x hres
  simp only [poseSection, hend, bind, Except.bind]

/-- In such a build, a cycle that gets as far as its call of `publishPoseTF` is
left there. -/
theorem publishCycle_of_before_ok (x : Extern) (w : World) (opts : Options) (e : Nat)
    (ps ps' : PlayerState) (points_pub : Option (List PointXYZI))
    (hres : x.missing_return_resumes = false)
    (hbefore : cycleBeforePose x w opts e ps = .ok (ps', points_pub)) :
    publishCycle x w opts e ps = .error .missing_return := by
  simp only [publishCycle, hbefore, bind, Except.bind, poseSection_missing_return x ps' hres]

/-- In such a build no publishing cycle runs to its end. -/
theorem publishCycle_missing_return (x : Extern) (w : World) (opts : Options) (e : Nat)
    (ps : PlayerState) (hres : x.missing_return_resumes = false) :
    ∃ a, publishCycle x w opts e ps = .error a := by
  cases hbefore : cycleBeforePose x w opts e ps with
  | error a => exact ⟨a, by simp only [publishCycle, hbefore, bind, Except.bind]⟩
  | ok r =>
    obtain ⟨ps', points_pub⟩ := r
    exact ⟨_, publishCycle_of_before_ok x w opts e ps ps' points_pub hres hbefore⟩

/-- C3 is not met by the code.  Every publishing cycle calls `publishPoseTF`,
a function declared `bool` whose body has no `return` statement; reaching its
end is undefined behaviour.  In a build where control does not come back from
there, no publishing cycle runs to its end, whatever the sequence and the
options: the frame loop is left inside its first cycle, it never ends through
its condition, the frame counter is never advanced and no frame beyond the
first is played. -/
theorem main_first_cycle_missing_return (x : Extern) (w : World) (opts : Options) (fuel : Nat)
    (hres : x.missing_return_resumes = false) :
    (∀ e ps, ∃ a, publishCycle x w opts e ps = .error a)
    ∧ (main x w opts fuel).isFinished = false
    ∧ (main x w opts fuel).state.entries_played = opts.startFrame
    ∧ (main x w opts fuel).state.played.length ≤ 1 := by
  refine ⟨fun e ps => publishCycle_missing_return x w opts e ps hres, ?_⟩
  have hloop : (mainLoop x w opts fuel (LoopState.initial w opts)).isFinished = false
      ∧ (mainLoop x w opts fuel (LoopState.initial w opts)).state.entries_played = opts.startFrame
      ∧ (mainLoop x w opts fuel (LoopState.initial w opts)).state.played.length ≤ 1 := by
    cases fuel with
    | zero => simp [mainLoop, Outcome.isFinished, Outcome.state, LoopState.initial]
    | succ f =>
      obtain ⟨a, ha⟩ := publishCycle_missing_return x w opts
        (LoopState.initial w opts).entries_played (LoopState.initial w opts).player hres
      have hgate : (opts.synchMode && (LoopState.initial w opts).waitSynch) = false := by
        simp [LoopState.initial]
      rw [mainLoop_succ_of_cycle_error x w opts f _ a hgate ha]
      simp [Outcome.isFinished, Outcome.state, LoopState.atAbort, LoopState.initial]
  unfold main
  split
  · simp [Outcome.isFinished, Outcome.state, LoopState.initial]
  · split
    · simp [Outcome.isFinished, Outcome.state, LoopState.initial]
    · exact hloop

set_option maxRecDepth 100000 in
/-- C3 at its own example, the sequence of three frames played from frame 0,
in a build where the end of `publishPoseTF` does not come back: the loop is
left in the cycle of frame 0, at the end of `publishPoseTF`; it does not run
three cycles. -/
theorem main_first_cycle_missing_return_witness :
    (main sampleOptimisedExtern sampleWorld (sampleOptions 0) 3).isFinished = false
    ∧ (main sampleOptimisedExtern sampleWorld (sampleOptions 0) 3).state.entries_played = 0
    ∧ (main sampleOptimisedExtern sampleWorld (sampleOptions 0) 3).state.played = [0]
    ∧ (main sampleOptimisedExtern sampleWorld (sampleOptions 0) 3).abort
        = some .missing_return := by
  obtain ⟨_, h1, h2, _⟩ :=
    main_first_cycle_missing_return sampleOptimisedExtern sampleWorld (sampleOptions 0) 3 rfl
  exact ⟨h1, h2, by decide, by decide⟩

/-! ### The first GPS fix -/

/-- The projection part of a cycle leaves the GPS state alone. -/
theorem showProjection_gpsView (x : Extern) (w : World) (points_pub : Option (List PointXYZI))
    (ps ps' : PlayerState) (h : showProjection x w points_pub ps = .ok ps') :
    ps'.gpsView = ps.gpsView := by
  unfold showProjection at h
  split at h
  · split at h
    · simp at h
    · simp only [pure, Except.pure, Except.ok.injEq] at h
      rw [← h]
      rfl
  · simp at h

/-! ### The synch callback -/

/-- C13: whatever the value of the waiting flag, `synchCallback` with a true
message sets the flag to `false`, and with a false message leaves the flag as
it was. -/
theorem synchCallback_effect (waitSynch : Bool) :
    synchCallback true waitSynch = false ∧ synchCallback false waitSynch = waitSynch :=
  ⟨rfl, rfl⟩

/-! ### The pose request with no origin stored -/

/-- C16, as stated, fails: called with no origin stored, `publishPoseTF` stores
the origin of the fix it is given and hands the broadcaster a pose, with
translation `(0, 0, 0)`; it does not return an error value. -/
theorem publishPoseTF_unset_origin_produces_pose :
    (publishPoseTF sampleLibm none sampleFixA Imu.default).origin
        = some ⟨(latlon2xy_helper sampleLibm 49 8).x, (latlon2xy_helper sampleLibm 49 8).y, 110⟩
    ∧ (publishPoseTF sampleLibm none sampleFixA Imu.default).pose_transform.translation
        = ⟨0, 0, 0⟩
    ∧ (publishPoseTF sampleLibm none sampleFixA Imu.default).returned ≠ some false := by
  refine ⟨rfl, ?_, by decide⟩
  simp [publishPoseTF, sampleFixA]

/-- C16, amended: a pose request made while no origin is stored meets no
uninitialised-origin error; the body of `publishPoseTF` sets the origin from
the fix it is given (planar coordinates and altitude) and hands the
broadcaster the pose with translation `(0, 0, 0)` and the rotation of the IMU
message, and no statement of it returns an error value. -/
theorem publishPoseTF_unset_origin (m : Libm) (fix : NavSatFix) (imu : Imu) :
    (publishPoseTF m none fix imu).origin
        = some ⟨(latlon2xy_helper m fix.latitude fix.longitude).x,
                (latlon2xy_helper m fix.latitude fix.longitude).y, fix.altitude⟩
    ∧ (publishPoseTF m none fix imu).pose_transform.translation = ⟨0, 0, 0⟩
    ∧ (publishPoseTF m none fix imu).pose_transform.rotation = imu.orientation
    ∧ (publishPoseTF m none fix imu).returned ≠ some false := by
  refine ⟨rfl, ?_, rfl, by simp [publishPoseTF]⟩
  simp [publishPoseTF]

/-! ### The planar projection -/

/-- The zone of a longitude, from the integer that the floor delivers. -/
theorem utmz_eq (lngd : ℚ) (n : Int) (hn : |1 + n| < 2 ^ 53)
    (hfloor : ⌊toDouble (toDouble (lngd + 180) / 6)⌋ = n) :
    latlon2xy_helper.utmz lngd = 1 + (n : ℚ) := by
  have h180 : (180.0 : ℚ) = 180 := by norm_num
  have h6 : (6.0 : ℚ) = 6 := by norm_num
  have h1 : (1.0 : ℚ) = 1 := by norm_num
  simp only [latlon2xy_helper.utmz, h180, h6, h1, hfloor]
  have := toDouble_intCast (1 + n) hn
  push_cast at this
  exact this

/-- The central meridian of the zone `1 + n`, all operations being exact on
integers of this size. -/
theorem zcm_intCast (n : Int) (hn : |n| < 2 ^ 40) :
    latlon2xy_helper.zcm (1 + (n : ℚ)) = 6 * (n : ℚ) - 177 := by
  have h180 : (180.0 : ℚ) = 180 := by norm_num
  have h6 : (6.0 : ℚ) = 6 := by norm_num
  have h3 : (3.0 : ℚ) = 3 := by norm_num
  have h1 : (1.0 : ℚ) = 1 := by norm_num
  have habs := abs_lt.mp hn
  have e1 : toDouble (1 + (n : ℚ) - 1) = n := by
    rw [show (1 : ℚ) + (n : ℚ) - 1 = ((n : Int) : ℚ) by ring]
    exact toDouble_intCast n (by rw [abs_lt]; constructor <;> omega)
  have e2 : toDouble (6 * (n : ℚ)) = ((6 * n : Int) : ℚ) := by
    rw [show (6 : ℚ) * (n : ℚ) = ((6 * n : Int) : ℚ) by push_cast; ring]
    exact toDouble_intCast (6 * n) (by rw [abs_lt]; constructor <;> omega)
  have e3 : toDouble (3 + ((6 * n : Int) : ℚ)) = ((3 + 6 * n : Int) : ℚ) := by
    rw [show (3 : ℚ) + ((6 * n : Int) : ℚ) = ((3 + 6 * n : Int) : ℚ) by push_cast; ring]
    exact toDouble_intCast (3 + 6 * n) (by rw [abs_lt]; constructor <;> omega)
  have e4 : toDouble (((3 + 6 * n : Int) : ℚ) - 180) = ((3 + 6 * n - 180 : Int) : ℚ) := by
    rw [show ((3 + 6 * n : Int) : ℚ) - 180 = ((3 + 6 * n - 180 : Int) : ℚ) by push_cast; ring]
    exact toDouble_intCast (3 + 6 * n - 180) (by rw [abs_lt]; constructor <;> omega)
  simp only [latlon2xy_helper.zcm, h180, h6, h3, h1, e1, e2, e3, e4]
  push_cast
  ring

/-- The zone of longitude 9 is zone 32. -/
theorem utmz_nine : latlon2xy_helper.utmz 9 = 32 := by
  have h189 : toDouble ((9 : ℚ) + 180) = 189 := by
    rw [show (9 : ℚ) + 180 = ((189 : Int) : ℚ) by norm_num]
    simpa using toDouble_intCast 189 (by norm_num)
  have hq : toDouble ((189 : ℚ) / 6) = 63 / 2 := by
    have h := roundToFormat_eq_of_near 53 (-1022) (q := 189 / 6) 4 8866461766385664
      (by norm_num) (by norm_num) (by norm_num)
      (by rw [abs_lt]; constructor <;> norm_num)
    unfold toDouble
    rw [h]
    norm_num
  have hfloor : ⌊toDouble (toDouble ((9 : ℚ) + 180) / 6)⌋ = 31 := by
    rw [h189, hq, Int.floor_eq_iff]
    norm_num
  have := utmz_eq 9 31 (by norm_num) hfloor
  rw [this]
  norm_num

/-- The central meridian of zone 32 is 9 degrees east. -/
theorem zcm_thirtytwo : latlon2xy_helper.zcm 32 = 9 := by
  have := zcm_intCast 31 (by norm_num)
  norm_num at this
  exact this

/-- C19, as stated, fails in `double` arithmetic: the longitude
`6 - 2 ^ (-50)`, the `double` just below 6, gives the sum `lngd + 180.0` the
rounded value `186`, hence the zone 32 with the central meridian 9, and the
offset `lngd - zcm = -3 - 2 ^ (-50)`, which is below `-3`. -/
theorem latlon2xy_helper_zone_offset_rounded :
    toDouble (6 - 1 / 2 ^ 50) = 6 - 1 / 2 ^ 50
    ∧ toDouble ((6 - 1 / 2 ^ 50) + 180.0) = 186
    ∧ latlon2xy_helper.utmz (6 - 1 / 2 ^ 50) = 32
    ∧ latlon2xy_helper.zcm (latlon2xy_helper.utmz (6 - 1 / 2 ^ 50)) = 9
    ∧ (6 - 1 / 2 ^ 50 : ℚ) - latlon2xy_helper.zcm (latlon2xy_helper.utmz (6 - 1 / 2 ^ 50))
        < -3 := by
  have h0 : toDouble (6 - 1 / 2 ^ 50) = 6 - 1 / 2 ^ 50 := by
    have h := roundToFormat_eq_of_near 53 (-1022) (q := 6 - 1 / 2 ^ 50) 2 6755399441055743
      (by norm_num) (by norm_num) (by norm_num)
      (by rw [abs_lt]; constructor <;> norm_num)
    unfold toDouble
    rw [h]
    norm_num
  have h1 : toDouble ((6 - 1 / 2 ^ 50 : ℚ) + 180) = 186 := by
    have h := roundToFormat_eq_of_near 53 (-1022) (q := (6 - 1 / 2 ^ 50) + 180) 7
      6544293208522752 (by norm_num) (by norm_num) (by norm_num)
      (by rw [abs_lt]; constructor <;> norm_num)
    unfold toDouble
    rw [h]
    norm_num
  have h31 : toDouble ((186 : ℚ) / 6) = 31 := by
    rw [show (186 : ℚ) / 6 = ((31 : Int) : ℚ) by norm_num]
    simpa using toDouble_intCast 31 (by norm_num)
  have hfloor : ⌊toDouble (toDouble ((6 - 1 / 2 ^ 50 : ℚ) + 180) / 6)⌋ = 31 := by
    rw [h1, h31]
    exact Int.floor_intCast 31
  have hu : latlon2xy_helper.utmz (6 - 1 / 2 ^ 50) = 32 := by
    rw [utmz_eq _ 31 (by norm_num) hfloor]
    norm_num
  refine ⟨h0, ?_, hu, ?_, ?_⟩
  · rw [show (180.0 : ℚ) = 180 by norm_num]
    exact h1
  · rw [hu]
    exact zcm_thirtytwo
  · rw [hu, zcm_thirtytwo]
    norm_num

/-- C19, amended: for every longitude `lngd` in `[-180, 180]`, the zone number
`utmz = 1 + floor ((lngd + 180) / 6)` and the central meridian
`zcm = 3 + 6 * (utmz - 1) - 180` that `latlon2xy_helper` computes in `double`
arithmetic satisfy `-3 - 2 ^ (-44) ≤ lngd - zcm < 3`: the offset stays below 3,
and it can fall below `-3` by no more than the rounding error of the sum and
the quotient.  The zone is one plus the floor of the rounded quotient of the
rounded sum, and the central meridian of that zone is computed without
rounding error. -/
theorem latlon2xy_helper_zone_offset (lngd : ℚ) (hlo : -180 ≤ lngd) (hhi : lngd ≤ 180) :
    (-3 - 1 / 2 ^ 44 ≤ lngd - latlon2xy_helper.zcm (latlon2xy_helper.utmz lngd)
      ∧ lngd - latlon2xy_helper.zcm (latlon2xy_helper.utmz lngd) < 3)
    ∧ latlon2xy_helper.utmz lngd
        = 1 + ((⌊toDouble (toDouble (lngd + 180) / 6)⌋ : Int) : ℚ)
    ∧ latlon2xy_helper.zcm (latlon2xy_helper.utmz lngd)
        = 3 + 6 * (latlon2xy_helper.utmz lngd - 1) - 180 := by
  have d0 : toDouble 0 = 0 := by simpa using toDouble_intCast 0 (by norm_num)
  have d360 : toDouble 360 = 360 := by simpa using toDouble_intCast 360 (by norm_num)
  have d60 : toDouble 60 = 60 := by simpa using toDouble_intCast 60 (by norm_num)
  -- the rounded sum
  have hs0 : 0 ≤ toDouble (lngd + 180) := by
    rw [← d0]; exact toDouble_mono (by linarith)
  have hs360 : toDouble (lngd + 180) ≤ 360 := by
    rw [← d360]; exact toDouble_mono (by linarith)
  have hserr : |toDouble (lngd + 180) - (lngd + 180)| ≤ 1 / 2 ^ 45 := by
    have h := roundToFormat_error 53 (-1022) 9 (by norm_num) (q := lngd + 180)
      (by rw [abs_lt]; constructor <;> norm_num <;> linarith)
    have e : (2 : ℚ) ^ ((9 : Int) - ((53 : Nat) : Int) - 1) = 1 / 2 ^ 45 := by norm_num
    rw [e] at h
    exact h
  -- the rounded quotient
  have hq0 : 0 ≤ toDouble (toDouble (lngd + 180) / 6) := by
    rw [← d0]; exact toDouble_mono (by linarith)
  have hq60 : toDouble (toDouble (lngd + 180) / 6) ≤ 60 := by
    rw [← d60]; exact toDouble_mono (by linarith)
  have hqerr : |toDouble (toDouble (lngd + 180) / 6) - toDouble (lngd + 180) / 6|
      ≤ 1 / 2 ^ 48 := by
    have h := roundToFormat_error 53 (-1022) 6 (by norm_num) (q := toDouble (lngd + 180) / 6)
      (by rw [abs_lt]; constructor <;> norm_num <;> linarith)
    have e : (2 : ℚ) ^ ((6 : Int) - ((53 : Nat) : Int) - 1) = 1 / 2 ^ 48 := by norm_num
    rw [e] at h
    exact h
  -- the floor
  obtain ⟨n, hn⟩ : ∃ n : Int, ⌊toDouble (toDouble (lngd + 180) / 6)⌋ = n := ⟨_, rfl⟩
  have hnle : (n : ℚ) ≤ toDouble (toDouble (lngd + 180) / 6) := by
    rw [← hn]; exact Int.floor_le _
  have hn0 : 0 ≤ n := by
    rw [← hn]; exact Int.floor_nonneg.mpr hq0
  have hn60 : n ≤ 60 := by
    have : (n : ℚ) ≤ 60 := le_trans hnle hq60
    exact_mod_cast this
  have hu : latlon2xy_helper.utmz lngd = 1 + (n : ℚ) :=
    utmz_eq lngd n (by rw [abs_lt]; constructor <;> omega) hn
  have hz : latlon2xy_helper.zcm (latlon2xy_helper.utmz lngd) = 6 * (n : ℚ) - 177 := by
    rw [hu]
    exact zcm_intCast n (by rw [abs_lt]; constructor <;> omega)
  refine ⟨⟨?_, ?_⟩, ?_, ?_⟩
  · rw [hz]
    have h1 := (abs_le.mp hserr).2
    have h2 := (abs_le.mp hqerr).2
    have e45 : (1 : ℚ) / 2 ^ 45 = 2 * (1 / 2 ^ 46) := by norm_num
    have e48 : (1 : ℚ) / 2 ^ 48 = 1 / 4 * (1 / 2 ^ 46) := by norm_num
    have e44 : (1 : ℚ) / 2 ^ 44 = 4 * (1 / 2 ^ 46) := by norm_num
    have hpos : (0 : ℚ) < 1 / 2 ^ 46 := by norm_num
    rw [e45] at h1
    rw [e48] at h2
    rw [e44]
    linarith
  · rw [hz]
    by_contra hcon
    have hge : 6 * (n : ℚ) + 6 ≤ lngd + 180 := by linarith [not_lt.mp hcon]
    have hs : ((6 * n + 6 : Int) : ℚ) ≤ toDouble (lngd + 180) := by
      rw [← toDouble_intCast (6 * n + 6) (by rw [abs_lt]; constructor <;> omega)]
      apply toDouble_mono
      push_cast
      exact hge
    have hq : ((n + 1 : Int) : ℚ) ≤ toDouble (toDouble (lngd + 180) / 6) := by
      rw [← toDouble_intCast (n + 1) (by rw [abs_lt]; constructor <;> omega)]
      apply toDouble_mono
      push_cast at hs ⊢
      linarith
    have := Int.le_floor.mpr hq
    rw [hn] at this
    omega
  · rw [hn]
    exact hu
  · rw [hz, hu]
    ring

/-- C19, amended, at the longitude 9: the zone is 32, the central meridian 9
and the offset 0. -/
theorem latlon2xy_helper_zone_offset_witness :
    (-3 - 1 / 2 ^ 44 ≤ (9 : ℚ) - latlon2xy_helper.zcm (latlon2xy_helper.utmz 9)
      ∧ (9 : ℚ) - latlon2xy_helper.zcm (latlon2xy_helper.utmz 9) < 3)
    ∧ latlon2xy_helper.utmz 9 = 32 :=
  ⟨(latlon2xy_helper_zone_offset 9 (by norm_num) (by norm_num)).1, utmz_nine⟩

/-- With the sample mathematical library, the raw northing at latitude -30 and
longitude 9 is negative and not below -10000000. -/
theorem series_sample_south :
    (latlon2xy_helper.series sampleLibm (-30) 9).y < 0
    ∧ -10000000 ≤ (latlon2xy_helper.series sampleLibm (-30) 9).y := by
  simp only [latlon2xy_helper.series, utmz_nine, zcm_thirtytwo, sampleLibm, tableSqrt]
  norm_num

/-- C18: the northing returned by `latlon2xy_helper` is the raw series northing
`y` when `y ≥ 0` and `y + 10000000` when `y < 0`; when the raw northing lies in
`[-10000000, 0)` the returned northing is not negative; the easting is that of
the series, unchanged.  A southern input (latitude -30, longitude 9, sample
mathematical library) has such a raw northing and a returned northing that is
not negative. -/
theorem latlon2xy_helper_false_northing (m : Libm) (lat lngd : ℚ) :
    (0 ≤ (latlon2xy_helper.series m lat lngd).y →
        (latlon2xy_helper m lat lngd).y = (latlon2xy_helper.series m lat lngd).y)
    ∧ ((latlon2xy_helper.series m lat lngd).y < 0 →
        (latlon2xy_helper m lat lngd).y = (latlon2xy_helper.series m lat lngd).y + 10000000)
    ∧ (-10000000 ≤ (latlon2xy_helper.series m lat lngd).y →
        (latlon2xy_helper.series m lat lngd).y < 0 → 0 ≤ (latlon2xy_helper m lat lngd).y)
    ∧ (latlon2xy_helper m lat lngd).x = (latlon2xy_helper.series m lat lngd).x
    ∧ ((latlon2xy_helper.series sampleLibm (-30) 9).y < 0
        ∧ -10000000 ≤ (latlon2xy_helper.series sampleLibm (-30) 9).y
        ∧ 0 ≤ (latlon2xy_helper sampleLibm (-30) 9).y) := by
  have hneg : ∀ (m : Libm) (lat lngd : ℚ), (latlon2xy_helper.series m lat lngd).y < 0 →
      (latlon2xy_helper m lat lngd).y = (latlon2xy_helper.series m lat lngd).y + 10000000 := by
    intro m lat lngd h
    simp only [latlon2xy_helper, if_pos h]
    norm_num
    ring
  have hsample := series_sample_south
  refine ⟨?_, hneg m lat lngd, ?_, rfl, hsample.1, hsample.2, ?_⟩
  · intro h
    simp only [latlon2xy_helper, if_neg (not_lt.mpr h)]
  · intro hlow h
    rw [hneg m lat lngd h]
    linarith
  · rw [hneg _ _ _ hsample.1]
    linarith [hsample.2]

/-! ### Bounding boxes -/

/-- A checked access with an index inside the vector returns the element at
that index. -/
theorem vectorAt_of_bounds {α : Type} (v : List α) (i : Int) (h0 : 0 ≤ i)
    (h1 : i < (v.length : Int)) :
    ∃ a, vectorAt v i = .ok a ∧ v[i.toNat]? = some a := by
  have hlt : i.toNat < v.length := by omega
  refine ⟨v[i.toNat], ?_, List.getElem?_eq_getElem hlt⟩
  simp [vectorAt, h0, List.getElem?_eq_getElem hlt]

/-- One round of the loop of `showBoundingBox`, on a tracklet whose pose lookup
succeeds. -/
theorem showBoundingBox_loop_cons (m : Libm) (f : Int) (i0 : Nat) (t : KittiTracklet)
    (rest : List KittiTracklet) (pose : tPose) (markers : List Marker) (objects : List Object)
    (hpose : vectorAt t.poses (f - t.first_frame) = .ok pose)
    (hloop : showBoundingBox.loop m f (i0 + 1) rest = .ok (markers, objects)) :
    showBoundingBox.loop m f i0 (t :: rest)
      = .ok ((⟨(i0 : Int),
                ⟨toFloat pose.tx, toFloat pose.ty,
                  toFloat (toFloat pose.tz + toFloat (toFloat t.h / 2))⟩,
                ⟨0, 0, m.sin (toFloat (0.5 * toFloat pose.rz)),
                  m.cos (toFloat (0.5 * toFloat pose.rz))⟩, ⟨t.l, t.w, t.h⟩⟩ : Marker)
              :: markers,
             (⟨t.h, t.w, t.l, ⟨toFloat pose.tx, toFloat pose.ty, toFloat pose.tz⟩,
                toFloat pose.rz⟩ : Object) :: objects) := by
  have h2 : (2.0 : ℚ) = 2 := by norm_num
  simp only [showBoundingBox.loop, hpose, hloop, bind, Except.bind, pure, Except.pure, h2]

/-- The loop of `showBoundingBox`, started at counter `i0` on tracklets that
all have a pose at the frame `f`, runs through; it yields one marker and one
object per tracklet, in order, filled from the tracklet and its pose at index
`f - first_frame`, the pose values cast to `float`, the marker of the `k`-th
tracklet carrying the id `i0 + k`. -/
theorem showBoundingBox_loop_spec (m : Libm) (f : Int) :
    ∀ (ts : List KittiTracklet) (i0 : Nat),
      (∀ t ∈ ts, 0 ≤ f - t.first_frame ∧ f - t.first_frame < (t.poses.length : Int)) →
      ∃ markers objects, showBoundingBox.loop m f i0 ts = .ok (markers, objects)
        ∧ objects.length = ts.length ∧ markers.length = ts.length
        ∧ ∀ (k : Nat) (t : KittiTracklet), ts[k]? = some t →
            ∃ pose obj marker, t.poses[(f - t.first_frame).toNat]? = some pose
              ∧ objects[k]? = some obj ∧ markers[k]? = some marker
              ∧ obj.height = t.h ∧ obj.width = t.w ∧ obj.length = t.l
              ∧ obj.velo_pose = ⟨toFloat pose.tx, toFloat pose.ty, toFloat pose.tz⟩
              ∧ obj.heading = toFloat pose.rz
              ∧ marker.id = ((i0 + k : Nat) : Int) ∧ marker.scale = ⟨t.l, t.w, t.h⟩
              ∧ marker.position = ⟨toFloat pose.tx, toFloat pose.ty,
                  toFloat (toFloat pose.tz + toFloat (toFloat t.h / 2))⟩ := by
  intro ts
  induction ts with
  | nil =>
    intro i0 _
    exact ⟨[], [], rfl, rfl, rfl, by intro k t h; simp at h⟩
  | cons t rest ih =>
    intro i0 hvalid
    obtain ⟨h0, h1⟩ := hvalid t (List.mem_cons_self _ _)
    obtain ⟨pose, hpose, hget⟩ := vectorAt_of_bounds t.poses (f - t.first_frame) h0 h1
    obtain ⟨markers, objects, hloop, hlo, hlm, hall⟩ :=
      ih (i0 + 1) (fun t' ht' => hvalid t' (List.mem_cons_of_mem _ ht'))
    have hstep := showBoundingBox_loop_cons m f i0 t rest pose markers objects hpose hloop
    refine ⟨_, _, hstep, ?_, ?_, ?_⟩
    · simp [hlo]
    · simp [hlm]
    · intro k t' hk
      cases k with
      | zero =>
        simp only [List.getElem?_cons_zero, Option.some.injEq] at hk
        subst hk
        exact ⟨pose, _, _, hget, List.getElem?_cons_zero, List.getElem?_cons_zero,
          rfl, rfl, rfl, rfl, rfl, rfl, rfl, rfl⟩
      | succ k =>
        simp only [List.getElem?_cons_succ] at hk
        obtain ⟨pose', obj, marker, hp, ho, hm, e1, e2, e3, e4, e5, e6, e7, e8⟩ := hall k t' hk
        refine ⟨pose', obj, marker, hp, by simpa using ho, by simpa using hm, e1, e2, e3, e4, e5,
          ?_, e7, e8⟩
        rw [e6]
        congr 1
        omega

/-- C14: each tracklet `t` that `loadAvailableTracklets` returns at frame `f`
satisfies `0 ≤ f - t.first_frame < len (t.poses)`, the checked lookup
`poses.at (f - first_frame)` succeeds on it and reads `t.poses[f - first_frame]`;
so `showBoundingBox` runs through on the output of `loadAvailableTracklets` for
the same `f`; and when no tracklet is active the result is empty and
`showBoundingBox` leaves the object array as it is. -/
theorem loadAvailableTracklets_pose_lookup (m : Libm) (tracklets : List KittiTracklet)
    (f : Int) (object_array : List Object) :
    (∀ t ∈ loadAvailableTracklets tracklets f [],
        0 ≤ f - t.first_frame ∧ f - t.first_frame < (t.poses.length : Int)
        ∧ ∃ pose, vectorAt t.poses (f - t.first_frame) = .ok pose
            ∧ t.poses[(f - t.first_frame).toNat]? = some pose)
    ∧ (∃ r, showBoundingBox m f (loadAvailableTracklets tracklets f []) object_array = .ok r)
    ∧ ((∀ t ∈ tracklets, activeAtFrame f t = false) →
        loadAvailableTracklets tracklets f [] = []
        ∧ showBoundingBox m f (loadAvailableTracklets tracklets f []) object_array
            = .ok ([], object_array)) := by
  have hmem : ∀ t ∈ loadAvailableTracklets tracklets f [],
      0 ≤ f - t.first_frame ∧ f - t.first_frame < (t.poses.length : Int) := by
    intro t ht
    rw [loadAvailableTracklets_append, List.nil_append, List.mem_filter] at ht
    have hact := ht.2
    simp only [activeAtFrame, decide_eq_true_eq] at hact
    constructor <;> omega
  refine ⟨?_, ?_, ?_⟩
  · intro t ht
    obtain ⟨h0, h1⟩ := hmem t ht
    exact ⟨h0, h1, vectorAt_of_bounds t.poses _ h0 h1⟩
  · obtain ⟨markers, objects, hloop, _⟩ :=
      showBoundingBox_loop_spec m f (loadAvailableTracklets tracklets f []) 0 hmem
    exact ⟨(markers, object_array ++ objects), by
      simp only [showBoundingBox, hloop, bind, Except.bind, pure, Except.pure]⟩
  · intro hnone
    have hempty : loadAvailableTracklets tracklets f [] = [] := by
      rw [loadAvailableTracklets_append, List.nil_append, List.filter_eq_nil_iff]
      intro t ht
      simp [hnone t ht]
    refine ⟨hempty, ?_⟩
    rw [hempty]
    simp [showBoundingBox, showBoundingBox.loop, bind, Except.bind, pure, Except.pure]

/-- C15, as stated, fails: the tracklet whose pose at frame 0 has `tx = 0.1`
gets an object with the position `x = 13421773 / 2 ^ 27`, the `float` nearest
to one tenth, which is not `0.1`, and a marker with that same `x`. -/
theorem showBoundingBox_position_rounded :
    showBoundingBox sampleLibm 0 sampleCastTracklets []
      = .ok ([⟨0, ⟨13421773 / 134217728, 0, 1⟩, ⟨0, 0, 0, 1⟩, ⟨4, 2, 2⟩⟩],
             [⟨2, 2, 4, ⟨13421773 / 134217728, 0, 0⟩, 0⟩])
    ∧ (13421773 / 134217728 : ℚ) ≠ 0.1 := by
  constructor
  · have hstep := showBoundingBox_loop_cons sampleLibm 0 0
      { objectType := "Car", h := 2, w := 2, l := 4, first_frame := 0,
        poses := [⟨0.1, 0, 0, 0, 0, 0⟩] } [] ⟨0.1, 0, 0, 0, 0, 0⟩ [] [] rfl rfl
    have h01 : toFloat (0.1 : ℚ) = 13421773 / 134217728 := by
      rw [show (0.1 : ℚ) = 1 / 10 by norm_num]
      exact toFloat_tenth
    have hz : toFloat (0 + toFloat (toFloat 2 / 2)) = 1 := by
      rw [toFloat_small.2.2, show (2 : ℚ) / 2 = 1 by norm_num, toFloat_small.2.1,
        show (0 : ℚ) + 1 = 1 by norm_num]
      exact toFloat_small.2.1
    have ha : toFloat (0.5 * 0) = 0 := by
      rw [show (0.5 : ℚ) * 0 = 0 by norm_num]
      exact toFloat_small.1
    have hsin : ∀ q, sampleLibm.sin q = 0 := fun _ => rfl
    have hcos : ∀ q, sampleLibm.cos q = 1 := fun _ => rfl
    simp only [h01, toFloat_small.1, hz, ha, hsin, hcos, Nat.cast_zero] at hstep
    unfold showBoundingBox sampleCastTracklets
    rw [hstep]
    rfl
  · norm_num

/-- C15, amended: on a list of active tracklets that all have a pose at the
frame `f`, `showBoundingBox` appends to the object array one object per
tracklet, in the same order, and publishes one marker per tracklet; the `i`-th
object has the height, width and length of the `i`-th tracklet, and as
position and heading the values `tx`, `ty`, `tz` and `rz` of its pose at index
`f - first_frame` rounded to single precision; the `i`-th marker has the id
`i`, the scale `(l, w, h)` and the centre `(tx, ty, tz + h / 2)` with `tx`,
`ty`, `tz` and `h` rounded to single precision and the sum computed in single
precision. -/
theorem showBoundingBox_objects (m : Libm) (f : Int) (availableTracklets : List KittiTracklet)
    (object_array : List Object)
    (hvalid : ∀ t ∈ availableTracklets,
      0 ≤ f - t.first_frame ∧ f - t.first_frame < (t.poses.length : Int)) :
    ∃ markers objects,
      showBoundingBox m f availableTracklets object_array = .ok (markers, object_array ++ objects)
      ∧ objects.length = availableTracklets.length
      ∧ markers.length = availableTracklets.length
      ∧ ∀ (i : Nat) (t : KittiTracklet), availableTracklets[i]? = some t →
          ∃ pose obj marker, t.poses[(f - t.first_frame).toNat]? = some pose
            ∧ objects[i]? = some obj ∧ markers[i]? = some marker
            ∧ obj.height = t.h ∧ obj.width = t.w ∧ obj.length = t.l
            ∧ obj.velo_pose = ⟨toFloat pose.tx, toFloat pose.ty, toFloat pose.tz⟩
            ∧ obj.heading = toFloat pose.rz
            ∧ marker.id = (i : Int) ∧ marker.scale = ⟨t.l, t.w, t.h⟩
            ∧ marker.position = ⟨toFloat pose.tx, toFloat pose.ty,
                toFloat (toFloat pose.tz + toFloat (toFloat t.h / 2))⟩ := by
  obtain ⟨markers, objects, hloop, hlo, hlm, hall⟩ :=
    showBoundingBox_loop_spec m f availableTracklets 0 hvalid
  refine ⟨markers, objects, ?_, hlo, hlm, ?_⟩
  · simp only [showBoundingBox, hloop, bind, Except.bind, pure, Except.pure]
  · intro i t hi
    obtain ⟨pose, obj, marker, hp, ho, hm, e1, e2, e3, e4, e5, e6, e7, e8⟩ := hall i t hi
    exact ⟨pose, obj, marker, hp, ho, hm, e1, e2, e3, e4, e5, by simpa using e6, e7, e8⟩

/-- C15, amended, on the two sample tracklets at frame 1, with an empty object
array: two objects and two markers; the values of the poses are small
integers, which single precision holds without change, so that the first
object is the car at its pose 0, the second the pedestrian at its pose 1, and
the markers carry the ids 0 and 1 and the centres `(10, 1, 1)` and
`(5, -2, 1)`. -/
theorem showBoundingBox_objects_witness :
    ∃ markers objects,
      showBoundingBox sampleLibm 1 sampleTracklets [] = .ok (markers, [] ++ objects)
      ∧ objects = [⟨2, 2, 4, ⟨10, 1, 0⟩, 1⟩, ⟨2, 1, 1, ⟨5, -2, 0⟩, 0⟩]
      ∧ markers.map Marker.id = [0, 1]
      ∧ markers.map Marker.position = [⟨10, 1, 1⟩, ⟨5, -2, 1⟩] := by
  obtain ⟨markers, objects, hrun, _, _, _⟩ :=
    showBoundingBox_objects sampleLibm 1 sampleTracklets []
      (by intro t ht; simp [sampleTracklets] at ht; rcases ht with rfl | rfl <;> simp)
  have f10 : toFloat 10 = 10 := by simpa using toFloat_intCast 10 (by norm_num)
  have f5 : toFloat 5 = 5 := by simpa using toFloat_intCast 5 (by norm_num)
  have fm2 : toFloat (-2) = -2 := by simpa using toFloat_intCast (-2) (by norm_num)
  have hz : toFloat (0 + toFloat (toFloat 2 / 2)) = 1 := by
    rw [toFloat_small.2.2, show (2 : ℚ) / 2 = 1 by norm_num, toFloat_small.2.1,
      show (0 : ℚ) + 1 = 1 by norm_num]
    exact toFloat_small.2.1
  have hsin : ∀ q, sampleLibm.sin q = 0 := fun _ => rfl
  have hcos : ∀ q, sampleLibm.cos q = 1 := fun _ => rfl
  have hstep2 := showBoundingBox_loop_cons sampleLibm 1 1
    { objectType := "Pedestrian", h := 2, w := 1, l := 1, first_frame := 0,
      poses := [⟨5, -3, 0, 0, 0, 0⟩, ⟨5, -2, 0, 0, 0, 0⟩, ⟨5, -1, 0, 0, 0, 0⟩] } []
    ⟨5, -2, 0, 0, 0, 0⟩ [] [] rfl rfl
  have hstep1 := showBoundingBox_loop_cons sampleLibm 1 0
    { objectType := "Car", h := 2, w := 2, l := 4, first_frame := 1,
      poses := [⟨10, 1, 0, 0, 0, 1⟩, ⟨11, 1, 0, 0, 0, 1⟩] } _
    ⟨10, 1, 0, 0, 0, 1⟩ _ _ rfl hstep2
  have hz' : toFloat (toFloat (toFloat 2 / 2)) = 1 := by
    rw [toFloat_small.2.2, show (2 : ℚ) / 2 = 1 by norm_num, toFloat_small.2.1]
    exact toFloat_small.2.1
  simp only [f10, f5, fm2, toFloat_small.1, toFloat_small.2.1, hz, hz', hsin, hcos,
    Nat.cast_zero, Nat.cast_one, zero_add] at hstep1
  have heval : showBoundingBox sampleLibm 1 sampleTracklets []
      = .ok ([⟨0, ⟨10, 1, 1⟩, ⟨0, 0, 0, 1⟩, ⟨4, 2, 2⟩⟩,
              ⟨1, ⟨5, -2, 1⟩, ⟨0, 0, 0, 1⟩, ⟨1, 1, 2⟩⟩],
             [⟨2, 2, 4, ⟨10, 1, 0⟩, 1⟩, ⟨2, 1, 1, ⟨5, -2, 0⟩, 0⟩]) := by
    unfold showBoundingBox sampleTracklets
    rw [hstep1]
    rfl
  rw [heval] at hrun
  simp only [Except.ok.injEq, Prod.mk.injEq, List.nil_append] at hrun
  obtain ⟨hm, ho⟩ := hrun
  refine ⟨markers, objects, ?_, ho.symm, ?_, ?_⟩
  · rw [heval, ← hm, ← ho]
    rfl
  · rw [← hm]
    rfl
  · rw [← hm]
    rfl

/-! ### The synch gate -/

/-- Messages that are all false leave the waiting flag as it is. -/
theorem synch_fold_of_no_true (l : List Bool) (flag : Bool) (h : ∀ msg ∈ l, msg = false) :
    l.foldl (fun flag msg => synchCallback msg flag) flag = flag := by
  induction l generalizing flag with
  | nil => rfl
  | cons msg rest ih =>
    have hmsg : msg = false := h msg (List.mem_cons_self _ _)
    subst hmsg
    simpa [synchCallback] using ih flag (fun m hm => h m (List.mem_cons_of_mem _ hm))

/-- Once the waiting flag is `false`, further messages leave it `false`. -/
theorem synch_fold_of_false (l : List Bool) :
    l.foldl (fun flag msg => synchCallback msg flag) false = false := by
  induction l with
  | nil => rfl
  | cons msg rest ih =>
    cases msg <;> simpa [synchCallback] using ih

/-- Messages of which at least one is true clear the waiting flag. -/
theorem synch_fold_of_true (l : List Bool) (flag : Bool) (h : ∃ msg ∈ l, msg = true) :
    l.foldl (fun flag msg => synchCallback msg flag) flag = false := by
  induction l generalizing flag with
  | nil => obtain ⟨msg, hmem, _⟩ := h; simp at hmem
  | cons msg rest ih =>
    cases msg with
    | true => simpa [synchCallback] using synch_fold_of_false rest
    | false =>
      obtain ⟨m', hmem, hm'⟩ := h
      subst hm'
      have hrest : true ∈ rest := by simpa using hmem
      simpa [synchCallback] using ih flag ⟨true, hrest, rfl⟩

/-- The loop body in synch mode with the waiting flag set: only the flag can
change, through the messages dispatched by `ros::spinOnce ()`. -/
theorem loopBody_waiting (x : Extern) (w : World) (opts : Options) (st : LoopState)
    (hsync : opts.synchMode = true) (hwait : st.waitSynch = true) :
    loopBody x w opts st
      = .ok { st with
          waitSynch := (w.synch st.iteration).foldl (fun flag msg => synchCallback msg flag) true } := by
  simp [loopBody, hsync, hwait]

/-- In synch mode with the waiting flag set and no true message ever
dispatched, a run of the loop changes neither the frames played, nor the frame
counter, nor the player state, and the flag stays set. -/
theorem mainLoop_waiting (x : Extern) (w : World) (opts : Options)
    (hsync : opts.synchMode = true) :
    ∀ (fuel : Nat) (st : LoopState), st.waitSynch = true →
      (∀ k, st.iteration ≤ k → ∀ msg ∈ w.synch k, msg = false) →
      (mainLoop x w opts fuel st).state.played = st.played
      ∧ (mainLoop x w opts fuel st).state.entries_played = st.entries_played
      ∧ (mainLoop x w opts fuel st).state.waitSynch = true
      ∧ (mainLoop x w opts fuel st).state.player = st.player := by
  intro fuel
  induction fuel with
  | zero => intro st hwait _; exact ⟨rfl, rfl, hwait, rfl⟩
  | succ fuel ih =>
    intro st hwait hnone
    rw [mainLoop, loopBody_waiting x w opts st hsync hwait,
      synch_fold_of_no_true _ true (hnone st.iteration (le_refl _))]
    simp only
    by_cases hc : loopCondition w st.iteration st.entries_played = true
    · rw [if_pos hc]
      exact ih _ rfl (fun k hk => hnone k (by simp only at hk; omega))
    · rw [if_neg hc]
      exact ⟨rfl, rfl, rfl, rfl⟩

set_option maxRecDepth 100000 in
/-- C11, as stated, fails: on the sample sequence with synch mode on and no
synch message ever dispatched, the loop started at frame 0 plays frame 0 and
advances the frame counter to 1. -/
theorem synch_first_cycle_not_gated :
    (mainLoop sampleExtern sampleWorld (sampleSynchOptions 0) 5
        (LoopState.initial sampleWorld (sampleSynchOptions 0))).state.played = [0]
    ∧ (mainLoop sampleExtern sampleWorld (sampleSynchOptions 0) 5
        (LoopState.initial sampleWorld (sampleSynchOptions 0))).state.entries_played = 1 := by
  constructor <;> decide

/-- C11, amended: with synch mode on and no true synch message ever dispatched,
the loop entered in the initial state runs exactly one publishing cycle, that
of the start frame (the waiting flag starts cleared), and none after it: for
every number of iterations the frames played are the start frame alone, and
when that cycle runs through the frame counter stays at the start frame plus
one, with the waiting flag set. -/
theorem synch_without_signal (x : Extern) (w : World) (opts : Options) (fuel : Nat)
    (hsync : opts.synchMode = true)
    (hnone : ∀ k, ∀ msg ∈ w.synch k, msg = false) :
    (mainLoop x w opts (fuel + 1) (LoopState.initial w opts)).state.played = [opts.startFrame]
    ∧ (∀ player, publishCycle x w opts opts.startFrame (PlayerState.initial w opts) = .ok player →
        (mainLoop x w opts (fuel + 1) (LoopState.initial w opts)).state.entries_played
            = (opts.startFrame + 1) % 2 ^ 32
        ∧ (mainLoop x w opts (fuel + 1) (LoopState.initial w opts)).state.waitSynch = true
        ∧ (mainLoop x w opts (fuel + 1) (LoopState.initial w opts)).state.player = player) := by
  have hgate : (opts.synchMode && (LoopState.initial w opts).waitSynch) = false := by
    simp [LoopState.initial]
  cases hcycle : publishCycle x w opts (LoopState.initial w opts).entries_played
      (LoopState.initial w opts).player with
  | error a =>
    rw [mainLoop_succ_of_cycle_error x w opts fuel _ a hgate hcycle]
    refine ⟨by simp [Outcome.state, LoopState.atAbort, LoopState.initial], ?_⟩
    intro player hplayer
    simp only [LoopState.initial] at hcycle
    rw [hcycle] at hplayer
    simp at hplayer
  | ok player =>
    rw [mainLoop_succ_of_cycle_ok x w opts fuel _ player hgate hcycle]
    have hplayer : ∀ player', publishCycle x w opts opts.startFrame (PlayerState.initial w opts)
        = .ok player' → player' = player := by
      intro player' h
      simp only [LoopState.initial] at hcycle
      rw [hcycle] at h
      exact (Except.ok.inj h).symm
    by_cases hc : loopCondition w (LoopState.initial w opts).iteration
        ((LoopState.initial w opts).afterCycle opts player).entries_played = true
    · rw [if_pos hc]
      obtain ⟨h1, h2, h3, h4⟩ := mainLoop_waiting x w opts hsync fuel
        { (LoopState.initial w opts).afterCycle opts player with
          iteration := (LoopState.initial w opts).iteration + 1 }
        (by simp [LoopState.afterCycle, hsync]) (fun k _ => hnone k)
      refine ⟨by rw [h1]; simp [LoopState.afterCycle, LoopState.initial], ?_⟩
      intro player' h
      rw [hplayer player' h]
      exact ⟨by rw [h2]; simp [LoopState.afterCycle, LoopState.initial], h3,
        by rw [h4]; rfl⟩
    · rw [if_neg hc]
      refine ⟨by simp [Outcome.state, LoopState.afterCycle, LoopState.initial], ?_⟩
      intro player' h
      rw [hplayer player' h]
      exact ⟨by simp [Outcome.state, LoopState.afterCycle, LoopState.initial],
        by simp [Outcome.state, LoopState.afterCycle, hsync], rfl⟩

/-- C11, amended, on the sample sequence with synch mode on, started at frame
0 with no message dispatched: after five iterations frame 0 alone was played. -/
theorem synch_without_signal_witness :
    (mainLoop sampleExtern sampleWorld (sampleSynchOptions 0) (4 + 1)
        (LoopState.initial sampleWorld (sampleSynchOptions 0))).state.played = [0] :=
  (synch_without_signal sampleExtern sampleWorld (sampleSynchOptions 0) 4 rfl
    (fun k msg h => by simp [sampleWorld] at h)).1

/-- In synch mode, from a state with the waiting flag set: when the
`ros::spinOnce ()` of the next iteration dispatches at least one true message
and no true message comes later, the loop condition holds and the cycle runs
through, then any run of two or more iterations plays exactly the one frame
at the counter, advances the counter by one and ends with the flag set. -/
theorem mainLoop_one_signal (x : Extern) (w : World) (opts : Options) (st : LoopState)
    (player : PlayerState) (hsync : opts.synchMode = true) (hwait : st.waitSynch = true)
    (hsignal : ∃ msg ∈ w.synch st.iteration, msg = true)
    (hlater : ∀ k, st.iteration < k → ∀ msg ∈ w.synch k, msg = false)
    (hcond : loopCondition w st.iteration st.entries_played = true)
    (hcycle : publishCycle x w opts st.entries_played st.player = .ok player) :
    ∀ fuel, 2 ≤ fuel →
      (mainLoop x w opts fuel st).state.played = st.played ++ [st.entries_played]
      ∧ (mainLoop x w opts fuel st).state.entries_played = (st.entries_played + 1) % 2 ^ 32
      ∧ (mainLoop x w opts fuel st).state.waitSynch = true
      ∧ (mainLoop x w opts fuel st).state.player = player := by
  intro fuel hfuel
  obtain ⟨f, rfl⟩ : ∃ f, fuel = f + 1 + 1 := ⟨fuel - 2, by omega⟩
  rw [mainLoop, loopBody_waiting x w opts st hsync hwait, synch_fold_of_true _ true hsignal]
  simp only
  rw [if_pos hcond]
  have hgate : (opts.synchMode
      && ({ st with waitSynch := false, iteration := st.iteration + 1 } : LoopState).waitSynch)
      = false := by simp
  have hstep := mainLoop_succ_of_cycle_ok x w opts f
    { st with waitSynch := false, iteration := st.iteration + 1 } player hgate hcycle
  rw [hstep]
  by_cases hc : loopCondition w
      ({ st with waitSynch := false, iteration := st.iteration + 1 } : LoopState).iteration
      (LoopState.afterCycle opts { st with waitSynch := false, iteration := st.iteration + 1 }
        player).entries_played = true
  · rw [if_pos hc]
    obtain ⟨h1, h2, h3, h4⟩ := mainLoop_waiting x w opts hsync f
      { LoopState.afterCycle opts { st with waitSynch := false, iteration := st.iteration + 1 }
          player with
        iteration := ({ st with waitSynch := false, iteration := st.iteration + 1 }
          : LoopState).iteration + 1 }
      (by simp [LoopState.afterCycle, hsync])
      (fun k hk => hlater k (by simp only at hk; omega))
    exact ⟨by rw [h1]; rfl, by rw [h2]; rfl, h3, by rw [h4]; rfl⟩
  · rw [if_neg hc]
    exact ⟨rfl, rfl, by simp [Outcome.state, LoopState.afterCycle, hsync], rfl⟩

/-- One iteration of the loop leaves the frame counter as it is or advances it
by one modulo `2 ^ 32`. -/
theorem loopBody_entries_played (x : Extern) (w : World) (opts : Options) (st st' : LoopState)
    (h : loopBody x w opts st = .ok st') :
    st'.entries_played = st.entries_played
    ∨ st'.entries_played = (st.entries_played + 1) % 2 ^ 32 := by
  by_cases hgate : (opts.synchMode && st.waitSynch) = true
  · simp only [loopBody, hgate, if_true] at h
    injection h with h
    left
    rw [← h]
  · have hgate' : (opts.synchMode && st.waitSynch) = false := by simpa using hgate
    cases hcycle : publishCycle x w opts st.entries_played st.player with
    | error a =>
      rw [loopBody_of_cycle_error x w opts st a hgate' hcycle] at h
      simp at h
    | ok player =>
      rw [loopBody_of_cycle_ok x w opts st player hgate' hcycle] at h
      injection h with h
      right
      rw [← h]
      rfl

/-- When the loop condition holds for every value of the frame counter, no run
of the loop ends through the condition. -/
theorem mainLoop_never_finished (x : Extern) (w : World) (opts : Options)
    (hcond : ∀ k e, e < 2 ^ 32 → loopCondition w k e = true) :
    ∀ (fuel : Nat) (st : LoopState), st.entries_played < 2 ^ 32 →
      (mainLoop x w opts fuel st).isFinished = false := by
  intro fuel
  induction fuel with
  | zero => intro st _; rfl
  | succ fuel ih =>
    intro st hst
    rw [mainLoop]
    cases hb : loopBody x w opts st with
    | error e =>
      obtain ⟨a, s⟩ := e
      rfl
    | ok st' =>
      have hbound : st'.entries_played < 2 ^ 32 := by
        rcases loopBody_entries_played x w opts st st' hb with h | h
        · rw [h]; exact hst
        · rw [h]; exact Nat.mod_lt _ (by norm_num)
      simp only
      rw [if_pos (hcond st.iteration st'.entries_played hbound)]
      exact ih _ hbound

/-- C20: with no entry counted (`total_entries = 0`) and the start frame 0, the
start-frame check passes; `total_entries - 1` in `unsigned int` arithmetic is
`4294967295`, so the index part of the loop condition holds for every value of
the frame counter; and with the node staying ok no run of the frame loop ends
through its condition, however many iterations it is given. -/
theorem frame_loop_unbounded_on_zero_entries (x : Extern) (w : World) (opts : Options)
    (htotal : w.total_entries = 0) (hstart : opts.startFrame = 0)
    (hok : ∀ k, w.ok k = true) :
    startFrameCheck w opts = true
    ∧ (w.total_entries % 2 ^ 32 + 2 ^ 32 - 1) % 2 ^ 32 = 4294967295
    ∧ (∀ k e, e < 2 ^ 32 → loopCondition w k e = true)
    ∧ (∀ fuel, (main x w opts fuel).isFinished = false) := by
  have hwrap : (w.total_entries % 2 ^ 32 + 2 ^ 32 - 1) % 2 ^ 32 = 4294967295 := by
    rw [htotal]
    norm_num
  have hcond : ∀ k e, e < 2 ^ 32 → loopCondition w k e = true := by
    intro k e he
    have he' : e ≤ 4294967295 := by
      have h232 : (2 : Nat) ^ 32 = 4294967296 := by norm_num
      rw [h232] at he
      omega
    simp only [loopCondition, hwrap, hok, Bool.and_true, decide_eq_true_eq]
    exact he'
  refine ⟨by simp [startFrameCheck, htotal, hstart], hwrap, hcond, ?_⟩
  intro fuel
  unfold main
  split
  · rfl
  · split
    · rfl
    · exact mainLoop_never_finished x w opts hcond fuel _
        (by simp [LoopState.initial, hstart])

set_option maxRecDepth 100000 in
/-- C20 on the sample sequence with no entry counted, started at frame 0: the
check passes, after ten iterations allowed the loop has not ended through its
condition, and it went on past its first frame. -/
theorem frame_loop_unbounded_on_zero_entries_witness :
    startFrameCheck sampleEmptyWorld (sampleOptions 0) = true
    ∧ (main sampleExtern sampleEmptyWorld (sampleOptions 0) 10).isFinished = false
    ∧ (main sampleExtern sampleEmptyWorld (sampleOptions 0) 10).state.played.length > 1 := by
  obtain ⟨hcheck, _, _, hrun⟩ :=
    frame_loop_unbounded_on_zero_entries sampleExtern sampleEmptyWorld (sampleOptions 0)
      rfl rfl (fun _ => rfl)
  exact ⟨hcheck, hrun 10, by decide⟩

/-! ### Failures of the trace readers -/

/-- A checked access with an index outside the vector throws. -/
theorem vectorAt_out_of_range {α : Type} (v : List α) (i : Int)
    (h : i < 0 ∨ (v.length : Int) ≤ i) : vectorAt v i = .error .out_of_range := by
  unfold vectorAt
  split
  · rename_i h0
    have hnone : v[i.toNat]? = none := by
      rw [List.getElem?_eq_none_iff]
      omega
    rw [hnone]
  · rfl

/-- C17 fails on the code for short lines: `getGPS` and `getIMU` throw
`std::out_of_range` when the frame index is outside the lines, and
`boost::bad_lexical_cast` on a field that is no number (here: longitude `x`),
but on a line with too few tokens (here 3 tokens for `getGPS`, 13 for `getIMU`)
they index the token vector past its end with the unchecked `operator[]`,
which is undefined behaviour and no error raised by the code. -/
theorem getGPS_getIMU_failures (x : Extern) (lines : List String) (entries : Int) :
    ((entries < 0 ∨ (lines.length : Int) ≤ entries) →
        getGPS x lines entries = .error .out_of_range
        ∧ getIMU x lines entries = .error .out_of_range)
    ∧ getGPS sampleExtern ["49 x 110 0 0 0 0 0 0 0 0 0 0 0 0 0 0 0 0 0 0 0 0 2 0 0 0 0 0 0"] 0
        = .error .bad_lexical_cast
    ∧ getGPS sampleExtern ["49 8 110"] 0 = .error .undefined_access
    ∧ getIMU sampleExtern ["0 1 2 3 4 5 6 7 8 9 10 11 12"] 0 = .error .undefined_access := by
  refine ⟨?_, by rfl, by rfl, by rfl⟩
  intro h
  have hline := vectorAt_out_of_range lines entries h
  constructor
  · simp only [getGPS, hline, bind, Except.bind]
  · simp only [getIMU, hline, bind, Except.bind]

/-! ### Projection with a matrix of the wrong size -/

/-- With a matrix that is not 3 x 4, `projectPoint2Image` leaves the output
pixel as it was passed in. -/
theorem projectPoint2Image_rejected (pointIn : PointXYZI) (projectmatrix : MatrixXf)
    (point_project : Point2f) (hbad : ¬ (projectmatrix.rows = 3 ∧ projectmatrix.cols = 4)) :
    projectPoint2Image pointIn projectmatrix point_project = (false, point_project) := by
  simp [projectPoint2Image, hbad]

/-- C22: with a matrix that is not 3 x 4, `ProjectCloud2Image` does not act on
the rejection reported by `projectPoint2Image`: it still draws one marker for
each point that is not skipped (`x ≥ 0`), in cloud order and with the distance
colour of the point, and every marker is placed at the default pixel
`(0, 0)`. -/
theorem ProjectCloud2Image_wrong_matrix (sqrt : ℚ → ℚ) (projectmatrix : MatrixXf)
    (cloudIn : List PointXYZI)
    (hbad : ¬ (projectmatrix.rows = 3 ∧ projectmatrix.cols = 4)) :
    (∀ p ∈ cloudIn, (projectPoint2Image p projectmatrix ⟨0, 0⟩).1 = false)
    ∧ ProjectCloud2Image sqrt cloudIn projectmatrix
        = (cloudIn.filter (fun p => decide (0 ≤ p.x))).map
            (fun p => ⟨⟨0, 0⟩, ProjectCloud2Image.toColor sqrt p⟩)
    ∧ (ProjectCloud2Image sqrt cloudIn projectmatrix).length
        = (cloudIn.filter (fun p => decide (0 ≤ p.x))).length
    ∧ (∀ c ∈ ProjectCloud2Image sqrt cloudIn projectmatrix, c.image_point = ⟨0, 0⟩) := by
  have hmap : ProjectCloud2Image sqrt cloudIn projectmatrix
      = (cloudIn.filter (fun p => decide (0 ≤ p.x))).map
          (fun p => ⟨⟨0, 0⟩, ProjectCloud2Image.toColor sqrt p⟩) := by
    rw [ProjectCloud2Image_eq_map]
    apply List.map_congr_left
    intro p _
    rw [projectPoint2Image_rejected p projectmatrix ⟨0, 0⟩ hbad]
  refine ⟨?_, hmap, ?_, ?_⟩
  · intro p _
    rw [projectPoint2Image_rejected p projectmatrix ⟨0, 0⟩ hbad]
  · rw [hmap, List.length_map]
  · intro c hc
    rw [hmap, List.mem_map] at hc
    obtain ⟨p, _, hp⟩ := hc
    rw [← hp]

/-- C22 on a cloud of three points and the 4 x 4 identity matrix: the point
behind the sensor is skipped and the two others get a marker at `(0, 0)`. -/
theorem ProjectCloud2Image_wrong_matrix_witness :
    (ProjectCloud2Image tableSqrt [⟨1, 0, 0, 0⟩, ⟨-3, 2, 0, 0⟩, ⟨70, 0, 0, 0⟩]
        sampleSquareMatrix).length = 2
    ∧ (∀ c ∈ ProjectCloud2Image tableSqrt [⟨1, 0, 0, 0⟩, ⟨-3, 2, 0, 0⟩, ⟨70, 0, 0, 0⟩]
        sampleSquareMatrix, c.image_point = ⟨0, 0⟩) := by
  obtain ⟨_, _, hlen, hpix⟩ :=
    ProjectCloud2Image_wrong_matrix tableSqrt sampleSquareMatrix
      [⟨1, 0, 0, 0⟩, ⟨-3, 2, 0, 0⟩, ⟨70, 0, 0, 0⟩] (by simp [sampleSquareMatrix])
  refine ⟨?_, hpix⟩
  rw [hlen]
  simp

/-! ### The GPS fix and the pose of the first cycle -/

end KittiPlayer
